import Mathlib

/-!
# Verification of the KTechlab `ItemDocumentData` persistence core

This file gives a shallow embedding of `itemdocumentdata.cpp` (the document
snapshot data model: serialization, parsing, identifier remapping, geometry
translation, merge/restore against a live document, and sub-circuit
extraction), and proves or refutes the specification's testable properties
against it.

Modelling conventions, used throughout:

* `QMap<QString, T>` is modelled as `List (String × T)` in the map's
  iteration order.  `amInsert` models `QMap::insert` / `operator[]=`
  (replace in place when the key is present, append otherwise; in all code
  paths proved about here fresh keys arrive in iteration order, so the list
  order is exactly QMap's).  `amLookup` models lookup, `amGet` models the
  read side of `operator[]` (default-constructed value when absent).
* Coordinates are `double` in the source but are written with
  `QDomElement::setAttribute` and re-read with `QString::toInt`; every
  arithmetic operation performed on them in this file's scope is integral,
  so they are modelled as `Int` (floating-point formatting is Qt library
  code, outside the repository).
* Conversions between numbers and decimal text (`QString::number`,
  `QString::toInt`) are Qt library code; they are modelled from the spec
  ("standard textual round-trip", §4.1) by the executable codec
  `qStringOfInt` / `qStringToInt` below, whose round-trip is proved, not
  assumed.
-/

/-! ## Association-list model of QMap -/

/-- Lookup in a QMap modelled as an association list (first match). -/
def amLookup {α : Type} : List (String × α) → String → Option α
  | [], _ => none
  | (k, v) :: r, n => if k = n then some v else amLookup r n

/-- `QMap::insert` / `operator[] =`: replace in place if present, else append. -/
def amInsert {α : Type} : List (String × α) → String → α → List (String × α)
  | [], k, v => [(k, v)]
  | (k', v') :: r, k, v => if k' = k then (k, v) :: r else (k', v') :: amInsert r k v

/-- `QMap::contains`. -/
def amContains {α : Type} (m : List (String × α)) (k : String) : Bool :=
  (amLookup m k).isSome

/-- Read side of `QMap::operator[]`: the stored value, or a default-constructed
one when the key is absent.  (The real `operator[]` also inserts the default;
in every code path modelled here such a read is never followed by a lookup
that could observe the inserted default before it is overwritten, so the pure
read is observationally equivalent.) -/
def amGet {α : Type} (m : List (String × α)) (k : String) (dflt : α) : α :=
  (amLookup m k).getD dflt

/-- Mutation through `QMap::operator[]` (`m[k].field = v` style). -/
def amUpd {α : Type} (m : List (String × α)) (k : String) (dflt : α) (f : α → α) :
    List (String × α) :=
  amInsert m k (f (amGet m k dflt))

/-- `QMap::remove`. -/
def amRemove {α : Type} (m : List (String × α)) (k : String) : List (String × α) :=
  m.filter (fun kv => kv.1 ≠ k)

/-- The keys of a map, in iteration order. -/
def amKeys {α : Type} (m : List (String × α)) : List String :=
  m.map Prod.fst

@[simp] theorem amLookup_nil {α : Type} (n : String) : amLookup ([] : List (String × α)) n = none := rfl

@[simp] theorem amLookup_cons {α : Type} (k : String) (v : α) (r : List (String × α)) (n : String) :
    amLookup ((k, v) :: r) n = if k = n then some v else amLookup r n := rfl

@[simp] theorem amInsert_nil {α : Type} (k : String) (v : α) :
    amInsert ([] : List (String × α)) k v = [(k, v)] := rfl

@[simp] theorem amInsert_cons {α : Type} (k' : String) (v' : α) (r : List (String × α)) (k : String) (v : α) :
    amInsert ((k', v') :: r) k v = if k' = k then (k, v) :: r else (k', v') :: amInsert r k v := rfl

theorem amLookup_amInsert_self {α : Type} (m : List (String × α)) (k : String) (v : α) :
    amLookup (amInsert m k v) k = some v := by
  induction m with
  | nil => simp
  | cons kv r ih =>
    obtain ⟨k', v'⟩ := kv
    by_cases h : k' = k <;> simp [h, ih]

theorem amLookup_amInsert_ne {α : Type} (m : List (String × α)) (k n : String) (v : α)
    (h : k ≠ n) : amLookup (amInsert m k v) n = amLookup m n := by
  induction m with
  | nil => simp [h]
  | cons kv r ih =>
    obtain ⟨k', v'⟩ := kv
    by_cases h' : k' = k
    · subst h'
      simp [h]
    · simp only [amInsert_cons, if_neg h']
      by_cases h'' : k' = n <;> simp [h'', ih]

/-- Inserting a fresh key appends it. -/
theorem amInsert_absent {α : Type} (m : List (String × α)) (k : String) (v : α)
    (h : amLookup m k = none) : amInsert m k v = m ++ [(k, v)] := by
  induction m with
  | nil => simp
  | cons kv r ih =>
    obtain ⟨k', v'⟩ := kv
    by_cases h' : k' = k
    · simp [h'] at h
    · simp only [amLookup_cons, if_neg h'] at h
      simp [h', ih h]

/-! ## Decimal codec (model of `QString::number(int)` / `QString::toInt`) -/

/-- The decimal digits of a natural number, most significant first
(model of Qt's decimal rendering). -/
def natDigits (n : Nat) : List Char :=
  if h : n < 10 then [Nat.digitChar n]
  else natDigits (n / 10) ++ [Nat.digitChar (n % 10)]
decreasing_by exact Nat.div_lt_self (by omega) (by omega)

/-- Value accumulated from decimal digit characters. -/
def digitsToNat (cs : List Char) : Nat :=
  cs.foldl (fun a c => 10 * a + (c.toNat - 48)) 0

theorem digitsToNat_append_digit (xs : List Char) (c : Char) :
    digitsToNat (xs ++ [c]) = 10 * digitsToNat xs + (c.toNat - 48) := by
  simp [digitsToNat]

theorem digitChar_toNat_of_lt (d : Nat) (h : d < 10) : (Nat.digitChar d).toNat - 48 = d := by
  revert h
  revert d
  decide

theorem digitChar_isDigit_of_lt (d : Nat) (h : d < 10) : (Nat.digitChar d).isDigit = true := by
  revert h
  revert d
  decide

theorem natDigits_spec (n : Nat) :
    digitsToNat (natDigits n) = n ∧ natDigits n ≠ [] ∧
      ∀ c ∈ natDigits n, c.isDigit = true := by
  induction n using Nat.strong_induction_on with
  | _ n ih =>
    by_cases h : n < 10
    · refine ⟨?_, ?_, ?_⟩
      · simp [natDigits, h, digitsToNat, digitChar_toNat_of_lt n h]
      · simp [natDigits, h]
      · intro c hc
        simp [natDigits, h] at hc
        subst hc
        exact digitChar_isDigit_of_lt n h
    · have hd : n / 10 < n := Nat.div_lt_self (by omega) (by omega)
      obtain ⟨ih1, _, ih3⟩ := ih (n / 10) hd
      rw [natDigits]
      simp only [dif_neg h]
      refine ⟨?_, by simp, ?_⟩
      · rw [digitsToNat_append_digit, ih1, digitChar_toNat_of_lt (n % 10) (by omega)]
        omega
      · intro c hc
        rcases List.mem_append.1 hc with hc' | hc'
        · exact ih3 c hc'
        · simp at hc'
          subst hc'
          exact digitChar_isDigit_of_lt (n % 10) (by omega)

/-- Model of `QString::number` on an integer (also used for the `double`
values of this file's scope, which are integral, see the header comment). -/
def qStringOfInt (n : Int) : String :=
  match n with
  | Int.ofNat m => String.mk (natDigits m)
  | Int.negSucc m => String.mk ('-' :: natDigits (m + 1))

/-- Helper for `qStringToInt`: all-digit strings parse, everything else fails. -/
def decDigitsToNat? (cs : List Char) : Option Nat :=
  if cs ≠ [] ∧ cs.all Char.isDigit then some (digitsToNat cs) else none

/-- List-level worker for `qStringToInt`. -/
def charsToInt : List Char → Int
  | [] => 0
  | c :: rest =>
    if c = '-' then
      match decDigitsToNat? rest with
      | some n => -(n : Int)
      | none => 0
    else
      match decDigitsToNat? (c :: rest) with
      | some n => (n : Int)
      | none => 0

/-- Model of `QString::toInt`: an optional minus sign followed by decimal
digits; any other input yields 0 (the documented soft-failure default). -/
def qStringToInt (s : String) : Int :=
  charsToInt s.data

theorem decDigitsToNat?_natDigits (m : Nat) :
    decDigitsToNat? (natDigits m) = some m := by
  obtain ⟨h1, h2, h3⟩ := natDigits_spec m
  have hall : (natDigits m).all Char.isDigit = true := by
    rw [List.all_eq_true]
    exact fun c hc => h3 c hc
  rw [decDigitsToNat?, if_pos ⟨h2, hall⟩, h1]

theorem qStringToInt_qStringOfInt (n : Int) : qStringToInt (qStringOfInt n) = n := by
  match n with
  | Int.ofNat m =>
    obtain ⟨h1, h2, h3⟩ := natDigits_spec m
    rw [qStringOfInt]
    show charsToInt (natDigits m) = Int.ofNat m
    rcases hm : natDigits m with _ | ⟨c, rest⟩
    · exact absurd hm h2
    · have hc : c.isDigit = true := by
        refine h3 c ?_
        rw [hm]
        exact List.mem_cons_self c rest
      have hcne : ¬(c = '-') := by
        intro hcm
        subst hcm
        simp [Char.isDigit] at hc
      rw [charsToInt, if_neg hcne, ← hm, decDigitsToNat?_natDigits]
      rfl
  | Int.negSucc m =>
    rw [qStringOfInt]
    show charsToInt ('-' :: natDigits (m + 1)) = Int.negSucc m
    rw [charsToInt, if_pos rfl, decDigitsToNat?_natDigits, Int.negSucc_eq]
    simp

theorem qStringOfInt_ne_empty (n : Int) : qStringOfInt n ≠ "" := by
  match n with
  | Int.ofNat m =>
    obtain ⟨_, h2, _⟩ := natDigits_spec m
    rw [qStringOfInt]
    intro hcontra
    apply h2
    have hd := congrArg String.data hcontra
    simpa using hd
  | Int.negSucc m =>
    rw [qStringOfInt]
    intro hcontra
    have hd := congrArg String.data hcontra
    simp at hd

theorem mem_qStringOfInt_digit_or_minus (n : Int) (c : Char)
    (h : c ∈ (qStringOfInt n).data) : c.isDigit = true ∨ c = '-' := by
  cases n with
  | ofNat m =>
    obtain ⟨_, _, h3⟩ := natDigits_spec m
    rw [qStringOfInt] at h
    exact Or.inl (h3 c h)
  | negSucc m =>
    obtain ⟨_, _, h3⟩ := natDigits_spec (m + 1)
    rw [qStringOfInt] at h
    have hmem : c ∈ '-' :: natDigits (m + 1) := h
    rcases List.mem_cons.1 hmem with hcm | hcm
    · exact Or.inr hcm
    · exact Or.inl (h3 c hcm)

/-! ## Character splitting (model of `QString::split` with `Qt::SkipEmptyParts`) -/

/-- Split a character list at every occurrence of `c`, keeping empty parts. -/
def splitCh (c : Char) : List Char → List (List Char)
  | [] => [[]]
  | x :: xs =>
    if x = c then [] :: splitCh c xs
    else
      match splitCh c xs with
      | [] => [[x]]
      | h :: t => (x :: h) :: t

theorem splitCh_ne_nil (c : Char) (l : List Char) : splitCh c l ≠ [] := by
  induction l with
  | nil => simp [splitCh]
  | cons x xs ih =>
    rw [splitCh]
    by_cases h : x = c
    · simp [h]
    · simp only [if_neg h]
      rcases hs : splitCh c xs with _ | ⟨hh, tt⟩ <;> simp

/-- Splitting a separator-free token followed by a separator peels off the token. -/
theorem splitCh_token (c : Char) (tok rest : List Char) (h : c ∉ tok) :
    splitCh c (tok ++ c :: rest) = tok :: splitCh c rest := by
  induction tok with
  | nil => simp [splitCh]
  | cons x xs ih =>
    have hx : ¬(x = c) := by
      intro hx
      exact h (hx ▸ List.mem_cons_self x xs)
    have hxs : c ∉ xs := fun hc => h (List.mem_cons_of_mem x hc)
    rw [List.cons_append, splitCh, if_neg hx, ih hxs]

/-- Model of `QString::split(sep, Qt::SkipEmptyParts)`. -/
def qSplitSkipEmpty (c : Char) (s : String) : List String :=
  ((splitCh c s.data).filter (fun p => ¬(p = []))).map String.mk

/-- The textual form of a token list joined with a trailing separator after
each token (the form built by `ItemDocumentData::connectorDataToElement`). -/
def joinTrail (c : Char) (ts : List String) : String :=
  String.mk (ts.flatMap (fun t => t.data ++ [c]))

theorem string_mk_data (s : String) : String.mk s.data = s := rfl

/-- Splitting the joined form of nonempty, separator-free tokens recovers them. -/
theorem qSplitSkipEmpty_joinTrail (c : Char) (ts : List String)
    (h : ∀ t ∈ ts, t ≠ "" ∧ c ∉ t.data) :
    qSplitSkipEmpty c (joinTrail c ts) = ts := by
  induction ts with
  | nil => simp [qSplitSkipEmpty, joinTrail, splitCh]
  | cons t rest ih =>
    obtain ⟨ht1, ht2⟩ := h t (List.mem_cons_self t rest)
    have hdata : t.data ≠ [] := by
      intro hd
      apply ht1
      have hmk : String.mk t.data = String.mk [] := by rw [hd]
      rwa [string_mk_data] at hmk
    have hrest := ih (fun u hu => h u (List.mem_cons_of_mem t hu))
    have hjoin : (joinTrail c (t :: rest)).data = t.data ++ c :: (joinTrail c rest).data := by
      simp [joinTrail]
    rw [qSplitSkipEmpty, hjoin, splitCh_token c _ _ ht2,
        List.filter_cons_of_pos (by simp [hdata]), List.map_cons, string_mk_data]
    exact congrArg (List.cons t) hrest

/-! ## The bit-vector / hex codec (`toAsciiHex`, `toQBitArray`; claim C6) -/

/-- Zero-padding of a `QBitArray` up to a multiple of four bits
(the `resize` in `toAsciiHex`; `QBitArray::resize` pads with 0 bits). -/
def hexPad (d : List Bool) : List Bool :=
  if d.length % 4 = 0 then d else d ++ List.replicate (4 - d.length % 4) false

/-- One hex character per 4-bit group, least-significant bit first within the
group (`val += (data[4*i+j] ? 1 : 0) << j` then `QString::number(val, 16)`). -/
def bitsToHexChars : List Bool → List Char
  | b0 :: b1 :: b2 :: b3 :: rest =>
    Nat.digitChar ((if b0 then 1 else 0) + 2 * (if b1 then 1 else 0) +
      4 * (if b2 then 1 else 0) + 8 * (if b3 then 1 else 0)) :: bitsToHexChars rest
  | _ => []

/-- `toAsciiHex` from the source: pad to a multiple of four bits, then one
lowercase hex digit per group. -/
def toAsciiHex (d : List Bool) : String :=
  String.mk (bitsToHexChars (hexPad d))

/-- Value of one character parsed as a hex digit
(`QString(text[i]).toInt(nullptr, 16)`, yielding 0 on a non-hex character). -/
def hexCharVal (c : Char) : Nat :=
  if '0' ≤ c ∧ c ≤ '9' then c.toNat - '0'.toNat
  else if 'a' ≤ c ∧ c ≤ 'f' then c.toNat - 'a'.toNat + 10
  else if 'A' ≤ c ∧ c ≤ 'F' then c.toNat - 'A'.toNat + 10
  else 0

/-- The four bits of one hex character, least-significant bit first
(`data[4*i+j] = val & (1 << j)`). -/
def hexCharBits (c : Char) : List Bool :=
  [(hexCharVal c).testBit 0, (hexCharVal c).testBit 1,
   (hexCharVal c).testBit 2, (hexCharVal c).testBit 3]

/-- `toQBitArray` from the source: four bits per input character. -/
def toQBitArray (s : String) : List Bool :=
  s.data.flatMap hexCharBits

theorem hexCharBits_digitChar (b0 b1 b2 b3 : Bool) :
    hexCharBits (Nat.digitChar ((if b0 then 1 else 0) + 2 * (if b1 then 1 else 0) +
      4 * (if b2 then 1 else 0) + 8 * (if b3 then 1 else 0))) = [b0, b1, b2, b3] := by
  revert b0 b1 b2 b3
  decide

theorem flatMap_bitsToHexChars :
    ∀ (l : List Bool), l.length % 4 = 0 → (bitsToHexChars l).flatMap hexCharBits = l
  | [], _ => rfl
  | [_], h => by simp at h
  | [_, _], h => by simp at h
  | [_, _, _], h => by simp at h
  | b0 :: b1 :: b2 :: b3 :: rest, h => by
    have hr : rest.length % 4 = 0 := by
      simp at h
      omega
    rw [bitsToHexChars, List.flatMap_cons, hexCharBits_digitChar,
        flatMap_bitsToHexChars rest hr]
    rfl

theorem hexPad_eq (d : List Bool) :
    hexPad d = d ++ List.replicate ((4 - d.length % 4) % 4) false := by
  rw [hexPad]
  by_cases h : d.length % 4 = 0
  · simp [h]
  · rw [if_neg h]
    have hmod : (4 - d.length % 4) % 4 = 4 - d.length % 4 := by omega
    rw [hmod]

theorem hexPad_length_mod (d : List Bool) : (hexPad d).length % 4 = 0 := by
  rw [hexPad]
  by_cases h : d.length % 4 = 0
  · simpa [h] using h
  · simp only [if_neg h, List.length_append, List.length_replicate]
    omega

/-- C6: decoding the encoding of a bit vector of length `n` yields the vector
zero-padded to length `ceil(n/4)*4`, agreeing with it on the first `n` bits;
encoding the all-false vector of length 4 yields `"0"`; decoding the empty
string yields the zero-length vector. -/
theorem toQBitArray_toAsciiHex_roundtrip :
    (∀ v : List Bool,
      toQBitArray (toAsciiHex v) = v ++ List.replicate ((4 - v.length % 4) % 4) false ∧
      (toQBitArray (toAsciiHex v)).length = ((v.length + 3) / 4) * 4 ∧
      (toQBitArray (toAsciiHex v)).take v.length = v ∧
      (toQBitArray (toAsciiHex v)).drop v.length =
        List.replicate ((4 - v.length % 4) % 4) false) ∧
    toAsciiHex (List.replicate 4 false) = "0" ∧
    toQBitArray "" = [] := by
  refine ⟨?_, by decide, rfl⟩
  intro v
  have key : toQBitArray (toAsciiHex v) = v ++ List.replicate ((4 - v.length % 4) % 4) false := by
    rw [toAsciiHex, toQBitArray]
    rw [show (String.mk (bitsToHexChars (hexPad v))).data = bitsToHexChars (hexPad v) from rfl]
    rw [flatMap_bitsToHexChars _ (hexPad_length_mod v), hexPad_eq]
  refine ⟨key, ?_, ?_, ?_⟩
  · rw [key]
    simp only [List.length_append, List.length_replicate]
    omega
  · rw [key, List.take_left]
  · rw [key, List.drop_left]

/-! ## The snapshot data model (`itemdocumentdata.h` records)

Field-for-field translations of the record types.  `double` fields are
modelled as `Int` (see the header comment); `QRect size` is modelled by its
four integer components; default values are those of the C++ default
constructors. -/

/-- `Document::DocumentType`. -/
inductive DocumentType where
  | dt_none
  | dt_flowcode
  | dt_circuit
  | dt_mechanics
  | dt_text
  | dt_pinMapEditor
deriving DecidableEq

/-- `QColor`, modelled from the spec (§4.1): colors are serialized by
`QColor::name()` and re-read by the `QColor(QString)` constructor, a
"standard textual round-trip" of Qt library code outside the repository, so
a color is represented by its canonical name string. -/
structure QColorM where
  name : String
deriving DecidableEq

/-- `PinSettings::pin_type`. -/
inductive PinType where
  | pt_input
  | pt_output
deriving DecidableEq

/-- `PinSettings::pin_state`. -/
inductive PinState where
  | ps_off
  | ps_on
deriving DecidableEq

/-- `PinData` (direction and state of one microcontroller pin). -/
structure PinData where
  type : PinType := .pt_input
  state : PinState := .ps_off
deriving DecidableEq

/-- `PinMapping::Type`. -/
inductive PinMappingType where
  | SevenSegment
  | Keypad_4x3
  | Keypad_4x4
  | Invalid
deriving DecidableEq

/-- `PinMapping` (a mapping type plus an ordered list of pin names). -/
structure PinMapping where
  type : PinMappingType := .Invalid
  pins : List String := []
deriving DecidableEq

/-- `MicroData`. -/
structure MicroData where
  id : String := ""
  pinMappings : List (String × PinMapping) := []
  pinMap : List (String × PinData) := []
  variableMap : List (String × String) := []
deriving DecidableEq

/-- `MicroData::reset`, exactly as in the source: it clears `id` and
`pinMap` only (`pinMappings` and `variableMap` are left untouched). -/
def MicroData.reset (m : MicroData) : MicroData :=
  { m with id := "", pinMap := [] }

/-- `ItemData`. -/
structure ItemData where
  type : String := ""
  x : Int := 0
  y : Int := 0
  z : Int := -1
  setSize : Bool := false
  sizeX : Int := 0
  sizeY : Int := 0
  sizeW : Int := 0
  sizeH : Int := 0
  angleDegrees : Int := 0
  flipped : Bool := false
  orientation : Int := -1
  parentId : String := ""
  dataString : List (String × String) := []
  dataNumber : List (String × Int) := []
  dataColor : List (String × QColorM) := []
  dataRaw : List (String × List Bool) := []
  dataBool : List (String × Bool) := []
  buttonMap : List (String × Bool) := []
  sliderMap : List (String × Int) := []
deriving DecidableEq

/-- `ConnectorData`. -/
structure ConnectorData where
  manualRoute : Bool := false
  route : List (Int × Int) := []
  startNodeIsChild : Bool := false
  endNodeIsChild : Bool := false
  startNodeCId : String := ""
  startNodeParent : String := ""
  startNodeId : String := ""
  endNodeCId : String := ""
  endNodeParent : String := ""
  endNodeId : String := ""
deriving DecidableEq

/-- `NodeData`. -/
structure NodeData where
  x : Int := 0
  y : Int := 0
deriving DecidableEq

/-- `ItemDocumentData` (the document snapshot). -/
structure ItemDocumentData where
  itemDataMap : List (String × ItemData) := []
  connectorDataMap : List (String × ConnectorData) := []
  nodeDataMap : List (String × NodeData) := []
  microData : MicroData := {}
  documentType : DocumentType := .dt_none
deriving DecidableEq

/-- `ItemDocumentData::reset`. -/
def ItemDocumentData.reset (d : ItemDocumentData) : ItemDocumentData :=
  { itemDataMap := []
    connectorDataMap := []
    nodeDataMap := []
    microData := d.microData.reset
    documentType := .dt_none }

/-- The `ItemDocumentData(uint documentType)` constructor: `reset()` on a
default-initialized object, then the document type is set. -/
def ItemDocumentData.mkNew (dt : DocumentType) : ItemDocumentData :=
  { ItemDocumentData.reset {} with documentType := dt }

/-- `ItemDocumentData::documentTypeString`. -/
def ItemDocumentData.documentTypeString (d : ItemDocumentData) : String :=
  match d.documentType with
  | .dt_circuit => "circuit"
  | .dt_flowcode => "flowcode"
  | .dt_mechanics => "mechanics"
  | _ => "none"

/-- `ItemDocumentData::setMicroData`. -/
def ItemDocumentData.setMicroData (d : ItemDocumentData) (m : MicroData) : ItemDocumentData :=
  { d with microData := m }

/-! ## Geometry translation (`ItemDocumentData::translateContents`; claim C2)

The translation below reproduces the source exactly, including the statement
`it.value().y += dx;` in the item loop (the node loop right below it uses
`dy`).  `dx / 8` is C++ integer division, i.e. truncation toward zero,
`Int.tdiv` in Lean. -/

/-- `ItemDocumentData::translateContents`. -/
def ItemDocumentData.translateContents (d : ItemDocumentData) (dx dy : Int) : ItemDocumentData :=
  { d with
    itemDataMap :=
      d.itemDataMap.map (fun kv => (kv.1, { kv.2 with x := kv.2.x + dx, y := kv.2.y + dx }))
    nodeDataMap :=
      d.nodeDataMap.map (fun kv => (kv.1, { kv.2 with x := kv.2.x + dx, y := kv.2.y + dy }))
    connectorDataMap :=
      d.connectorDataMap.map (fun kv => (kv.1,
        { kv.2 with route := kv.2.route.map (fun p => (p.1 + Int.tdiv dx 8, p.2 + Int.tdiv dy 8)) })) }

/-- Concrete snapshot for claim C2: one item, one node, one one-waypoint
connector, all at the origin. -/
def transExample : ItemDocumentData :=
  { itemDataMap := [("i", { x := 0, y := 0 })]
    nodeDataMap := [("n", { x := 0, y := 0 })]
    connectorDataMap := [("c", { route := [(0, 0)] })] }

/-- C2 (code bug): translating by `(80, 160)` moves the node by `(80, 160)`
and the connector waypoint by `(10, 20)` as the claim states, but moves the
item to `(80, 80)` — the item loop adds `dx` to *both* coordinates
(`it.value().y += dx;`), so the claimed item offset `(dx, dy)` is wrong
whenever `dx ≠ dy`. -/
theorem translateContents_item_y_gets_dx :
    (transExample.translateContents 80 160).itemDataMap = [("i", { x := 80, y := 80 })] ∧
    (transExample.translateContents 80 160).nodeDataMap = [("n", { x := 80, y := 160 })] ∧
    (transExample.translateContents 80 160).connectorDataMap = [("c", { route := [(10, 20)] })] ∧
    ¬ (transExample.translateContents 80 160).itemDataMap = [("i", { x := 80, y := 160 })] := by
  refine ⟨by decide, by decide, by decide, by decide⟩

/-! ## The live document (collaborator interface, spec §6)

`ItemDocument` / `ICNDocument` and the live `Item` / `Node` / `Connector`
objects are collaborators outside this repository's core (only their
interface is consumed: `itemList`, `itemWithID`, `nodeWithID`,
`connectorWithID`, `cnItemWithID`, the `itemData`/`nodeData`/`connectorData`
serialization callbacks, creation and removal).  They are modelled from the
spec as identifier-keyed registries of passive entity states; the
serialization callbacks are modelled by a record payload carried by each
live entity. -/

/-- `PicItem::typeString()`: the fixed type tag of the microcontroller
placement item.  Modelled from the spec as an opaque constant (its exact
text is never interpreted by the core, only compared). -/
def picItemTypeString : String := "microcontroller/pic"

/-- A live `Item` as seen through the consumed interface. -/
structure LiveItem where
  type : String := ""
  canvas : Bool := true
  isCNItem : Bool := true
  childCIds : List String := []
  x : Int := 0
  y : Int := 0
  idata : ItemData := {}
deriving DecidableEq

/-- A live `Node`. -/
structure LiveNode where
  canvas : Bool := true
  isChildNode : Bool := false
  x : Int := 0
  y : Int := 0
deriving DecidableEq

/-- A live `Connector`. -/
structure LiveConn where
  canvas : Bool := true
  hasStartNode : Bool := true
  hasEndNode : Bool := true
  cdata : ConnectorData := {}
deriving DecidableEq

/-- A live `ItemDocument` (an `ICNDocument` when `isICN`). -/
structure LiveDocument where
  docType : DocumentType := .dt_circuit
  isICN : Bool := true
  items : List (String × LiveItem) := []
  nodes : List (String × LiveNode) := []
  conns : List (String × LiveConn) := []
  microSettings : Option MicroData := none
deriving DecidableEq

/-! ## Capture (`saveDocumentState` and the `add*` helpers; claim C10) -/

/-- `ItemDocumentData::addItems` (each entry through `addItemData`, which
overwrites an existing key with a warning). -/
def ItemDocumentData.addItems (s : ItemDocumentData) (items : List (String × LiveItem)) :
    ItemDocumentData :=
  let newMap := items.foldl
    (fun acc kv =>
      if kv.2.canvas ∧ kv.2.type ≠ picItemTypeString then amInsert acc kv.1 kv.2.idata
      else acc)
    s.itemDataMap
  { s with itemDataMap := newMap }

/-- `ItemDocumentData::addConnectors` (skips connectors whose start or end
node is unresolved). -/
def ItemDocumentData.addConnectors (s : ItemDocumentData) (conns : List (String × LiveConn)) :
    ItemDocumentData :=
  let newMap := conns.foldl
    (fun acc kv =>
      if kv.2.canvas then
        if kv.2.hasStartNode ∧ kv.2.hasEndNode then amInsert acc kv.1 kv.2.cdata
        else acc
      else acc)
    s.connectorDataMap
  { s with connectorDataMap := newMap }

/-- `ItemDocumentData::addNodes` (skips child nodes owned by an item;
`Node::nodeData()` yields the node's position). -/
def ItemDocumentData.addNodes (s : ItemDocumentData) (nodes : List (String × LiveNode)) :
    ItemDocumentData :=
  let newMap := nodes.foldl
    (fun acc kv =>
      if kv.2.canvas ∧ ¬ kv.2.isChildNode then
        amInsert acc kv.1 { x := kv.2.x, y := kv.2.y }
      else acc)
    s.nodeDataMap
  { s with nodeDataMap := newMap }

/-- `ItemDocumentData::saveDocumentState`: `reset()`, capture items, then —
for graph-capable documents — connectors and nodes, then — for flow-code
documents with microcontroller settings — the micro record; finally the
document type is taken from the live document. -/
def ItemDocumentData.saveDocumentState (s : ItemDocumentData) (doc : LiveDocument) :
    ItemDocumentData :=
  let s1 := (s.reset).addItems doc.items
  let s2 :=
    if doc.isICN then
      let s2a := (s1.addConnectors doc.conns).addNodes doc.nodes
      if doc.docType = .dt_flowcode then
        match doc.microSettings with
        | some m => s2a.setMicroData m
        | none => s2a
      else s2a
    else s1
  { s2 with documentType := doc.docType }

/-- Concrete snapshot for claim C10: every map nonempty, including all three
micro maps, as if left over from a previous use. -/
def staleSnapshot : ItemDocumentData :=
  { itemDataMap := [("i", {})]
    connectorDataMap := [("c", {})]
    nodeDataMap := [("n", {})]
    microData :=
      { id := "pic"
        pinMappings := [("pm", { type := .SevenSegment, pins := ["RA0"] })]
        pinMap := [("p", {})]
        variableMap := [("v", "1")] }
    documentType := .dt_flowcode }

/-- C10 (code bug): capturing from an empty circuit document does clear the
item/connector/node maps, the micro id and the micro pin map, but
`MicroData::reset` fails to clear `pinMappings` and `variableMap`, so those
two micro maps survive from the previous use, contradicting the claim that
no record survives into the captured state. -/
theorem saveDocumentState_keeps_stale_micro_maps :
    (staleSnapshot.saveDocumentState {}).itemDataMap = [] ∧
    (staleSnapshot.saveDocumentState {}).connectorDataMap = [] ∧
    (staleSnapshot.saveDocumentState {}).nodeDataMap = [] ∧
    (staleSnapshot.saveDocumentState {}).microData.id = "" ∧
    (staleSnapshot.saveDocumentState {}).microData.pinMap = [] ∧
    (staleSnapshot.saveDocumentState {}).microData.pinMappings =
      [("pm", { type := .SevenSegment, pins := ["RA0"] })] ∧
    (staleSnapshot.saveDocumentState {}).microData.variableMap = [("v", "1")] := by
  decide

/-! ## Identifier remapping (`ItemDocumentData::generateUniqueIDs`; claims C3, C4)

`ItemDocument::generateUID` is a collaborator outside the repository; it is
modelled from the spec ("freshly minted", "a single generation counter or
authority", §3/§4.4) as a function `gen : Nat → String` applied at an
incrementing counter; the freshness assumptions (injective, never empty)
appear as hypotheses of the theorems and are discharged concretely in the
witnesses. -/

/-- One pass of the `generateUniqueIDs` key loops: walk one of the three
maps in iteration order, extending the substitution table `replaced` with a
fresh identifier for each first-seen key, and building the re-keyed map
`nm`. -/
def genPass {α : Type} (gen : Nat → String) :
    List (String × String) → Nat → List (String × α) → List (String × α) →
    List (String × String) × Nat × List (String × α)
  | replaced, cnt, nm, [] => (replaced, cnt, nm)
  | replaced, cnt, nm, (k, v) :: rest =>
    if amContains replaced k then
      genPass gen replaced cnt (amInsert nm (amGet replaced k "") v) rest
    else
      genPass gen (amInsert replaced k (gen cnt)) (cnt + 1)
        (amInsert nm (amGet (amInsert replaced k (gen cnt)) k "") v) rest

/-- The initial substitution table:
`replaced[""] = QString(); replaced[QString()] = QString();` — a single
entry, since the null and the empty `QString` are the same map key. -/
def genT0 : List (String × String) :=
  amInsert (amInsert [] "" "") "" ""

/-- First key pass of `generateUniqueIDs` (the item map). -/
def genP1 (s : ItemDocumentData) (gen : Nat → String) :
    List (String × String) × Nat × List (String × ItemData) :=
  genPass gen genT0 0 [] s.itemDataMap

/-- Second key pass (the node map). -/
def genP2 (s : ItemDocumentData) (gen : Nat → String) :
    List (String × String) × Nat × List (String × NodeData) :=
  genPass gen (genP1 s gen).1 (genP1 s gen).2.1 [] s.nodeDataMap

/-- Third key pass (the connector map). -/
def genP3 (s : ItemDocumentData) (gen : Nat → String) :
    List (String × String) × Nat × List (String × ConnectorData) :=
  genPass gen (genP2 s gen).1 (genP2 s gen).2.1 [] s.connectorDataMap

/-- The finished substitution table built by `generateUniqueIDs`. -/
def replacedTable (s : ItemDocumentData) (gen : Nat → String) : List (String × String) :=
  (genP3 s gen).1

/-- `ItemDocumentData::generateUniqueIDs`: re-key the three maps, then
rewrite every internal reference (`parentId`; the connectors' two parent ids
and two plain node ids; child-slot ids untouched) through the table.  A
reference absent from the table reads as the default-constructed `QString()`
(the `operator[]` read `replaced[...]`), i.e. the empty string. -/
def ItemDocumentData.generateUniqueIDs (s : ItemDocumentData) (gen : Nat → String) :
    ItemDocumentData :=
  { s with
    itemDataMap := (genP1 s gen).2.2.map (fun kv =>
      (kv.1, { kv.2 with parentId := amGet (replacedTable s gen) kv.2.parentId "" }))
    connectorDataMap := (genP3 s gen).2.2.map (fun kv =>
      (kv.1, { kv.2 with
        startNodeParent := amGet (replacedTable s gen) kv.2.startNodeParent ""
        endNodeParent := amGet (replacedTable s gen) kv.2.endNodeParent ""
        startNodeId := amGet (replacedTable s gen) kv.2.startNodeId ""
        endNodeId := amGet (replacedTable s gen) kv.2.endNodeId "" }))
    nodeDataMap := (genP2 s gen).2.2 }

/-- The identifiers used in the snapshot's three maps (their key sets). -/
def usedIds (s : ItemDocumentData) : List String :=
  amKeys s.itemDataMap ++ amKeys s.nodeDataMap ++ amKeys s.connectorDataMap

/-- Well-formedness of a substitution table at counter `cnt`: every stored
value is either the empty string (and then its key is the empty string) or a
generator value below the counter, and the table is injective. -/
def TableWF (gen : Nat → String) (t : List (String × String)) (cnt : Nat) : Prop :=
  (∀ k v, amLookup t k = some v → (v = "" ∧ k = "") ∨ ∃ j, j < cnt ∧ v = gen j) ∧
  (∀ k1 k2 v, amLookup t k1 = some v → amLookup t k2 = some v → k1 = k2)

theorem tableWF_mono (gen : Nat → String) (t : List (String × String)) (c c' : Nat)
    (h : TableWF gen t c) (hc : c ≤ c') : TableWF gen t c' := by
  obtain ⟨h1, h2⟩ := h
  refine ⟨?_, h2⟩
  intro k v hv
  rcases h1 k v hv with h' | ⟨j, hj, hv'⟩
  · exact Or.inl h'
  · exact Or.inr ⟨j, by omega, hv'⟩

theorem tableWF_insert (gen : Nat → String) (hinj : Function.Injective gen)
    (hne : ∀ n, gen n ≠ "") (t : List (String × String)) (c : Nat) (k : String)
    (h : TableWF gen t c) (habs : amLookup t k = none) :
    TableWF gen (amInsert t k (gen c)) (c + 1) := by
  obtain ⟨h1, h2⟩ := h
  have hval : ∀ k2 v, k ≠ k2 → amLookup (amInsert t k (gen c)) k2 = some v → v ≠ gen c := by
    intro k2 v hk2 hv
    rw [amLookup_amInsert_ne t k k2 (gen c) hk2] at hv
    intro hveq
    subst hveq
    rcases h1 k2 (gen c) hv with ⟨hv0, _⟩ | ⟨j, hj, hveq⟩
    · exact hne c hv0
    · have hjc : c = j := hinj hveq
      omega
  constructor
  · intro k' v hv
    by_cases hk : k = k'
    · subst hk
      rw [amLookup_amInsert_self] at hv
      exact Or.inr ⟨c, by omega, (Option.some_inj.1 hv).symm⟩
    · rw [amLookup_amInsert_ne t k k' (gen c) hk] at hv
      rcases h1 k' v hv with h' | ⟨j, hj, hv'⟩
      · exact Or.inl h'
      · exact Or.inr ⟨j, by omega, hv'⟩
  · intro k1 k2 v hv1 hv2
    by_cases hk1 : k = k1 <;> by_cases hk2 : k = k2
    · rw [← hk1, ← hk2]
    · subst hk1
      rw [amLookup_amInsert_self] at hv1
      exact absurd (Option.some_inj.1 hv1).symm (hval k2 v hk2 hv2)
    · subst hk2
      rw [amLookup_amInsert_self] at hv2
      exact absurd (Option.some_inj.1 hv2).symm (hval k1 v hk1 hv1)
    · rw [amLookup_amInsert_ne t k k1 (gen c) hk1] at hv1
      rw [amLookup_amInsert_ne t k k2 (gen c) hk2] at hv2
      exact h2 k1 k2 v hv1 hv2

@[simp] theorem amKeys_nil {α : Type} : amKeys ([] : List (String × α)) = [] := rfl

@[simp] theorem amKeys_cons {α : Type} (k : String) (v : α) (r : List (String × α)) :
    amKeys ((k, v) :: r) = k :: amKeys r := rfl

theorem amLookup_isSome_iff_mem {α : Type} (m : List (String × α)) (k : String) :
    (amLookup m k).isSome ↔ k ∈ amKeys m := by
  induction m with
  | nil => simp
  | cons kv r ih =>
    obtain ⟨k', v'⟩ := kv
    by_cases h : k' = k
    · subst h
      simp
    · simp only [amLookup_cons, if_neg h, amKeys_cons, List.mem_cons]
      rw [ih]
      constructor
      · exact Or.inr
      · intro hmem
        rcases hmem with hmem | hmem
        · exact absurd hmem.symm h
        · exact hmem

theorem genPass_table_mono {α : Type} (gen : Nat → String) (m : List (String × α)) :
    ∀ replaced cnt nm k, (amLookup replaced k).isSome →
      amLookup (genPass gen replaced cnt nm m).1 k = amLookup replaced k := by
  induction m with
  | nil =>
    intro replaced cnt nm k _
    rfl
  | cons kv rest ih =>
    intro replaced cnt nm k h
    obtain ⟨k1, v1⟩ := kv
    rw [genPass]
    by_cases hc : amContains replaced k1
    · rw [if_pos hc]
      exact ih replaced cnt _ k h
    · rw [if_neg hc]
      by_cases hk : k1 = k
      · subst hk
        rw [amContains] at hc
        simp [h] at hc
      · have hpres : amLookup (amInsert replaced k1 (gen cnt)) k = amLookup replaced k :=
          amLookup_amInsert_ne replaced k1 k (gen cnt) hk
        rw [ih (amInsert replaced k1 (gen cnt)) (cnt + 1) _ k (by rw [hpres]; exact h), hpres]

theorem genPass_cnt_mono {α : Type} (gen : Nat → String) (m : List (String × α)) :
    ∀ replaced cnt nm, cnt ≤ (genPass gen replaced cnt nm m).2.1 := by
  induction m with
  | nil =>
    intro replaced cnt nm
    exact le_refl cnt
  | cons kv rest ih =>
    intro replaced cnt nm
    obtain ⟨k1, v1⟩ := kv
    rw [genPass]
    by_cases hc : amContains replaced k1
    · rw [if_pos hc]
      exact ih replaced cnt _
    · rw [if_neg hc]
      exact le_trans (by omega) (ih (amInsert replaced k1 (gen cnt)) (cnt + 1) _)

theorem genPass_tableWF {α : Type} (gen : Nat → String) (hinj : Function.Injective gen)
    (hne : ∀ n, gen n ≠ "") (m : List (String × α)) :
    ∀ replaced cnt nm, TableWF gen replaced cnt →
      TableWF gen (genPass gen replaced cnt nm m).1 (genPass gen replaced cnt nm m).2.1 := by
  induction m with
  | nil =>
    intro replaced cnt nm h
    exact h
  | cons kv rest ih =>
    intro replaced cnt nm h
    obtain ⟨k1, v1⟩ := kv
    rw [genPass]
    by_cases hc : amContains replaced k1
    · rw [if_pos hc]
      exact ih replaced cnt _ h
    · rw [if_neg hc]
      have habs : amLookup replaced k1 = none := by
        rw [amContains] at hc
        cases hval : amLookup replaced k1 with
        | none => rfl
        | some v => rw [hval] at hc; simp at hc
      exact ih _ _ _ (tableWF_insert gen hinj hne replaced cnt k1 h habs)

theorem genPass_covers {α : Type} (gen : Nat → String) (m : List (String × α)) :
    ∀ replaced cnt nm k, k ∈ amKeys m →
      (amLookup (genPass gen replaced cnt nm m).1 k).isSome := by
  induction m with
  | nil =>
    intro replaced cnt nm k h
    simp at h
  | cons kv rest ih =>
    intro replaced cnt nm k h
    obtain ⟨k1, v1⟩ := kv
    rw [genPass]
    rcases List.mem_cons.1 h with hk | hk
    · subst hk
      by_cases hc : amContains replaced k
      · rw [if_pos hc]
        rw [amContains] at hc
        rw [genPass_table_mono gen rest replaced cnt _ k (by simpa using hc)]
        simpa using hc
      · rw [if_neg hc]
        have hsome : (amLookup (amInsert replaced k (gen cnt)) k).isSome := by
          rw [amLookup_amInsert_self]
          rfl
        rw [genPass_table_mono gen rest _ _ _ k hsome]
        exact hsome
    · by_cases hc : amContains replaced k1
      · rw [if_pos hc]
        exact ih replaced cnt _ k hk
      · rw [if_neg hc]
        exact ih _ _ _ k hk

theorem tableWF_get_inj (gen : Nat → String) (t : List (String × String)) (c : Nat)
    (h : TableWF gen t c) (k1 k2 : String)
    (h1 : (amLookup t k1).isSome) (h2 : (amLookup t k2).isSome)
    (heq : amGet t k1 "" = amGet t k2 "") : k1 = k2 := by
  obtain ⟨v1, hv1⟩ := Option.isSome_iff_exists.1 h1
  obtain ⟨v2, hv2⟩ := Option.isSome_iff_exists.1 h2
  rw [amGet, amGet, hv1, hv2] at heq
  simp at heq
  subst heq
  exact h.2 k1 k2 v1 hv1 hv2

theorem amLookup_append {α : Type} (l1 l2 : List (String × α)) (k : String) :
    amLookup (l1 ++ l2) k =
      match amLookup l1 k with
      | some v => some v
      | none => amLookup l2 k := by
  induction l1 with
  | nil => simp
  | cons kv r ih =>
    obtain ⟨k', v'⟩ := kv
    by_cases h : k' = k <;> simp [h, ih]

theorem amKeys_map_rekey {α β : Type} (m : List (String × α)) (img : String → String)
    (f : α → β) :
    amKeys (m.map (fun kv => (img kv.1, f kv.2))) = (amKeys m).map img := by
  induction m with
  | nil => rfl
  | cons kv r ih => simp [amKeys, ih]

theorem amLookup_rekey_map {α β : Type} (m : List (String × α)) (img : String → String)
    (f : α → β)
    (hmi : ∀ k1 ∈ amKeys m, ∀ k2 ∈ amKeys m, img k1 = img k2 → k1 = k2) :
    ∀ k ∈ amKeys m,
      amLookup (m.map (fun kv => (img kv.1, f kv.2))) (img k) = (amLookup m k).map f := by
  induction m with
  | nil =>
    intro k h
    simp at h
  | cons kv rest ih =>
    intro k hk
    obtain ⟨k1, v1⟩ := kv
    by_cases h : k1 = k
    · subst h
      simp
    · have himg : img k1 ≠ img k := by
        intro he
        exact h (hmi k1 (by simp) k hk he)
      have hk' : k ∈ amKeys rest := by
        rcases List.mem_cons.1 hk with h' | h'
        · exact absurd h'.symm h
        · exact h'
      simp only [List.map_cons, amLookup_cons, if_neg himg, if_neg h]
      exact ih (fun a ha b hb he =>
        hmi a (List.mem_cons_of_mem k1 ha) b (List.mem_cons_of_mem k1 hb) he) k hk'

theorem amLookup_amInsert_none {α : Type} (nm : List (String × α)) (a : String) (v : α)
    (x : String) (h1 : amLookup nm x = none) (h2 : a ≠ x) :
    amLookup (amInsert nm a v) x = none := by
  rw [amLookup_amInsert_ne nm a x v h2]
  exact h1

theorem genPass_nm_step {α : Type} (gen : Nat → String) (hinj : Function.Injective gen)
    (hne : ∀ n, gen n ≠ "") (rest : List (String × α))
    (IH : ∀ replaced cnt nm, TableWF gen replaced cnt → (amKeys rest).Nodup →
      (∀ kv ∈ rest, amLookup nm (amGet (genPass gen replaced cnt nm rest).1 kv.1 "") = none) →
      (genPass gen replaced cnt nm rest).2.2 =
        nm ++ rest.map (fun kv => (amGet (genPass gen replaced cnt nm rest).1 kv.1 "", kv.2)))
    (rep2 : List (String × String)) (cnt2 : Nat) (nm : List (String × α))
    (k1 : String) (v1 : α)
    (hWF2 : TableWF gen rep2 cnt2) (hsome : (amLookup rep2 k1).isSome)
    (hnd' : (amKeys rest).Nodup) (hk1notin : k1 ∉ amKeys rest)
    (hdis : ∀ kv ∈ (k1, v1) :: rest,
      amLookup nm
        (amGet (genPass gen rep2 cnt2 (amInsert nm (amGet rep2 k1 "") v1) rest).1 kv.1 "")
        = none) :
    (genPass gen rep2 cnt2 (amInsert nm (amGet rep2 k1 "") v1) rest).2.2 =
      nm ++ ((k1, v1) :: rest).map
        (fun kv =>
          (amGet (genPass gen rep2 cnt2 (amInsert nm (amGet rep2 k1 "") v1) rest).1 kv.1 "",
           kv.2)) := by
  have hmonoR := genPass_table_mono gen rest rep2 cnt2 (amInsert nm (amGet rep2 k1 "") v1) k1 hsome
  have himg : amGet (genPass gen rep2 cnt2 (amInsert nm (amGet rep2 k1 "") v1) rest).1 k1 ""
      = amGet rep2 k1 "" := by
    rw [amGet, hmonoR, amGet]
  have hdisk1 := hdis (k1, v1) (List.mem_cons_self _ _)
  rw [himg] at hdisk1
  have hnm1 : amInsert nm (amGet rep2 k1 "") v1 = nm ++ [(amGet rep2 k1 "", v1)] :=
    amInsert_absent nm _ v1 hdisk1
  have hWFR := genPass_tableWF gen hinj hne rest rep2 cnt2 (amInsert nm (amGet rep2 k1 "") v1) hWF2
  have hdis' : ∀ kv ∈ rest, amLookup (amInsert nm (amGet rep2 k1 "") v1)
      (amGet (genPass gen rep2 cnt2 (amInsert nm (amGet rep2 k1 "") v1) rest).1 kv.1 "")
      = none := by
    intro kv hkv
    have hx := hdis kv (List.mem_cons_of_mem _ hkv)
    have hcov := genPass_covers gen rest rep2 cnt2 (amInsert nm (amGet rep2 k1 "") v1) kv.1
      (List.mem_map_of_mem Prod.fst hkv)
    have hxne : amGet (genPass gen rep2 cnt2 (amInsert nm (amGet rep2 k1 "") v1) rest).1 kv.1 ""
        ≠ amGet rep2 k1 "" := by
      intro heq
      have heq2 := heq.trans himg.symm
      have hkk := tableWF_get_inj gen _ _ hWFR kv.1 k1 hcov (by rw [hmonoR]; exact hsome) heq2
      exact hk1notin (hkk ▸ List.mem_map_of_mem Prod.fst hkv)
    exact amLookup_amInsert_none nm _ v1 _ hx (Ne.symm hxne)
  rw [IH rep2 cnt2 _ hWF2 hnd' hdis', List.map_cons, himg, hnm1]
  simp [List.append_assoc]

theorem genPass_nm {α : Type} (gen : Nat → String) (hinj : Function.Injective gen)
    (hne : ∀ n, gen n ≠ "") (m : List (String × α)) :
    ∀ replaced cnt nm, TableWF gen replaced cnt → (amKeys m).Nodup →
      (∀ kv ∈ m, amLookup nm (amGet (genPass gen replaced cnt nm m).1 kv.1 "") = none) →
      (genPass gen replaced cnt nm m).2.2 =
        nm ++ m.map (fun kv => (amGet (genPass gen replaced cnt nm m).1 kv.1 "", kv.2)) := by
  induction m with
  | nil =>
    intro replaced cnt nm _ _ _
    simp [genPass]
  | cons kv rest ih =>
    intro replaced cnt nm hWF hnd hdis
    obtain ⟨k1, v1⟩ := kv
    have hnd' : (amKeys rest).Nodup := (List.nodup_cons.1 hnd).2
    have hk1notin : k1 ∉ amKeys rest := (List.nodup_cons.1 hnd).1
    by_cases hc : amContains replaced k1
    · rw [genPass, if_pos hc] at hdis ⊢
      refine genPass_nm_step gen hinj hne rest ih replaced cnt nm k1 v1 hWF ?_ hnd' hk1notin hdis
      rw [amContains] at hc
      simpa using hc
    · rw [genPass, if_neg hc] at hdis ⊢
      have habs : amLookup replaced k1 = none := by
        rw [amContains] at hc
        cases hval : amLookup replaced k1 with
        | none => rfl
        | some v => rw [hval] at hc; simp at hc
      refine genPass_nm_step gen hinj hne rest ih (amInsert replaced k1 (gen cnt)) (cnt + 1)
        nm k1 v1 (tableWF_insert gen hinj hne replaced cnt k1 hWF habs) ?_ hnd' hk1notin hdis
      rw [amLookup_amInsert_self]
      rfl

theorem genP2_def (s : ItemDocumentData) (gen : Nat → String) :
    genP2 s gen = genPass gen (genP1 s gen).1 (genP1 s gen).2.1 [] s.nodeDataMap := rfl

theorem genP3_def (s : ItemDocumentData) (gen : Nat → String) :
    genP3 s gen = genPass gen (genP2 s gen).1 (genP2 s gen).2.1 [] s.connectorDataMap := rfl

theorem replacedTable_def (s : ItemDocumentData) (gen : Nat → String) :
    replacedTable s gen = (genP3 s gen).1 := rfl

theorem amLookup_genT0 (k : String) :
    amLookup genT0 k = if ("" : String) = k then some "" else none := rfl

theorem tableWF_genT0 (gen : Nat → String) : TableWF gen genT0 0 := by
  constructor
  · intro k v hv
    rw [amLookup_genT0] at hv
    by_cases h : ("" : String) = k
    · rw [if_pos h] at hv
      exact Or.inl ⟨(Option.some_inj.1 hv).symm, h.symm⟩
    · rw [if_neg h] at hv
      cases hv
  · intro k1 k2 v h1 h2
    rw [amLookup_genT0] at h1 h2
    by_cases ha : ("" : String) = k1 <;> by_cases hb : ("" : String) = k2
    · rw [← ha, ← hb]
    · rw [if_neg hb] at h2
      cases h2
    · rw [if_neg ha] at h1
      cases h1
    · rw [if_neg ha] at h1
      cases h1

theorem genP1_wf (s : ItemDocumentData) (gen : Nat → String)
    (hinj : Function.Injective gen) (hne : ∀ n, gen n ≠ "") :
    TableWF gen (genP1 s gen).1 (genP1 s gen).2.1 :=
  genPass_tableWF gen hinj hne s.itemDataMap genT0 0 [] (tableWF_genT0 gen)

theorem genP2_wf (s : ItemDocumentData) (gen : Nat → String)
    (hinj : Function.Injective gen) (hne : ∀ n, gen n ≠ "") :
    TableWF gen (genP2 s gen).1 (genP2 s gen).2.1 :=
  genPass_tableWF gen hinj hne s.nodeDataMap (genP1 s gen).1 (genP1 s gen).2.1 []
    (genP1_wf s gen hinj hne)

theorem genP3_wf (s : ItemDocumentData) (gen : Nat → String)
    (hinj : Function.Injective gen) (hne : ∀ n, gen n ≠ "") :
    TableWF gen (genP3 s gen).1 (genP3 s gen).2.1 :=
  genPass_tableWF gen hinj hne s.connectorDataMap (genP2 s gen).1 (genP2 s gen).2.1 []
    (genP2_wf s gen hinj hne)

theorem lookup_T_item (s : ItemDocumentData) (gen : Nat → String) (k : String)
    (h : k ∈ amKeys s.itemDataMap) :
    amLookup (replacedTable s gen) k = amLookup (genP1 s gen).1 k ∧
      (amLookup (genP1 s gen).1 k).isSome := by
  have hcov : (amLookup (genP1 s gen).1 k).isSome :=
    genPass_covers gen s.itemDataMap genT0 0 [] k h
  have h2 : amLookup (genP2 s gen).1 k = amLookup (genP1 s gen).1 k := by
    rw [genP2_def]
    exact genPass_table_mono gen s.nodeDataMap (genP1 s gen).1 (genP1 s gen).2.1 [] k hcov
  have hcov2 : (amLookup (genP2 s gen).1 k).isSome := by
    rw [h2]
    exact hcov
  have h3 : amLookup (genP3 s gen).1 k = amLookup (genP2 s gen).1 k := by
    rw [genP3_def]
    exact genPass_table_mono gen s.connectorDataMap (genP2 s gen).1 (genP2 s gen).2.1 [] k hcov2
  refine ⟨?_, hcov⟩
  rw [replacedTable_def, h3, h2]

theorem lookup_T_node (s : ItemDocumentData) (gen : Nat → String) (k : String)
    (h : k ∈ amKeys s.nodeDataMap) :
    amLookup (replacedTable s gen) k = amLookup (genP2 s gen).1 k ∧
      (amLookup (genP2 s gen).1 k).isSome := by
  have hcov : (amLookup (genP2 s gen).1 k).isSome := by
    rw [genP2_def]
    exact genPass_covers gen s.nodeDataMap (genP1 s gen).1 (genP1 s gen).2.1 [] k h
  have h3 : amLookup (genP3 s gen).1 k = amLookup (genP2 s gen).1 k := by
    rw [genP3_def]
    exact genPass_table_mono gen s.connectorDataMap (genP2 s gen).1 (genP2 s gen).2.1 [] k hcov
  refine ⟨?_, hcov⟩
  rw [replacedTable_def, h3]

theorem lookup_T_conn (s : ItemDocumentData) (gen : Nat → String) (k : String)
    (h : k ∈ amKeys s.connectorDataMap) :
    (amLookup (replacedTable s gen) k).isSome := by
  rw [replacedTable_def, genP3_def]
  exact genPass_covers gen s.connectorDataMap (genP2 s gen).1 (genP2 s gen).2.1 [] k h

theorem replacedTable_covers (s : ItemDocumentData) (gen : Nat → String) :
    ∀ k ∈ usedIds s, (amLookup (replacedTable s gen) k).isSome := by
  intro k h
  rw [usedIds] at h
  rcases List.mem_append.1 h with h' | h'
  · rcases List.mem_append.1 h' with h'' | h''
    · obtain ⟨he, hs⟩ := lookup_T_item s gen k h''
      rw [he]
      exact hs
    · obtain ⟨he, hs⟩ := lookup_T_node s gen k h''
      rw [he]
      exact hs
  · exact lookup_T_conn s gen k h'

theorem replacedTable_empty_fix (s : ItemDocumentData) (gen : Nat → String) :
    amLookup (replacedTable s gen) "" = some "" := by
  have h0 : (amLookup genT0 "").isSome := rfl
  have h1 : amLookup (genP1 s gen).1 "" = amLookup genT0 "" :=
    genPass_table_mono gen s.itemDataMap genT0 0 [] "" h0
  have h1s : (amLookup (genP1 s gen).1 "").isSome := by
    rw [h1]
    exact h0
  have h2 : amLookup (genP2 s gen).1 "" = amLookup (genP1 s gen).1 "" := by
    rw [genP2_def]
    exact genPass_table_mono gen s.nodeDataMap (genP1 s gen).1 (genP1 s gen).2.1 [] "" h1s
  have h2s : (amLookup (genP2 s gen).1 "").isSome := by
    rw [h2]
    exact h1s
  have h3 : amLookup (genP3 s gen).1 "" = amLookup (genP2 s gen).1 "" := by
    rw [genP3_def]
    exact genPass_table_mono gen s.connectorDataMap (genP2 s gen).1 (genP2 s gen).2.1 [] "" h2s
  rw [replacedTable_def, h3, h2, h1]
  rfl

theorem generateUniqueIDs_items_eq (s : ItemDocumentData) (gen : Nat → String)
    (hinj : Function.Injective gen) (hne : ∀ n, gen n ≠ "")
    (hnd : (amKeys s.itemDataMap).Nodup) :
    (s.generateUniqueIDs gen).itemDataMap =
      s.itemDataMap.map (fun kv => (amGet (replacedTable s gen) kv.1 "",
        { kv.2 with parentId := amGet (replacedTable s gen) kv.2.parentId "" })) := by
  have h1 : (genP1 s gen).2.2 =
      [] ++ s.itemDataMap.map (fun kv => (amGet (genP1 s gen).1 kv.1 "", kv.2)) :=
    genPass_nm gen hinj hne s.itemDataMap genT0 0 [] (tableWF_genT0 gen) hnd
      (fun kv _ => rfl)
  rw [List.nil_append] at h1
  show (genP1 s gen).2.2.map _ = _
  rw [h1, List.map_map]
  apply List.map_congr_left
  intro kv hkv
  have hTk : amGet (replacedTable s gen) kv.1 "" = amGet (genP1 s gen).1 kv.1 "" := by
    rw [amGet, amGet, (lookup_T_item s gen kv.1 (List.mem_map_of_mem Prod.fst hkv)).1]
  simp only [Function.comp_apply]
  rw [hTk]

theorem generateUniqueIDs_nodes_eq (s : ItemDocumentData) (gen : Nat → String)
    (hinj : Function.Injective gen) (hne : ∀ n, gen n ≠ "")
    (hnd : (amKeys s.nodeDataMap).Nodup) :
    (s.generateUniqueIDs gen).nodeDataMap =
      s.nodeDataMap.map (fun kv => (amGet (replacedTable s gen) kv.1 "", kv.2)) := by
  have h1 : (genP2 s gen).2.2 =
      [] ++ s.nodeDataMap.map (fun kv => (amGet (genP2 s gen).1 kv.1 "", kv.2)) := by
    rw [genP2_def]
    exact genPass_nm gen hinj hne s.nodeDataMap (genP1 s gen).1 (genP1 s gen).2.1 []
      (genP1_wf s gen hinj hne) hnd (fun kv _ => rfl)
  rw [List.nil_append] at h1
  show (genP2 s gen).2.2 = _
  rw [h1]
  apply List.map_congr_left
  intro kv hkv
  have hTk : amGet (replacedTable s gen) kv.1 "" = amGet (genP2 s gen).1 kv.1 "" := by
    rw [amGet, amGet, (lookup_T_node s gen kv.1 (List.mem_map_of_mem Prod.fst hkv)).1]
  rw [hTk]

theorem generateUniqueIDs_conns_eq (s : ItemDocumentData) (gen : Nat → String)
    (hinj : Function.Injective gen) (hne : ∀ n, gen n ≠ "")
    (hnd : (amKeys s.connectorDataMap).Nodup) :
    (s.generateUniqueIDs gen).connectorDataMap =
      s.connectorDataMap.map (fun kv => (amGet (replacedTable s gen) kv.1 "",
        { kv.2 with
          startNodeParent := amGet (replacedTable s gen) kv.2.startNodeParent ""
          endNodeParent := amGet (replacedTable s gen) kv.2.endNodeParent ""
          startNodeId := amGet (replacedTable s gen) kv.2.startNodeId ""
          endNodeId := amGet (replacedTable s gen) kv.2.endNodeId "" })) := by
  have h1 : (genP3 s gen).2.2 =
      [] ++ s.connectorDataMap.map (fun kv => (amGet (genP3 s gen).1 kv.1 "", kv.2)) := by
    rw [genP3_def]
    exact genPass_nm gen hinj hne s.connectorDataMap (genP2 s gen).1 (genP2 s gen).2.1 []
      (genP2_wf s gen hinj hne) hnd (fun kv _ => rfl)
  rw [List.nil_append] at h1
  show (genP3 s gen).2.2.map _ = _
  rw [h1, List.map_map]
  apply List.map_congr_left
  intro kv hkv
  simp only [Function.comp_apply]
  rw [show amGet (genP3 s gen).1 kv.1 "" = amGet (replacedTable s gen) kv.1 "" from rfl]

/-- A concrete fresh-identifier source for witnesses: `u`, `ux`, `uxx`, …. -/
def genU (n : Nat) : String :=
  String.mk ('u' :: List.replicate n 'x')

theorem genU_inj : Function.Injective genU := by
  intro a b h
  have hd : ('u' :: List.replicate a 'x' : List Char) = 'u' :: List.replicate b 'x' :=
    congrArg String.data h
  have hlen := congrArg List.length hd
  simpa using hlen

theorem genU_ne_empty (n : Nat) : genU n ≠ "" := by
  intro h
  have hd : ('u' :: List.replicate n 'x' : List Char) = [] := congrArg String.data h
  exact List.cons_ne_nil _ _ hd

/-- Snapshot exercising all three maps for the remap witnesses. -/
def genExample : ItemDocumentData :=
  { itemDataMap := [("a", { parentId := "b" })]
    nodeDataMap := [("b", {})]
    connectorDataMap := [("c", { startNodeId := "b" })] }

/-- C3: the `generateUniqueIDs` substitution maps the empty string to itself
and every identifier used in the three maps to a fresh generator value, is
injective on the used identifiers, and the remapped snapshot holds exactly
the re-keyed records with every parent/plain-node reference rewritten
through the table (the empty string reads back as the empty string;
child-slot identifiers are untouched, as the record updates show). -/
theorem generateUniqueIDs_bijective_remap
    (s : ItemDocumentData) (gen : Nat → String)
    (hinj : Function.Injective gen) (hne : ∀ n, gen n ≠ "")
    (hndI : (amKeys s.itemDataMap).Nodup)
    (hndN : (amKeys s.nodeDataMap).Nodup)
    (hndC : (amKeys s.connectorDataMap).Nodup) :
    amLookup (replacedTable s gen) "" = some "" ∧
    (∀ k ∈ usedIds s, ∃ v, amLookup (replacedTable s gen) k = some v ∧
      (k = "" → v = "") ∧ (k ≠ "" → v ≠ "" ∧ ∃ j, v = gen j)) ∧
    (∀ k1 ∈ usedIds s, ∀ k2 ∈ usedIds s,
      amLookup (replacedTable s gen) k1 = amLookup (replacedTable s gen) k2 → k1 = k2) ∧
    (s.generateUniqueIDs gen).itemDataMap =
      s.itemDataMap.map (fun kv => (amGet (replacedTable s gen) kv.1 "",
        { kv.2 with parentId := amGet (replacedTable s gen) kv.2.parentId "" })) ∧
    (s.generateUniqueIDs gen).nodeDataMap =
      s.nodeDataMap.map (fun kv => (amGet (replacedTable s gen) kv.1 "", kv.2)) ∧
    (s.generateUniqueIDs gen).connectorDataMap =
      s.connectorDataMap.map (fun kv => (amGet (replacedTable s gen) kv.1 "",
        { kv.2 with
          startNodeParent := amGet (replacedTable s gen) kv.2.startNodeParent ""
          endNodeParent := amGet (replacedTable s gen) kv.2.endNodeParent ""
          startNodeId := amGet (replacedTable s gen) kv.2.startNodeId ""
          endNodeId := amGet (replacedTable s gen) kv.2.endNodeId "" })) := by
  refine ⟨replacedTable_empty_fix s gen, ?_, ?_,
    generateUniqueIDs_items_eq s gen hinj hne hndI,
    generateUniqueIDs_nodes_eq s gen hinj hne hndN,
    generateUniqueIDs_conns_eq s gen hinj hne hndC⟩
  · intro k hk
    have hs := replacedTable_covers s gen k hk
    obtain ⟨v, hv⟩ := Option.isSome_iff_exists.1 hs
    refine ⟨v, hv, ?_, ?_⟩
    · intro hk0
      subst hk0
      rw [replacedTable_empty_fix s gen] at hv
      exact (Option.some_inj.1 hv).symm
    · intro hk0
      have hWF := genP3_wf s gen hinj hne
      rcases hWF.1 k v hv with ⟨_, hk'⟩ | ⟨j, _, hvj⟩
      · exact absurd hk' hk0
      · subst hvj
        exact ⟨hne j, j, rfl⟩
  · intro k1 h1 k2 h2 heq
    obtain ⟨v1, hv1⟩ := Option.isSome_iff_exists.1 (replacedTable_covers s gen k1 h1)
    obtain ⟨v2, hv2⟩ := Option.isSome_iff_exists.1 (replacedTable_covers s gen k2 h2)
    rw [hv1, hv2] at heq
    obtain rfl : v1 = v2 := Option.some_inj.1 heq
    exact (genP3_wf s gen hinj hne).2 k1 k2 v1 hv1 hv2

theorem generateUniqueIDs_bijective_remap_witness :
    Function.Injective genU ∧ (∀ n, genU n ≠ "") ∧
    (amKeys genExample.itemDataMap).Nodup ∧
    (amKeys genExample.nodeDataMap).Nodup ∧
    (amKeys genExample.connectorDataMap).Nodup ∧
    amLookup (replacedTable genExample genU) "" = some "" :=
  ⟨genU_inj, genU_ne_empty, by decide, by decide, by decide,
    (generateUniqueIDs_bijective_remap genExample genU genU_inj genU_ne_empty
      (by decide) (by decide) (by decide)).1⟩

/-- Snapshot for C4's counterexample: the item's parent id names a *node*
key, not an item key. -/
def remapExample : ItemDocumentData :=
  { itemDataMap := [("a", { parentId := "n" })]
    nodeDataMap := [("n", {})] }

/-- C4 counterexample: after `generateUniqueIDs`, the item's parent id
(which named a node key before the remap) is nonempty but is *not* a key of
the item map — the substitution table covers all three maps, so a parent id
that named a node or connector key is rewritten to that entry's fresh image
rather than emptied or item-resolved. -/
theorem generateUniqueIDs_parent_to_node_key :
    ∃ kv ∈ (remapExample.generateUniqueIDs genU).itemDataMap,
      kv.2.parentId ≠ "" ∧
        ¬ kv.2.parentId ∈ amKeys (remapExample.generateUniqueIDs genU).itemDataMap := by
  decide

/-- C4 (amended): if before the remap every nonempty item parent id is a key
of the item map, then after any run of `generateUniqueIDs` every nonempty
item parent id is again a key of the item map. -/
theorem generateUniqueIDs_parent_resolves
    (s : ItemDocumentData) (gen : Nat → String)
    (hinj : Function.Injective gen) (hne : ∀ n, gen n ≠ "")
    (hnd : (amKeys s.itemDataMap).Nodup)
    (hres : ∀ kv ∈ s.itemDataMap, kv.2.parentId ≠ "" →
      kv.2.parentId ∈ amKeys s.itemDataMap) :
    ∀ kv ∈ (s.generateUniqueIDs gen).itemDataMap,
      kv.2.parentId ≠ "" → kv.2.parentId ∈ amKeys (s.generateUniqueIDs gen).itemDataMap := by
  intro kv hkv hp
  rw [generateUniqueIDs_items_eq s gen hinj hne hnd] at hkv ⊢
  obtain ⟨orig, horig, hkveq⟩ := List.mem_map.1 hkv
  subst hkveq
  simp only at hp ⊢
  by_cases h0 : orig.2.parentId = ""
  · rw [h0] at hp
    rw [show amGet (replacedTable s gen) "" "" = "" by
      rw [amGet, replacedTable_empty_fix s gen]; rfl] at hp
    exact absurd rfl hp
  · have hmem := hres orig horig h0
    obtain ⟨e, he, hfst⟩ := List.mem_map.1 hmem
    have : (amGet (replacedTable s gen) e.1 "",
        { e.2 with parentId := amGet (replacedTable s gen) e.2.parentId "" }) ∈
        s.itemDataMap.map (fun kv => (amGet (replacedTable s gen) kv.1 "",
          { kv.2 with parentId := amGet (replacedTable s gen) kv.2.parentId "" })) :=
      List.mem_map_of_mem _ he
    have hkey := List.mem_map_of_mem Prod.fst this
    rw [hfst] at hkey
    exact hkey

/-- Snapshot for C4's witness: a resolvable parent link. -/
def remapExample2 : ItemDocumentData :=
  { itemDataMap := [("a", { parentId := "b" }), ("b", {})] }

theorem generateUniqueIDs_parent_resolves_witness :
    Function.Injective genU ∧ (∀ n, genU n ≠ "") ∧
    (amKeys remapExample2.itemDataMap).Nodup ∧
    (∀ kv ∈ remapExample2.itemDataMap, kv.2.parentId ≠ "" →
      kv.2.parentId ∈ amKeys remapExample2.itemDataMap) ∧
    (∀ kv ∈ (remapExample2.generateUniqueIDs genU).itemDataMap,
      kv.2.parentId ≠ "" →
        kv.2.parentId ∈ amKeys (remapExample2.generateUniqueIDs genU).itemDataMap) :=
  ⟨genU_inj, genU_ne_empty, by decide, by decide,
    generateUniqueIDs_parent_resolves remapExample2 genU genU_inj genU_ne_empty
      (by decide) (by decide)⟩

/-! ## Sub-circuit extraction (`SubcircuitData::initECSubcircuit`; claim C5)

`initECSubcircuit` first calls `generateUniqueIDs` (modelled above), then
assigns external-connection markers to container pins, removes the markers,
rewrites connector child references, and merges (modelled in the merge
section).  The pin-assignment portion is modelled here on the snapshot as it
stands after the identifier remap.  `std::multimap` insertion places an
element after all existing elements with equal keys and iterates in key
order, i.e. it is a stable ascending insertion sort. -/

/-- `std::multimap::insert`: put the element before the first strictly
greater key (after all equal keys). -/
def mmInsert {α : Type} : List (Int × α) → Int → α → List (Int × α)
  | [], k, v => [(k, v)]
  | (k', v') :: r, k, v =>
    if k < k' then (k, v) :: (k', v') :: r else (k', v') :: mmInsert r k v

/-- The `extCon` multimap: markers of type `"ec/external_connection"` keyed
by x coordinate, inserted in item-map iteration order. -/
def extConList (itemMap : List (String × ItemData)) : List (Int × String) :=
  itemMap.foldl
    (fun acc kv =>
      if kv.2.type = "ec/external_connection" then mmInsert acc kv.2.x kv.1 else acc)
    []

/-- `extCon.size()/2 + extCon.size()%2`, i.e. `⌈n/2⌉`. -/
def pinHalf (n : Nat) : Nat := n / 2 + n % 2

/-- The `at < size` split loop: the first `size` entries of `extCon` go into
the `leftPins` multimap keyed by y coordinate, the rest into `rightPins`. -/
def splitPinsAux (itemMap : List (String × ItemData)) (size : Nat) :
    Nat → List (Int × String) → List (Int × String) → List (Int × String) →
    Nat × List (Int × String) × List (Int × String)
  | cnt, lp, rp, [] => (cnt, lp, rp)
  | cnt, lp, rp, (_, key) :: rest =>
    if cnt < size then
      splitPinsAux itemMap size (cnt + 1) (mmInsert lp (amGet itemMap key {}).y key) rp rest
    else
      splitPinsAux itemMap size (cnt + 1) lp (mmInsert rp (amGet itemMap key {}).y key) rest

/-- The left/right pin multimaps of a snapshot. -/
def pinSplit (s : ItemDocumentData) : Nat × List (Int × String) × List (Int × String) :=
  splitPinsAux s.itemDataMap (pinHalf (extConList s.itemDataMap).length) 0 [] []
    (extConList s.itemDataMap)

/-- One of the two `nodeMap` loops: walk a pin multimap in order, assigning
`start`, `start + stepd`, … to the marker ids (`stepd` is `+1` for the left
loop starting at 0 and `-1` for the right loop starting at `n-1`). -/
def assignLoop : Int → Int → List (Int × String) → List (String × Int) → List (String × Int)
  | _, _, [], nm => nm
  | start, stepd, (_, key) :: rest, nm =>
    assignLoop (start + stepd) stepd rest (amInsert nm key start)

/-- The finished `nodeMap` of `initECSubcircuit`: left pins get 0, 1, … in
ascending y order, right pins get `n-1` downward in ascending y order. -/
def subcircuitNodeMap (s : ItemDocumentData) : List (String × Int) :=
  assignLoop (((extConList s.itemDataMap).length : Int) - 1) (-1) (pinSplit s).2.2
    (assignLoop 0 1 (pinSplit s).2.1 [])

/-- The marker removal performed by the two `nodeMap` loops. -/
def subcircuitRemoveMarkers (s : ItemDocumentData) : List (String × ItemData) :=
  ((pinSplit s).2.1 ++ (pinSplit s).2.2).foldl (fun m kv => amRemove m kv.2) s.itemDataMap

/-- The connector-reference rewrite: a child endpoint whose parent is in
`nodeMap` now points at the sub-circuit container, with the assigned pin
index (as decimal text) as its child-slot id. -/
def subcircuitConnRewrite (nodeMap : List (String × Int)) (subId : String)
    (conns : List (String × ConnectorData)) : List (String × ConnectorData) :=
  conns.map (fun kv =>
    (kv.1,
      let c1 :=
        if kv.2.startNodeIsChild ∧ amContains nodeMap kv.2.startNodeParent then
          { kv.2 with
            startNodeCId := qStringOfInt (amGet nodeMap kv.2.startNodeParent 0)
            startNodeParent := subId }
        else kv.2
      if c1.endNodeIsChild ∧ amContains nodeMap c1.endNodeParent then
        { c1 with
          endNodeCId := qStringOfInt (amGet nodeMap c1.endNodeParent 0)
          endNodeParent := subId }
      else c1))

/-- `SubcircuitData::initECSubcircuit`, pin-assignment portion (steps 2–5 of
spec §4.6), on the post-remap snapshot: the number of external connections,
the pin `nodeMap`, and the snapshot with markers removed and connector
references rewritten. -/
def SubcircuitData.initECSubcircuitModel (s : ItemDocumentData) (subId : String) :
    Nat × List (String × Int) × ItemDocumentData :=
  ((extConList s.itemDataMap).length, subcircuitNodeMap s,
    { s with
      itemDataMap := subcircuitRemoveMarkers s
      connectorDataMap := subcircuitConnRewrite (subcircuitNodeMap s) subId s.connectorDataMap })

/-- A stable ascending insertion sort on key/value pairs (iterating a
multimap built by repeated insertion visits elements in exactly this
order). -/
def stableSortByKey {α : Type} (l : List (Int × α)) : List (Int × α) :=
  l.foldl (fun acc kv => mmInsert acc kv.1 kv.2) []

/-- Spec §4.6 step 2: the external-connection markers, sorted by ascending x
coordinate (stably, in map order). -/
def specMarkersSorted (s : ItemDocumentData) : List (Int × String) :=
  stableSortByKey ((s.itemDataMap.filter
    (fun kv => kv.2.type = "ec/external_connection")).map (fun kv => (kv.2.x, kv.1)))

/-- Spec §4.6 step 3, left side: the first `⌈n/2⌉` markers by ascending x,
sorted by ascending y. -/
def specSortedLeft (s : ItemDocumentData) : List (Int × String) :=
  stableSortByKey (((specMarkersSorted s).take (pinHalf (specMarkersSorted s).length)).map
    (fun kv => ((amGet s.itemDataMap kv.2 {}).y, kv.2)))

/-- Spec §4.6 step 3, right side: the remaining markers, sorted by
ascending y. -/
def specSortedRight (s : ItemDocumentData) : List (Int × String) :=
  stableSortByKey (((specMarkersSorted s).drop (pinHalf (specMarkersSorted s).length)).map
    (fun kv => ((amGet s.itemDataMap kv.2 {}).y, kv.2)))

/-- Pin assignment as the spec words it (§4.6 steps 2–3): sort the markers
by ascending x (stably); the first `⌈n/2⌉` go left, the rest right; sort
each side by ascending y (stably); left pins get indices `0..⌈n/2⌉-1` in
ascending y order, right pins get `n-1` downward in ascending y order. -/
def specPinAssignment (s : ItemDocumentData) : List (String × Int) :=
  (specSortedLeft s).enum.map (fun p => (p.2.2, (p.1 : Int))) ++
    (specSortedRight s).enum.map (fun p =>
      (p.2.2, ((specMarkersSorted s).length : Int) - 1 - (p.1 : Int)))

theorem mmInsert_perm {α : Type} (l : List (Int × α)) (k : Int) (v : α) :
    (mmInsert l k v).Perm ((k, v) :: l) := by
  induction l with
  | nil => exact List.Perm.refl _
  | cons kv r ih =>
    obtain ⟨k', v'⟩ := kv
    rw [mmInsert]
    by_cases h : k < k'
    · rw [if_pos h]
    · rw [if_neg h]
      exact ((ih.cons (k', v')).trans (List.Perm.swap (k, v) (k', v') r)).symm.symm

theorem foldl_mmInsert_perm {α : Type} :
    ∀ (l acc : List (Int × α)),
      (l.foldl (fun acc kv => mmInsert acc kv.1 kv.2) acc).Perm (acc ++ l) := by
  intro l
  induction l with
  | nil =>
    intro acc
    simp
  | cons kv rest ih =>
    intro acc
    rw [List.foldl_cons]
    refine (ih (mmInsert acc kv.1 kv.2)).trans ?_
    refine (List.Perm.append_right rest (mmInsert_perm acc kv.1 kv.2)).trans ?_
    obtain ⟨k, v⟩ := kv
    exact List.perm_middle.symm

theorem stableSortByKey_perm {α : Type} (l : List (Int × α)) :
    (stableSortByKey l).Perm l := by
  simpa using foldl_mmInsert_perm l []

theorem splitPinsAux_spec (itemMap : List (String × ItemData)) (size : Nat) :
    ∀ (l : List (Int × String)) (cnt : Nat) (lp rp : List (Int × String)),
      splitPinsAux itemMap size cnt lp rp l =
        (cnt + l.length,
         (l.take (size - cnt)).foldl
           (fun acc kv => mmInsert acc (amGet itemMap kv.2 {}).y kv.2) lp,
         (l.drop (size - cnt)).foldl
           (fun acc kv => mmInsert acc (amGet itemMap kv.2 {}).y kv.2) rp) := by
  intro l
  induction l with
  | nil =>
    intro cnt lp rp
    simp [splitPinsAux]
  | cons kv rest ih =>
    intro cnt lp rp
    obtain ⟨x, key⟩ := kv
    rw [splitPinsAux]
    by_cases h : cnt < size
    · rw [if_pos h, ih]
      have h1 : size - cnt = (size - (cnt + 1)) + 1 := by omega
      rw [h1, List.take_succ_cons, List.drop_succ_cons, List.foldl_cons]
      refine congrArg (fun n => (n, _, _)) ?_
      simp
      omega
    · rw [if_neg h, ih]
      have h1 : size - cnt = 0 := by omega
      have h2 : size - (cnt + 1) = 0 := by omega
      rw [h1, h2, List.take_zero, List.take_zero, List.drop_zero, List.drop_zero,
        List.foldl_cons]
      refine congrArg (fun n => (n, _, _)) ?_
      simp
      omega

theorem extConList_eq_aux (itemMap : List (String × ItemData)) :
    ∀ acc, itemMap.foldl (fun acc kv =>
        if kv.2.type = "ec/external_connection" then mmInsert acc kv.2.x kv.1 else acc) acc
      = ((itemMap.filter (fun kv => kv.2.type = "ec/external_connection")).map
          (fun kv => (kv.2.x, kv.1))).foldl (fun acc kv => mmInsert acc kv.1 kv.2) acc := by
  induction itemMap with
  | nil =>
    intro acc
    rfl
  | cons kv rest ih =>
    intro acc
    by_cases h : kv.2.type = "ec/external_connection"
    · rw [List.foldl_cons, if_pos h, List.filter_cons_of_pos (by simpa using h),
        List.map_cons, List.foldl_cons]
      exact ih _
    · rw [List.foldl_cons, if_neg h, List.filter_cons_of_neg (by simpa using h)]
      exact ih _

theorem extConList_eq_spec (s : ItemDocumentData) :
    extConList s.itemDataMap = specMarkersSorted s := by
  rw [specMarkersSorted, stableSortByKey]
  exact extConList_eq_aux s.itemDataMap []

theorem assignLoop_spec (stepd : Int) :
    ∀ (pins : List (Int × String)) (i0 : Nat) (start : Int) (nm : List (String × Int)),
      (∀ kv ∈ pins, amLookup nm kv.2 = none) → (pins.map Prod.snd).Nodup →
      assignLoop start stepd pins nm =
        nm ++ (List.enumFrom i0 pins).map
          (fun p => (p.2.2, start + stepd * ((p.1 : Int) - (i0 : Int)))) := by
  intro pins
  induction pins with
  | nil =>
    intro i0 start nm _ _
    simp [assignLoop, List.enumFrom]
  | cons kv rest ih =>
    intro i0 start nm hdis hnd
    obtain ⟨y, key⟩ := kv
    rw [assignLoop]
    have hfresh : amLookup nm key = none := hdis (y, key) (List.mem_cons_self _ _)
    have hins : amInsert nm key start = nm ++ [(key, start)] :=
      amInsert_absent nm key start hfresh
    have hndc : key ∉ rest.map Prod.snd ∧ (rest.map Prod.snd).Nodup := by
      rw [List.map_cons] at hnd
      exact List.nodup_cons.1 hnd
    have hdis' : ∀ kv ∈ rest, amLookup (amInsert nm key start) kv.2 = none := by
      intro kv hkv
      refine amLookup_amInsert_none nm key start kv.2 (hdis kv (List.mem_cons_of_mem _ hkv)) ?_
      intro he
      exact hndc.1 (he ▸ List.mem_map_of_mem Prod.snd hkv)
    rw [ih (i0 + 1) (start + stepd) _ hdis' hndc.2, hins]
    rw [show List.enumFrom i0 ((y, key) :: rest) = (i0, (y, key)) :: List.enumFrom (i0 + 1) rest
      from rfl]
    rw [List.map_cons, List.append_assoc, List.singleton_append]
    refine congrArg (fun t => nm ++ t) ?_
    refine congrArg₂ List.cons ?_ ?_
    · show (key, start) = (key, start + stepd * ((i0 : Int) - (i0 : Int)))
      rw [sub_self, mul_zero, add_zero]
    · apply List.map_congr_left
      intro p _
      refine congrArg (fun z => (p.2.2, z)) ?_
      push_cast
      ring

theorem foldl_insY_perm_aux (itemMap : List (String × ItemData)) :
    ∀ (l acc : List (Int × String)),
      (l.foldl (fun acc kv => mmInsert acc (amGet itemMap kv.2 {}).y kv.2) acc).Perm
        (acc ++ l.map (fun kv => ((amGet itemMap kv.2 {}).y, kv.2))) := by
  intro l
  induction l with
  | nil =>
    intro acc
    simp
  | cons kv rest ih =>
    intro acc
    rw [List.foldl_cons, List.map_cons]
    refine (ih _).trans ?_
    refine (List.Perm.append_right _ (mmInsert_perm acc _ kv.2)).trans ?_
    exact List.perm_middle.symm

/-- Snapshot for C5's concrete example: four external-connection markers at
(0,5), (0,20), (10,5), (10,20). -/
def pinExample : ItemDocumentData :=
  { itemDataMap :=
      [("m1", { type := "ec/external_connection", x := 0, y := 5 }),
       ("m2", { type := "ec/external_connection", x := 0, y := 20 }),
       ("m3", { type := "ec/external_connection", x := 10, y := 5 }),
       ("m4", { type := "ec/external_connection", x := 10, y := 20 })] }

/-- C5: the pin `nodeMap` built by `initECSubcircuit` equals the assignment
the spec describes — the first `⌈n/2⌉` markers in ascending x order form
the left side with pin indices 0, 1, … in ascending y order, the rest the
right side with indices n-1 counting downward in ascending y order — and on
the four-marker example the x=0 markers get pins 0 (y=5) and 1 (y=20) and
the x=10 markers get pins 3 (y=5) and 2 (y=20), with n = 4. -/
theorem initECSubcircuit_pin_order :
    (∀ s : ItemDocumentData, (amKeys s.itemDataMap).Nodup →
      subcircuitNodeMap s = specPinAssignment s) ∧
    subcircuitNodeMap pinExample = [("m1", 0), ("m2", 1), ("m3", 3), ("m4", 2)] ∧
    (SubcircuitData.initECSubcircuitModel pinExample "sc").1 = 4 := by
  refine ⟨?_, by decide, by decide⟩
  intro s hnd
  have hext := extConList_eq_spec s
  have hsp := splitPinsAux_spec s.itemDataMap (pinHalf (extConList s.itemDataMap).length)
    (extConList s.itemDataMap) 0 [] []
  rw [Nat.sub_zero] at hsp
  have hL : (pinSplit s).2.1 =
      ((extConList s.itemDataMap).take (pinHalf (extConList s.itemDataMap).length)).foldl
        (fun acc kv => mmInsert acc (amGet s.itemDataMap kv.2 {}).y kv.2) [] := by
    rw [pinSplit, hsp]
  have hR : (pinSplit s).2.2 =
      ((extConList s.itemDataMap).drop (pinHalf (extConList s.itemDataMap).length)).foldl
        (fun acc kv => mmInsert acc (amGet s.itemDataMap kv.2 {}).y kv.2) [] := by
    rw [pinSplit, hsp]
  have hSL : specSortedLeft s =
      ((extConList s.itemDataMap).take (pinHalf (extConList s.itemDataMap).length)).foldl
        (fun acc kv => mmInsert acc (amGet s.itemDataMap kv.2 {}).y kv.2) [] := by
    rw [specSortedLeft, ← hext, stableSortByKey, List.foldl_map]
  have hSR : specSortedRight s =
      ((extConList s.itemDataMap).drop (pinHalf (extConList s.itemDataMap).length)).foldl
        (fun acc kv => mmInsert acc (amGet s.itemDataMap kv.2 {}).y kv.2) [] := by
    rw [specSortedRight, ← hext, stableSortByKey, List.foldl_map]
  have hfil : ((s.itemDataMap.filter
      (fun kv => kv.2.type = "ec/external_connection")).map Prod.fst).Nodup := by
    have hsub : ((s.itemDataMap.filter
        (fun kv => kv.2.type = "ec/external_connection")).map Prod.fst).Sublist
        (amKeys s.itemDataMap) :=
      List.Sublist.map Prod.fst (List.filter_sublist s.itemDataMap)
    exact hsub.nodup hnd
  have hperm : (extConList s.itemDataMap).Perm
      ((s.itemDataMap.filter (fun kv => kv.2.type = "ec/external_connection")).map
        (fun kv => (kv.2.x, kv.1))) := by
    rw [hext, specMarkersSorted]
    exact stableSortByKey_perm _
  have hmk : ((extConList s.itemDataMap).map Prod.snd).Nodup := by
    refine ((hperm.map Prod.snd).nodup_iff).2 ?_
    rw [List.map_map]
    exact hfil
  have htd : (extConList s.itemDataMap).map Prod.snd =
      ((extConList s.itemDataMap).take (pinHalf (extConList s.itemDataMap).length)).map
        Prod.snd ++
      ((extConList s.itemDataMap).drop (pinHalf (extConList s.itemDataMap).length)).map
        Prod.snd := by
    rw [← List.map_append, List.take_append_drop]
  rw [htd] at hmk
  obtain ⟨hndT, hndD, hdisj⟩ := List.nodup_append.1 hmk
  have hLkeys : ((pinSplit s).2.1.map Prod.snd).Perm
      (((extConList s.itemDataMap).take (pinHalf (extConList s.itemDataMap).length)).map
        Prod.snd) := by
    rw [hL]
    have hp := foldl_insY_perm_aux s.itemDataMap
      ((extConList s.itemDataMap).take (pinHalf (extConList s.itemDataMap).length)) []
    rw [List.nil_append] at hp
    have hp2 := hp.map Prod.snd
    rw [List.map_map] at hp2
    exact hp2
  have hRkeys : ((pinSplit s).2.2.map Prod.snd).Perm
      (((extConList s.itemDataMap).drop (pinHalf (extConList s.itemDataMap).length)).map
        Prod.snd) := by
    rw [hR]
    have hp := foldl_insY_perm_aux s.itemDataMap
      ((extConList s.itemDataMap).drop (pinHalf (extConList s.itemDataMap).length)) []
    rw [List.nil_append] at hp
    have hp2 := hp.map Prod.snd
    rw [List.map_map] at hp2
    exact hp2
  have hndLK : ((pinSplit s).2.1.map Prod.snd).Nodup := (hLkeys.nodup_iff).2 hndT
  have hndRK : ((pinSplit s).2.2.map Prod.snd).Nodup := (hRkeys.nodup_iff).2 hndD
  have hinner := assignLoop_spec 1 ((pinSplit s).2.1) 0 0 [] (fun kv _ => rfl) hndLK
  have hkeysNmL : amKeys (assignLoop 0 1 (pinSplit s).2.1 []) =
      (pinSplit s).2.1.map Prod.snd := by
    rw [hinner, List.nil_append, amKeys, List.map_map]
    have h1 : ((List.enumFrom 0 (pinSplit s).2.1).map Prod.snd).map Prod.snd
        = (pinSplit s).2.1.map Prod.snd :=
      congrArg (List.map Prod.snd) (List.enum_map_snd (pinSplit s).2.1)
    rw [List.map_map] at h1
    exact h1
  have hfreshR : ∀ kv ∈ (pinSplit s).2.2,
      amLookup (assignLoop 0 1 (pinSplit s).2.1 []) kv.2 = none := by
    intro kv hkv
    rw [← Option.not_isSome_iff_eq_none]
    intro hsome
    rw [amLookup_isSome_iff_mem, hkeysNmL] at hsome
    have hmemL : kv.2 ∈ ((extConList s.itemDataMap).take
        (pinHalf (extConList s.itemDataMap).length)).map Prod.snd :=
      hLkeys.mem_iff.1 hsome
    have hmemR : kv.2 ∈ ((extConList s.itemDataMap).drop
        (pinHalf (extConList s.itemDataMap).length)).map Prod.snd :=
      hRkeys.mem_iff.1 (List.mem_map_of_mem Prod.snd hkv)
    exact hdisj hmemL hmemR
  have houter := assignLoop_spec (-1) ((pinSplit s).2.2) 0
    (((extConList s.itemDataMap).length : Int) - 1)
    (assignLoop 0 1 (pinSplit s).2.1 []) hfreshR hndRK
  rw [subcircuitNodeMap, houter, hinner, List.nil_append, hL, hR,
    specPinAssignment, hSL, hSR, ← hext]
  refine congrArg₂ (· ++ ·) ?_ ?_
  · apply List.map_congr_left
    intro p _
    refine congrArg (fun z => (p.2.2, z)) ?_
    push_cast
    ring
  · apply List.map_congr_left
    intro p _
    refine congrArg (fun z => (p.2.2, z)) ?_
    push_cast
    ring

theorem initECSubcircuit_pin_order_witness :
    (amKeys pinExample.itemDataMap).Nodup ∧
    subcircuitNodeMap pinExample = specPinAssignment pinExample :=
  ⟨by decide, initECSubcircuit_pin_order.1 pinExample (by decide)⟩

/-! ## The DOM layer (model of the QDom interface consumed by
`toXML` / `fromXML`)

`QDomDocument` / `QDomElement` are Qt library code; the repository's own
serialization logic builds a DOM tree via `createElement` / `setAttribute` /
`appendChild` and walks it back via `attribute` / `firstChild` /
`nextSibling`.  The DOM is modelled as a tree of elements with an ordered
attribute list and child list.  An attribute value keeps the typed form in
which `setAttribute` received it (string, int, or a token list for the
comma-joined route and the space-joined pin list); its textual form —
what `attribute()` returns — is `AttrVal.toQString`, and reading a
list-valued attribute goes through the skip-empty split of that textual
form, exactly as the source does. -/

inductive AttrVal where
  | str (s : String)
  | int (n : Int)
  | toks (sep : Char) (ts : List String)
deriving DecidableEq

/-- The textual form of a stored attribute value.  Qt renders integers in
decimal; a token list renders as each token followed by the separator (the
string `connectorDataToElement` builds for `route`; `QStringList::join`,
used for the pinmap `map` attribute, differs only by the trailing
separator, which no reader observes through the skip-empty split). -/
def AttrVal.toQString : AttrVal → String
  | .str s => s
  | .int n => qStringOfInt n
  | .toks c ts => joinTrail c ts

inductive XElem where
  | mk (tag : String) (attrs : List (String × AttrVal)) (children : List XElem)

def XElem.tag : XElem → String
  | .mk t _ _ => t

def XElem.attrs : XElem → List (String × AttrVal)
  | .mk _ a _ => a

def XElem.children : XElem → List XElem
  | .mk _ _ c => c

/-- `QDomElement::attribute(name)` yields the null string exactly when the
attribute is absent; modelled as an `Option`. -/
def xattr? (e : XElem) (name : String) : Option AttrVal :=
  amLookup e.attrs name

/-- `element.attribute(name, dflt)` as a string. -/
def xattrD (e : XElem) (name dflt : String) : String :=
  match xattr? e name with
  | some v => v.toQString
  | none => dflt

/-- `element.attribute(name, dflt).toInt()`. -/
def xattrInt (e : XElem) (name dflt : String) : Int :=
  qStringToInt (xattrD e name dflt)

/-- `element.hasAttribute(name)`. -/
def xhasAttr (e : XElem) (name : String) : Bool :=
  (xattr? e name).isSome

/-- `element.attribute(name, "").split(sep, Qt::SkipEmptyParts)`. -/
def xattrToks (e : XElem) (name : String) (sep : Char) : List String :=
  qSplitSkipEmpty sep (xattrD e name "")

/-- `node.setAttribute("id", key)` performed by `toXML` on the elements the
record serializers return (none of which carries an `id` yet, so this
appends). -/
def appendIdAttr (e : XElem) (id : String) : XElem :=
  XElem.mk e.tag (amInsert e.attrs "id" (.str id)) e.children

/-! ### Serializers (`*DataToElement`) -/

/-- `ItemDocumentData::itemDataToElement`.  Attribute and child order follow
the `setAttribute` / `appendChild` calls of the source.  `setAttribute` on a
`bool` goes through the `int` overload; the `data`/`button`/`slider` values
are written with an explicit `QString::number`. -/
def itemDataToElement (d : ItemData) : XElem :=
  XElem.mk "item"
    ([("type", .str d.type), ("x", .int d.x), ("y", .int d.y)]
      ++ (if d.z ≠ -1 then [("z", AttrVal.int d.z)] else [])
      ++ (if d.setSize then
            [("offset-x", AttrVal.int d.sizeX), ("offset-y", AttrVal.int d.sizeY),
             ("width", AttrVal.int d.sizeW), ("height", AttrVal.int d.sizeH)]
          else [])
      ++ (if 0 ≤ d.orientation then [("orientation", AttrVal.int d.orientation)]
          else [("angle", AttrVal.int d.angleDegrees),
                ("flip", AttrVal.int (if d.flipped then 1 else 0))])
      ++ (if d.parentId ≠ "" then [("parent", AttrVal.str d.parentId)] else []))
    (d.dataString.map (fun kv => XElem.mk "data"
        [("id", .str kv.1), ("type", .str "string"), ("value", .str kv.2)] [])
      ++ d.dataNumber.map (fun kv => XElem.mk "data"
        [("id", .str kv.1), ("type", .str "number"), ("value", .str (qStringOfInt kv.2))] [])
      ++ d.dataColor.map (fun kv => XElem.mk "data"
        [("id", .str kv.1), ("type", .str "color"), ("value", .str kv.2.name)] [])
      ++ d.dataRaw.map (fun kv => XElem.mk "data"
        [("id", .str kv.1), ("type", .str "raw"), ("value", .str (toAsciiHex kv.2))] [])
      ++ d.dataBool.map (fun kv => XElem.mk "data"
        [("id", .str kv.1), ("type", .str "bool"),
         ("value", .str (qStringOfInt (if kv.2 then 1 else 0)))] [])
      ++ d.buttonMap.map (fun kv => XElem.mk "button"
        [("id", .str kv.1), ("state", .str (qStringOfInt (if kv.2 then 1 else 0)))] [])
      ++ d.sliderMap.map (fun kv => XElem.mk "slider"
        [("id", .str kv.1), ("value", .str (qStringOfInt kv.2))] []))

/-- `ItemDocumentData::connectorDataToElement`.  The route is the string
`"x1,y1,x2,y2,…,"` (each coordinate followed by a comma). -/
def connectorDataToElement (c : ConnectorData) : XElem :=
  XElem.mk "connector"
    ([("manual-route", AttrVal.int (if c.manualRoute then 1 else 0)),
      ("route", AttrVal.toks ','
        (c.route.flatMap (fun p => [qStringOfInt p.1, qStringOfInt p.2])))]
      ++ (if c.startNodeIsChild then
            [("start-node-is-child", AttrVal.int 1),
             ("start-node-cid", AttrVal.str c.startNodeCId),
             ("start-node-parent", AttrVal.str c.startNodeParent)]
          else
            [("start-node-is-child", AttrVal.int 0),
             ("start-node-id", AttrVal.str c.startNodeId)])
      ++ (if c.endNodeIsChild then
            [("end-node-is-child", AttrVal.int 1),
             ("end-node-cid", AttrVal.str c.endNodeCId),
             ("end-node-parent", AttrVal.str c.endNodeParent)]
          else
            [("end-node-is-child", AttrVal.int 0),
             ("end-node-id", AttrVal.str c.endNodeId)]))
    []

/-- `ItemDocumentData::nodeDataToElement`. -/
def nodeDataToElement (nd : NodeData) : XElem :=
  XElem.mk "node" [("x", .int nd.x), ("y", .int nd.y)] []

/-- The type string written for a `PinMapping` (the `Invalid` case writes
the empty string). -/
def pinMappingTypeString : PinMappingType → String
  | .SevenSegment => "sevensegment"
  | .Keypad_4x3 => "keypad_4x3"
  | .Keypad_4x4 => "keypad_4x4"
  | .Invalid => ""

/-- `ItemDocumentData::microDataToElement`. -/
def microDataToElement (m : MicroData) : XElem :=
  XElem.mk "micro" [("id", .str m.id)]
    (m.pinMappings.map (fun kv => XElem.mk "pinmap"
        [("id", .str kv.1), ("type", .str (pinMappingTypeString kv.2.type)),
         ("map", AttrVal.toks ' ' kv.2.pins)] [])
      ++ m.pinMap.map (fun kv => XElem.mk "pin"
        [("id", .str kv.1),
         ("type", .str (if kv.2.type = .pt_input then "input" else "output")),
         ("state", .str (if kv.2.state = .ps_off then "off" else "on"))] [])
      ++ m.variableMap.map (fun kv => XElem.mk "variable"
        [("name", .str kv.1), ("value", .str kv.2)] []))

/-- `ItemDocumentData::toXML`: the root `document` element with its `type`
attribute, one child per item, connector and node (each given its `id`
attribute), and the `micro` element for flow-code documents. -/
def ItemDocumentData.toXML (s : ItemDocumentData) : XElem :=
  XElem.mk "document" [("type", .str s.documentTypeString)]
    (s.itemDataMap.map (fun kv => appendIdAttr (itemDataToElement kv.2) kv.1)
      ++ s.connectorDataMap.map (fun kv => appendIdAttr (connectorDataToElement kv.2) kv.1)
      ++ s.nodeDataMap.map (fun kv => appendIdAttr (nodeDataToElement kv.2) kv.1)
      ++ (if s.documentType = DocumentType.dt_flowcode then [microDataToElement s.microData]
          else []))

/-! ### Parsers (`elementTo*Data`, `fromXML`) -/

/-- Model of `QString::toDouble` for the number-valued item data: the
`double` values in this file's scope are integral (see the header comment),
so the parse is the integer parse. -/
def qStringToDouble (s : String) : Int :=
  qStringToInt s

/-- The attribute part of `ItemDocumentData::elementToItemData`. -/
def parseItemAttrs (e : XElem) : ItemData :=
  if xhasAttr e "width" && xhasAttr e "height" then
    { type := xattrD e "type" ""
      x := xattrInt e "x" "120"
      y := xattrInt e "y" "120"
      z := xattrInt e "z" "-1"
      angleDegrees := xattrInt e "angle" "0"
      flipped := xattrInt e "flip" "0" ≠ 0
      orientation := xattrInt e "orientation" "-1"
      parentId := xattrD e "parent" ""
      setSize := true
      sizeX := xattrInt e "offset-x" "0"
      sizeY := xattrInt e "offset-y" "0"
      sizeW := xattrInt e "width" "120"
      sizeH := xattrInt e "height" "120" }
  else
    { type := xattrD e "type" ""
      x := xattrInt e "x" "120"
      y := xattrInt e "y" "120"
      z := xattrInt e "z" "-1"
      angleDegrees := xattrInt e "angle" "0"
      flipped := xattrInt e "flip" "0" ≠ 0
      orientation := xattrInt e "orientation" "-1"
      parentId := xattrD e "parent" ""
      setSize := false }

mutual

/-- `ItemDocumentData::elementToItemData`: drop the element when the `id`
attribute is absent (logged); otherwise store the parsed record and walk the
children (`data`, `button`, `slider`, legacy nested `item`, the retired
`child-node` tag, and unknown tags, which are logged and ignored). -/
def elementToItemData (m : List (String × ItemData)) : XElem → List (String × ItemData)
  | XElem.mk t a cs =>
    match amLookup a "id" with
    | none => m
    | some idv =>
      itemChildren
        (amInsert m idv.toQString (parseItemAttrs (XElem.mk t a cs))) idv.toQString cs

def itemChildren (m : List (String × ItemData)) (id : String) :
    List XElem → List (String × ItemData)
  | [] => m
  | c :: cs => itemChildren (itemChild m id c) id cs

/-- One child of an `item` element. -/
def itemChild (m : List (String × ItemData)) (id : String) (c : XElem) :
    List (String × ItemData) :=
  if c.tag = "item" then
    -- legacy nested format: parse the child item, then force its parent id
    match amLookup c.attrs "id" with
    | none => elementToItemData m c
    | some cidv =>
      amUpd (elementToItemData m c) cidv.toQString {} (fun d => { d with parentId := id })
  else if c.tag = "data" then
    match amLookup c.attrs "id" with
    | none => m
    | some dv =>
      if xattrD c "type" "" = "string" ∨ xattrD c "type" "" = "multiline" then
        amUpd m id {} (fun d =>
          { d with dataString := amInsert d.dataString dv.toQString (xattrD c "value" "") })
      else if xattrD c "type" "" = "number" then
        amUpd m id {} (fun d =>
          { d with dataNumber :=
              amInsert d.dataNumber dv.toQString (qStringToDouble (xattrD c "value" "")) })
      else if xattrD c "type" "" = "color" then
        amUpd m id {} (fun d =>
          { d with dataColor := amInsert d.dataColor dv.toQString ⟨xattrD c "value" ""⟩ })
      else if xattrD c "type" "" = "raw" then
        amUpd m id {} (fun d =>
          { d with dataRaw := amInsert d.dataRaw dv.toQString (toQBitArray (xattrD c "value" "")) })
      else if xattrD c "type" "" = "bool" then
        amUpd m id {} (fun d =>
          { d with dataBool :=
              amInsert d.dataBool dv.toQString (qStringToInt (xattrD c "value" "") ≠ 0) })
      else m
  else if c.tag = "button" then
    match amLookup c.attrs "id" with
    | none => m
    | some bv =>
      amUpd m id {} (fun d =>
        { d with buttonMap := amInsert d.buttonMap bv.toQString (xattrInt c "state" "0" ≠ 0) })
  else if c.tag = "slider" then
    match amLookup c.attrs "id" with
    | none => m
    | some sv =>
      amUpd m id {} (fun d =>
        { d with sliderMap := amInsert d.sliderMap sv.toQString (xattrInt c "value" "0") })
  else m

end

/-- `ItemDocumentData::elementToNodeData`. -/
def elementToNodeData (m : List (String × NodeData)) (e : XElem) : List (String × NodeData) :=
  match xattr? e "id" with
  | none => m
  | some idv =>
    amInsert m idv.toQString { x := xattrInt e "x" "120", y := xattrInt e "y" "120" }

/-- The route-pairing loop of `elementToConnectorData`: coordinates are read
two at a time, a trailing odd coordinate is dropped. -/
def parseRoutePoints : List String → List (Int × Int)
  | x :: y :: rest => (qStringToInt x, qStringToInt y) :: parseRoutePoints rest
  | _ => []

/-- `ItemDocumentData::elementToConnectorData`. -/
def elementToConnectorData (m : List (String × ConnectorData)) (e : XElem) :
    List (String × ConnectorData) :=
  match xattr? e "id" with
  | none => m
  | some idv =>
    amInsert m idv.toQString
      (let c0 : ConnectorData :=
        { manualRoute := xattrD e "manual-route" "0" = "1"
          route := parseRoutePoints (xattrToks e "route" ',') }
      let c1 :=
        if xattrInt e "start-node-is-child" "0" ≠ 0 then
          { c0 with
            startNodeIsChild := true
            startNodeCId := xattrD e "start-node-cid" ""
            startNodeParent := xattrD e "start-node-parent" "" }
        else
          { c0 with startNodeIsChild := false, startNodeId := xattrD e "start-node-id" "" }
      if xattrInt e "end-node-is-child" "0" ≠ 0 then
        { c1 with
          endNodeIsChild := true
          endNodeCId := xattrD e "end-node-cid" ""
          endNodeParent := xattrD e "end-node-parent" "" }
      else
        { c1 with endNodeIsChild := false, endNodeId := xattrD e "end-node-id" "" })

/-- One child of the `micro` element. -/
def microChild (micro : MicroData) (c : XElem) : MicroData :=
  if c.tag = "pinmap" then
    if xattrD c "id" "" ≠ "" ∧ xattrD c "type" "" ≠ "" then
      { micro with pinMappings := amInsert micro.pinMappings (xattrD c "id" "") (
          { type :=
              if xattrD c "type" "" = "sevensegment" then PinMappingType.SevenSegment
              else if xattrD c "type" "" = "keypad_4x3" then PinMappingType.Keypad_4x3
              else if xattrD c "type" "" = "keypad_4x4" then PinMappingType.Keypad_4x4
              else PinMappingType.Invalid
            pins := xattrToks c "map" ' ' }) }
    else micro
  else if c.tag = "pin" then
    if xattrD c "id" "" ≠ "" then
      { micro with pinMap := amInsert micro.pinMap (xattrD c "id" "") (
          { type := if xattrD c "type" "input" = "input" then PinType.pt_input else PinType.pt_output
            state := if xattrD c "state" "off" = "off" then PinState.ps_off else PinState.ps_on }) }
    else micro
  else if c.tag = "variable" then
    { micro with variableMap := amInsert micro.variableMap (xattrD c "name" "") (xattrD c "value" "") }
  else micro

/-- `ItemDocumentData::elementToMicroData`: requires an `id` (or legacy
`pic`) attribute; resets the micro record (which, per `MicroData::reset`,
keeps `pinMappings` and `variableMap`), sets the id, and walks the
`pinmap` / `pin` / `variable` children. -/
def elementToMicroData (micro : MicroData) (e : XElem) : MicroData :=
  match (match xattr? e "id" with
         | some v => some v
         | none => xattr? e "pic") with
  | none => micro
  | some idv =>
    e.children.foldl microChild { micro.reset with id := idv.toQString }

/-- One root child of `fromXML`. -/
def fromXMLStep (s : ItemDocumentData) (e : XElem) : ItemDocumentData :=
  if e.tag = "item" then { s with itemDataMap := elementToItemData s.itemDataMap e }
  else if e.tag = "node" then { s with nodeDataMap := elementToNodeData s.nodeDataMap e }
  else if e.tag = "connector" then
    { s with connectorDataMap := elementToConnectorData s.connectorDataMap e }
  else if e.tag = "pic-settings" ∨ e.tag = "micro" then
    { s with microData := elementToMicroData s.microData e }
  else s

/-- `ItemDocumentData::fromXML`: `reset()`, then — if the text parsed as
well-formed XML (`doc? = some root`, `QDomDocument::setContent` is Qt
library code) — walk the root's immediate children; the `code` tag does
nothing and unknown tags are logged and ignored.  Note that the root's
`type` attribute is never read: the document type stays at the value
`reset()` left, `dt_none`. -/
def ItemDocumentData.fromXML (s : ItemDocumentData) (doc? : Option XElem) :
    Bool × ItemDocumentData :=
  match doc? with
  | none => (false, s.reset)
  | some root => (true, root.children.foldl fromXMLStep s.reset)

/-- Snapshot for C1's counterexample: empty maps, document type `circuit`. -/
def rtExample : ItemDocumentData :=
  { documentType := .dt_circuit }

/-- C1 counterexample: `toXML` writes the document type into the root's
`type` attribute, but `fromXML` never reads it — parsing starts with
`reset()` (document type `dt_none`) and the root's attributes are ignored —
so the round trip does not reproduce the document-type tag. -/
theorem fromXML_drops_document_type :
    ((ItemDocumentData.mkNew DocumentType.dt_none).fromXML (some rtExample.toXML)).2.documentType
      ≠ rtExample.documentType := by
  decide

/-- A root child that `fromXML` ignores or drops: an unrecognized tag, the
retired `code` tag, an `item`/`node`/`connector` element missing its `id`
attribute, and a `micro`/`pic-settings` element missing both `id` and
`pic`. -/
def rootChildDroppable (e : XElem) : Bool :=
  if e.tag = "item" then xattr? e "id" = none
  else if e.tag = "node" then xattr? e "id" = none
  else if e.tag = "connector" then xattr? e "id" = none
  else if e.tag = "pic-settings" ∨ e.tag = "micro" then
    xattr? e "id" = none ∧ xattr? e "pic" = none
  else true

theorem fromXMLStep_droppable (s : ItemDocumentData) (e : XElem)
    (h : rootChildDroppable e = true) : fromXMLStep s e = s := by
  obtain ⟨t, a, cs⟩ := e
  rw [rootChildDroppable] at h
  rw [fromXMLStep]
  by_cases h1 : (XElem.mk t a cs).tag = "item"
  · rw [if_pos h1] at h ⊢
    have hid : xattr? (XElem.mk t a cs) "id" = none := by simpa using h
    rw [show xattr? (XElem.mk t a cs) "id" = amLookup a "id" from rfl] at hid
    rw [elementToItemData, hid]
  · rw [if_neg h1] at h ⊢
    by_cases h2 : (XElem.mk t a cs).tag = "node"
    · rw [if_pos h2] at h ⊢
      have hid : xattr? (XElem.mk t a cs) "id" = none := by simpa using h
      rw [elementToNodeData, hid]
    · rw [if_neg h2] at h ⊢
      by_cases h3 : (XElem.mk t a cs).tag = "connector"
      · rw [if_pos h3] at h ⊢
        have hid : xattr? (XElem.mk t a cs) "id" = none := by simpa using h
        rw [elementToConnectorData, hid]
      · rw [if_neg h3] at h ⊢
        by_cases h4 : (XElem.mk t a cs).tag = "pic-settings" ∨ (XElem.mk t a cs).tag = "micro"
        · rw [if_pos h4] at h ⊢
          have hid : xattr? (XElem.mk t a cs) "id" = none ∧
              xattr? (XElem.mk t a cs) "pic" = none := by simpa using h
          rw [elementToMicroData, hid.1, hid.2]
        · rw [if_neg h4]

theorem foldl_fromXMLStep_filter (l : List XElem) :
    ∀ s0 : ItemDocumentData, l.foldl fromXMLStep s0 =
      (l.filter (fun c => ¬ rootChildDroppable c)).foldl fromXMLStep s0 := by
  induction l with
  | nil =>
    intro s0
    rfl
  | cons c cs ih =>
    intro s0
    by_cases h : rootChildDroppable c
    · rw [List.foldl_cons, List.filter_cons_of_neg (by simpa using h),
        fromXMLStep_droppable s0 c h]
      exact ih s0
    · rw [List.foldl_cons, List.filter_cons_of_pos (by simpa using h), List.foldl_cons]
      exact ih (fromXMLStep s0 c)

/-- C9: for any well-formed input, `fromXML` succeeds; unrecognized root
children are ignored and `item`/`node`/`connector` (and `micro`) elements
missing their identifying attribute are dropped without affecting the rest
of the parse — removing exactly those children yields the same parse
result.  `fromXML` fails only when the input cannot be parsed as
well-formed XML (`doc? = none`). -/
theorem fromXML_error_policy :
    (∀ (s : ItemDocumentData) (root : XElem), (s.fromXML (some root)).1 = true) ∧
    (∀ s : ItemDocumentData, (s.fromXML none).1 = false) ∧
    (∀ (s : ItemDocumentData) (root : XElem),
      s.fromXML (some root) =
        s.fromXML (some (XElem.mk root.tag root.attrs
          (root.children.filter (fun c => ¬ rootChildDroppable c))))) := by
  refine ⟨fun s root => rfl, fun s => rfl, fun s root => ?_⟩
  rw [ItemDocumentData.fromXML, ItemDocumentData.fromXML]
  rw [show (XElem.mk root.tag root.attrs
      (root.children.filter (fun c => ¬ rootChildDroppable c))).children
    = root.children.filter (fun c => ¬ rootChildDroppable c) from rfl]
  rw [← foldl_fromXMLStep_filter]

/-! ### Round-trip observational equality (claim C1)

The parsed record reproduces every serialized field.  Fields that are not
serialized are compared per the data model's own conventions (§3): the
bounding rectangle only exists when `setSize` is set; `orientation ≥ 0`
means container-set (angle/flip ignored), `orientation < 0` means use
angle/flip (any negative value means the same thing, and the parser's
default is `-1`); a connector endpoint is a tagged variant, so only the
active variant's fields are compared; raw bit-vectors come back
zero-padded to a multiple of four bits (§4.1). -/

/-- The zero-padding a bit-vector acquires through the hex codec. -/
def padBits (v : List Bool) : List Bool :=
  v ++ List.replicate ((4 - v.length % 4) % 4) false

/-- Observational equality of the scalar (non-map) item fields. -/
def itemScalarObsEq (a b : ItemData) : Prop :=
  b.type = a.type ∧ b.x = a.x ∧ b.y = a.y ∧ b.z = a.z ∧
  b.setSize = a.setSize ∧
  (a.setSize = true →
    b.sizeX = a.sizeX ∧ b.sizeY = a.sizeY ∧ b.sizeW = a.sizeW ∧ b.sizeH = a.sizeH) ∧
  (0 ≤ a.orientation → b.orientation = a.orientation) ∧
  (a.orientation < 0 →
    b.orientation < 0 ∧ b.angleDegrees = a.angleDegrees ∧ b.flipped = a.flipped) ∧
  b.parentId = a.parentId

/-- Observational equality of item records. -/
def itemObsEq (a b : ItemData) : Prop :=
  itemScalarObsEq a b ∧
  b.dataString = a.dataString ∧
  b.dataNumber = a.dataNumber ∧
  b.dataColor = a.dataColor ∧
  b.dataRaw = a.dataRaw.map (fun kv => (kv.1, padBits kv.2)) ∧
  b.dataBool = a.dataBool ∧
  b.buttonMap = a.buttonMap ∧
  b.sliderMap = a.sliderMap

/-- Observational equality of connector records (both endpoint variants). -/
def connObsEq (a b : ConnectorData) : Prop :=
  b.manualRoute = a.manualRoute ∧ b.route = a.route ∧
  b.startNodeIsChild = a.startNodeIsChild ∧ b.endNodeIsChild = a.endNodeIsChild ∧
  (a.startNodeIsChild = true →
    b.startNodeCId = a.startNodeCId ∧ b.startNodeParent = a.startNodeParent) ∧
  (a.startNodeIsChild = false → b.startNodeId = a.startNodeId) ∧
  (a.endNodeIsChild = true →
    b.endNodeCId = a.endNodeCId ∧ b.endNodeParent = a.endNodeParent) ∧
  (a.endNodeIsChild = false → b.endNodeId = a.endNodeId)

/-- Well-formedness of one item record's property maps (QMap keys are
unique). -/
def itemWF (d : ItemData) : Prop :=
  (amKeys d.dataString).Nodup ∧ (amKeys d.dataNumber).Nodup ∧
  (amKeys d.dataColor).Nodup ∧ (amKeys d.dataRaw).Nodup ∧
  (amKeys d.dataBool).Nodup ∧ (amKeys d.buttonMap).Nodup ∧
  (amKeys d.sliderMap).Nodup

/-- Well-formedness of the micro record: unique keys, and the textual
constraints its codec needs (a pinmap key and a non-`Invalid` type survive
the parse filter; pin names survive the space-joined `map` attribute). -/
def microWF (m : MicroData) : Prop :=
  (amKeys m.pinMappings).Nodup ∧ (amKeys m.pinMap).Nodup ∧
  (amKeys m.variableMap).Nodup ∧
  (∀ kv ∈ m.pinMappings, kv.1 ≠ "" ∧ kv.2.type ≠ PinMappingType.Invalid ∧
    ∀ p ∈ kv.2.pins, p ≠ "" ∧ ' ' ∉ p.data) ∧
  (∀ kv ∈ m.pinMap, kv.1 ≠ "")

/-- Well-formedness of a snapshot. -/
def snapshotWF (s : ItemDocumentData) : Prop :=
  (amKeys s.itemDataMap).Nodup ∧ (amKeys s.connectorDataMap).Nodup ∧
  (amKeys s.nodeDataMap).Nodup ∧
  (∀ kv ∈ s.itemDataMap, itemWF kv.2) ∧
  (s.documentType = DocumentType.dt_flowcode → microWF s.microData)

theorem qStringToInt_lit_neg1 : qStringToInt "-1" = -1 := by decide

theorem qStringToInt_lit_120 : qStringToInt "120" = 120 := by decide

theorem qStringToInt_lit_0 : qStringToInt "0" = 0 := by decide

theorem ite_one_zero_ne_zero (b : Bool) : ((if b then (1 : Int) else 0) ≠ 0) = (b = true) := by
  cases b <;> simp

theorem amLookup_append_none {α : Type} (l1 l2 : List (String × α)) (k : String)
    (h1 : amLookup l1 k = none) (h2 : amLookup l2 k = none) :
    amLookup (l1 ++ l2) k = none := by
  rw [amLookup_append, h1]
  exact h2

theorem amLookup_ite_append {α : Type} (c : Prop) [Decidable c]
    (l1 l2 rest : List (String × α)) (k : String)
    (h1 : amLookup l1 k = none) (h2 : amLookup l2 k = none) :
    amLookup ((if c then l1 else l2) ++ rest) k = amLookup rest k := by
  by_cases h : c <;> simp [h, amLookup_append, h1, h2]

theorem item_attr_id_absent (d : ItemData) :
    amLookup (itemDataToElement d).attrs "id" = none := by
  show amLookup
    ([("type", AttrVal.str d.type), ("x", AttrVal.int d.x), ("y", AttrVal.int d.y)]
      ++ (if d.z ≠ -1 then [("z", AttrVal.int d.z)] else [])
      ++ (if d.setSize then
            [("offset-x", AttrVal.int d.sizeX), ("offset-y", AttrVal.int d.sizeY),
             ("width", AttrVal.int d.sizeW), ("height", AttrVal.int d.sizeH)]
          else [])
      ++ (if 0 ≤ d.orientation then [("orientation", AttrVal.int d.orientation)]
          else [("angle", AttrVal.int d.angleDegrees),
                ("flip", AttrVal.int (if d.flipped then 1 else 0))])
      ++ (if d.parentId ≠ "" then [("parent", AttrVal.str d.parentId)] else [])) "id" = none
  refine amLookup_append_none _ _ _
    (amLookup_append_none _ _ _
      (amLookup_append_none _ _ _
        (amLookup_append_none _ _ _ (by simp [amLookup]) ?_) ?_) ?_) ?_
  · by_cases h : d.z ≠ -1 <;> simp [h, amLookup]
  · by_cases h : d.setSize <;> simp [h, amLookup]
  · by_cases h : 0 ≤ d.orientation <;> simp [h, amLookup]
  · by_cases h : d.parentId ≠ "" <;> simp [h, amLookup]

theorem item_el_attrs (d : ItemData) (k : String) :
    (appendIdAttr (itemDataToElement d) k).attrs =
      (itemDataToElement d).attrs ++ [("id", AttrVal.str k)] :=
  amInsert_absent _ _ _ (item_attr_id_absent d)
theorem item_attr_type (d : ItemData) (k : String) :
    xattr? (appendIdAttr (itemDataToElement d) k) "type" = some (AttrVal.str d.type) := by
  rw [xattr?, item_el_attrs]
  rfl

theorem item_attr_x (d : ItemData) (k : String) :
    xattr? (appendIdAttr (itemDataToElement d) k) "x" = some (AttrVal.int d.x) := by
  rw [xattr?, item_el_attrs]
  rfl

theorem item_attr_y (d : ItemData) (k : String) :
    xattr? (appendIdAttr (itemDataToElement d) k) "y" = some (AttrVal.int d.y) := by
  rw [xattr?, item_el_attrs]
  rfl

theorem item_attr_z (d : ItemData) (k : String) :
    xattr? (appendIdAttr (itemDataToElement d) k) "z"
      = if d.z ≠ -1 then some (AttrVal.int d.z) else none := by
  rw [xattr?, item_el_attrs]
  by_cases hz : d.z ≠ -1 <;> by_cases hs : d.setSize = true <;>
    by_cases ho : 0 ≤ d.orientation <;> by_cases hp : d.parentId ≠ "" <;>
    simp [itemDataToElement, XElem.attrs, hz, hs, ho, hp, amLookup_append, amLookup]

theorem item_attr_offsetX (d : ItemData) (k : String) :
    xattr? (appendIdAttr (itemDataToElement d) k) "offset-x"
      = if d.setSize = true then some (AttrVal.int d.sizeX) else none := by
  rw [xattr?, item_el_attrs]
  by_cases hz : d.z ≠ -1 <;> by_cases hs : d.setSize = true <;>
    by_cases ho : 0 ≤ d.orientation <;> by_cases hp : d.parentId ≠ "" <;>
    simp [itemDataToElement, XElem.attrs, hz, hs, ho, hp, amLookup_append, amLookup]

theorem item_attr_offsetY (d : ItemData) (k : String) :
    xattr? (appendIdAttr (itemDataToElement d) k) "offset-y"
      = if d.setSize = true then some (AttrVal.int d.sizeY) else none := by
  rw [xattr?, item_el_attrs]
  by_cases hz : d.z ≠ -1 <;> by_cases hs : d.setSize = true <;>
    by_cases ho : 0 ≤ d.orientation <;> by_cases hp : d.parentId ≠ "" <;>
    simp [itemDataToElement, XElem.attrs, hz, hs, ho, hp, amLookup_append, amLookup]

theorem item_attr_width (d : ItemData) (k : String) :
    xattr? (appendIdAttr (itemDataToElement d) k) "width"
      = if d.setSize = true then some (AttrVal.int d.sizeW) else none := by
  rw [xattr?, item_el_attrs]
  by_cases hz : d.z ≠ -1 <;> by_cases hs : d.setSize = true <;>
    by_cases ho : 0 ≤ d.orientation <;> by_cases hp : d.parentId ≠ "" <;>
    simp [itemDataToElement, XElem.attrs, hz, hs, ho, hp, amLookup_append, amLookup]

theorem item_attr_height (d : ItemData) (k : String) :
    xattr? (appendIdAttr (itemDataToElement d) k) "height"
      = if d.setSize = true then some (AttrVal.int d.sizeH) else none := by
  rw [xattr?, item_el_attrs]
  by_cases hz : d.z ≠ -1 <;> by_cases hs : d.setSize = true <;>
    by_cases ho : 0 ≤ d.orientation <;> by_cases hp : d.parentId ≠ "" <;>
    simp [itemDataToElement, XElem.attrs, hz, hs, ho, hp, amLookup_append, amLookup]

theorem item_attr_orientation (d : ItemData) (k : String) :
    xattr? (appendIdAttr (itemDataToElement d) k) "orientation"
      = if 0 ≤ d.orientation then some (AttrVal.int d.orientation) else none := by
  rw [xattr?, item_el_attrs]
  by_cases hz : d.z ≠ -1 <;> by_cases hs : d.setSize = true <;>
    by_cases ho : 0 ≤ d.orientation <;> by_cases hp : d.parentId ≠ "" <;>
    simp [itemDataToElement, XElem.attrs, hz, hs, ho, hp, amLookup_append, amLookup]

theorem item_attr_angle (d : ItemData) (k : String) :
    xattr? (appendIdAttr (itemDataToElement d) k) "angle"
      = if 0 ≤ d.orientation then none else some (AttrVal.int d.angleDegrees) := by
  rw [xattr?, item_el_attrs]
  by_cases hz : d.z ≠ -1 <;> by_cases hs : d.setSize = true <;>
    by_cases ho : 0 ≤ d.orientation <;> by_cases hp : d.parentId ≠ "" <;>
    simp [itemDataToElement, XElem.attrs, hz, hs, ho, hp, amLookup_append, amLookup]

theorem item_attr_flip (d : ItemData) (k : String) :
    xattr? (appendIdAttr (itemDataToElement d) k) "flip"
      = if 0 ≤ d.orientation then none
        else some (AttrVal.int (if d.flipped then 1 else 0)) := by
  rw [xattr?, item_el_attrs]
  by_cases hz : d.z ≠ -1 <;> by_cases hs : d.setSize = true <;>
    by_cases ho : 0 ≤ d.orientation <;> by_cases hp : d.parentId ≠ "" <;>
    simp [itemDataToElement, XElem.attrs, hz, hs, ho, hp, amLookup_append, amLookup]

theorem item_attr_parent (d : ItemData) (k : String) :
    xattr? (appendIdAttr (itemDataToElement d) k) "parent"
      = if d.parentId ≠ "" then some (AttrVal.str d.parentId) else none := by
  rw [xattr?, item_el_attrs]
  by_cases hz : d.z ≠ -1 <;> by_cases hs : d.setSize = true <;>
    by_cases ho : 0 ≤ d.orientation <;> by_cases hp : d.parentId ≠ "" <;>
    simp [itemDataToElement, XElem.attrs, hz, hs, ho, hp, amLookup_append, amLookup]

theorem item_attr_id (d : ItemData) (k : String) :
    xattr? (appendIdAttr (itemDataToElement d) k) "id" = some (AttrVal.str k) := by
  rw [xattr?, item_el_attrs, amLookup_append, item_attr_id_absent d]
  simp [amLookup]
theorem parseItemAttrs_scalar (d : ItemData) (k : String) :
    itemScalarObsEq d (parseItemAttrs (appendIdAttr (itemDataToElement d) k)) := by
  have hw : xhasAttr (appendIdAttr (itemDataToElement d) k) "width" = d.setSize := by
    rw [xhasAttr, item_attr_width d k]
    by_cases hs : d.setSize = true <;> simp [hs]
  have hh : xhasAttr (appendIdAttr (itemDataToElement d) k) "height" = d.setSize := by
    rw [xhasAttr, item_attr_height d k]
    by_cases hs : d.setSize = true <;> simp [hs]
  unfold parseItemAttrs
  rw [hw, hh, Bool.and_self]
  by_cases hs : d.setSize = true
  · rw [if_pos hs]
    refine ⟨?_, ?_, ?_, ?_, ?_, ?_, ?_, ?_, ?_⟩
    · simp [xattrD, item_attr_type, AttrVal.toQString]
    · simp [xattrInt, xattrD, item_attr_x, AttrVal.toQString, qStringToInt_qStringOfInt]
    · simp [xattrInt, xattrD, item_attr_y, AttrVal.toQString, qStringToInt_qStringOfInt]
    · by_cases hz : d.z ≠ -1
      · simp [xattrInt, xattrD, item_attr_z, hz, AttrVal.toQString, qStringToInt_qStringOfInt]
      · have hz' : d.z = -1 := by omega
        simp [xattrInt, xattrD, item_attr_z, hz, hz', AttrVal.toQString, qStringToInt_lit_neg1]
    · exact hs.symm
    · intro _
      refine ⟨?_, ?_, ?_, ?_⟩ <;>
        simp [xattrInt, xattrD, item_attr_offsetX, item_attr_offsetY, item_attr_width,
          item_attr_height, hs, AttrVal.toQString, qStringToInt_qStringOfInt]
    · intro ho
      simp [xattrInt, xattrD, item_attr_orientation, ho, AttrVal.toQString,
        qStringToInt_qStringOfInt]
    · intro ho
      have ho' : ¬ 0 ≤ d.orientation := not_le.mpr ho
      refine ⟨?_, ?_, ?_⟩
      · simp [xattrInt, xattrD, item_attr_orientation, ho', qStringToInt_lit_neg1]
      · simp [xattrInt, xattrD, item_attr_angle, ho', AttrVal.toQString,
          qStringToInt_qStringOfInt]
      · cases hd : d.flipped <;>
          simp [xattrInt, xattrD, item_attr_flip, ho', hd, AttrVal.toQString,
            qStringToInt_qStringOfInt]
    · by_cases hp : d.parentId ≠ ""
      · simp [xattrD, item_attr_parent, hp, AttrVal.toQString]
      · have hp' : d.parentId = "" := by simpa using hp
        simp [xattrD, item_attr_parent, hp, hp']
  · rw [if_neg hs]
    refine ⟨?_, ?_, ?_, ?_, ?_, ?_, ?_, ?_, ?_⟩
    · simp [xattrD, item_attr_type, AttrVal.toQString]
    · simp [xattrInt, xattrD, item_attr_x, AttrVal.toQString, qStringToInt_qStringOfInt]
    · simp [xattrInt, xattrD, item_attr_y, AttrVal.toQString, qStringToInt_qStringOfInt]
    · by_cases hz : d.z ≠ -1
      · simp [xattrInt, xattrD, item_attr_z, hz, AttrVal.toQString, qStringToInt_qStringOfInt]
      · have hz' : d.z = -1 := by omega
        simp [xattrInt, xattrD, item_attr_z, hz, hz', AttrVal.toQString, qStringToInt_lit_neg1]
    · simp only [Bool.not_eq_true] at hs
      exact hs.symm
    · intro h
      exact absurd h hs
    · intro ho
      simp [xattrInt, xattrD, item_attr_orientation, ho, AttrVal.toQString,
        qStringToInt_qStringOfInt]
    · intro ho
      have ho' : ¬ 0 ≤ d.orientation := not_le.mpr ho
      refine ⟨?_, ?_, ?_⟩
      · simp [xattrInt, xattrD, item_attr_orientation, ho', qStringToInt_lit_neg1]
      · simp [xattrInt, xattrD, item_attr_angle, ho', AttrVal.toQString,
          qStringToInt_qStringOfInt]
      · cases hd : d.flipped <;>
          simp [xattrInt, xattrD, item_attr_flip, ho', hd, AttrVal.toQString,
            qStringToInt_qStringOfInt]
    · by_cases hp : d.parentId ≠ ""
      · simp [xattrD, item_attr_parent, hp, AttrVal.toQString]
      · have hp' : d.parentId = "" := by simpa using hp
        simp [xattrD, item_attr_parent, hp, hp']
/-- The hex codec round-trip in `padBits` form (the `raw` property values
come back zero-padded). -/
theorem toQBitArray_toAsciiHex_padBits (v : List Bool) :
    toQBitArray (toAsciiHex v) = padBits v := by
  rw [toAsciiHex, toQBitArray, padBits]
  rw [show (String.mk (bitsToHexChars (hexPad v))).data = bitsToHexChars (hexPad v) from rfl]
  rw [flatMap_bitsToHexChars _ (hexPad_length_mod v), hexPad_eq]

theorem amInsert_amInsert {α : Type} (m : List (String × α)) (k : String) (v w : α) :
    amInsert (amInsert m k v) k w = amInsert m k w := by
  induction m with
  | nil => simp [amInsert]
  | cons kv r ih =>
    obtain ⟨k', v'⟩ := kv
    by_cases h : k' = k <;> simp [amInsert, h, ih]

theorem amUpd_amInsert {α : Type} (m : List (String × α)) (k : String) (v dflt : α)
    (f : α → α) : amUpd (amInsert m k v) k dflt f = amInsert m k (f v) := by
  rw [amUpd, amGet, amLookup_amInsert_self]
  simp only [Option.getD_some]
  exact amInsert_amInsert m k v (f v)

theorem itemChild_data_string (m : List (String × ItemData)) (id key val : String) :
    itemChild m id (XElem.mk "data"
      [("id", AttrVal.str key), ("type", AttrVal.str "string"), ("value", AttrVal.str val)] [])
      = amUpd m id {} (fun d => { d with dataString := amInsert d.dataString key val }) := by
  simp [itemChild, xattrD, xattr?, XElem.tag, XElem.attrs, amLookup, AttrVal.toQString]

theorem itemChild_data_number (m : List (String × ItemData)) (id key s : String) :
    itemChild m id (XElem.mk "data"
      [("id", AttrVal.str key), ("type", AttrVal.str "number"), ("value", AttrVal.str s)] [])
      = amUpd m id {} (fun d =>
          { d with dataNumber := amInsert d.dataNumber key (qStringToDouble s) }) := by
  simp [itemChild, xattrD, xattr?, XElem.tag, XElem.attrs, amLookup, AttrVal.toQString]

theorem itemChild_data_color (m : List (String × ItemData)) (id key cname : String) :
    itemChild m id (XElem.mk "data"
      [("id", AttrVal.str key), ("type", AttrVal.str "color"), ("value", AttrVal.str cname)] [])
      = amUpd m id {} (fun d => { d with dataColor := amInsert d.dataColor key ⟨cname⟩ }) := by
  simp [itemChild, xattrD, xattr?, XElem.tag, XElem.attrs, amLookup, AttrVal.toQString]

theorem itemChild_data_raw (m : List (String × ItemData)) (id key s : String) :
    itemChild m id (XElem.mk "data"
      [("id", AttrVal.str key), ("type", AttrVal.str "raw"), ("value", AttrVal.str s)] [])
      = amUpd m id {} (fun d =>
          { d with dataRaw := amInsert d.dataRaw key (toQBitArray s) }) := by
  simp [itemChild, xattrD, xattr?, XElem.tag, XElem.attrs, amLookup, AttrVal.toQString]

theorem itemChild_data_bool (m : List (String × ItemData)) (id key s : String) :
    itemChild m id (XElem.mk "data"
      [("id", AttrVal.str key), ("type", AttrVal.str "bool"), ("value", AttrVal.str s)] [])
      = amUpd m id {} (fun d =>
          { d with dataBool := amInsert d.dataBool key (qStringToInt s ≠ 0) }) := by
  simp [itemChild, xattrD, xattr?, XElem.tag, XElem.attrs, amLookup, AttrVal.toQString]

theorem itemChild_button (m : List (String × ItemData)) (id key s : String) :
    itemChild m id (XElem.mk "button"
      [("id", AttrVal.str key), ("state", AttrVal.str s)] [])
      = amUpd m id {} (fun d =>
          { d with buttonMap := amInsert d.buttonMap key (qStringToInt s ≠ 0) }) := by
  simp [itemChild, xattrInt, xattrD, xattr?, XElem.tag, XElem.attrs, amLookup,
    AttrVal.toQString]

theorem itemChild_slider (m : List (String × ItemData)) (id key s : String) :
    itemChild m id (XElem.mk "slider"
      [("id", AttrVal.str key), ("value", AttrVal.str s)] [])
      = amUpd m id {} (fun d =>
          { d with sliderMap := amInsert d.sliderMap key (qStringToInt s) }) := by
  simp [itemChild, xattrInt, xattrD, xattr?, XElem.tag, XElem.attrs, amLookup,
    AttrVal.toQString]
/-- A run of same-shape children, each acting on the `id` entry, folds into
one update of that entry. -/
theorem itemChildren_segment {α : Type} (mkChild : String × α → XElem)
    (act : ItemData → String × α → ItemData)
    (hchild : ∀ (m : List (String × ItemData)) (id : String) (kv : String × α),
      itemChild m id (mkChild kv) = amUpd m id {} (fun d => act d kv))
    (m : List (String × ItemData)) (k : String) (v : ItemData)
    (l : List (String × α)) (rest : List XElem) :
    itemChildren (amInsert m k v) k (l.map mkChild ++ rest)
      = itemChildren (amInsert m k (l.foldl act v)) k rest := by
  induction l generalizing v with
  | nil => simp
  | cons kv t ih =>
    simp only [List.map_cons, List.cons_append, List.foldl_cons]
    rw [itemChildren, hchild, amUpd_amInsert]
    exact ih (act v kv)

theorem decide_ite_one_zero (b : Bool) :
    decide ((if b = true then (1 : Int) else 0) ≠ 0) = b := by
  cases b <;> decide

/-- Repeated `QMap` insertion of fresh, pairwise-distinct keys appends the
pairs in order. -/
theorem foldl_amInsert_pairs {α : Type} (l : List (String × α)) :
    ∀ a : List (String × α), (amKeys l).Nodup →
      (∀ x ∈ amKeys l, amLookup a x = none) →
      l.foldl (fun acc kv => amInsert acc kv.1 kv.2) a = a ++ l := by
  induction l with
  | nil => intro a _ _; simp
  | cons kv t ih =>
    intro a hn hd
    obtain ⟨k, v⟩ := kv
    simp only [List.foldl_cons]
    rw [amInsert_absent a k v (hd k (by simp))]
    have hd' : ∀ x ∈ amKeys t, amLookup (a ++ [(k, v)]) x = none := by
      intro x hx
      refine amLookup_append_none _ _ _ (hd x (by simp [hx])) ?_
      have hk : k ∉ amKeys t := by
        have hn' := hn
        simp only [amKeys_cons, List.nodup_cons] at hn'
        exact hn'.1
      have hxk : x ≠ k := by
        intro he
        subst he
        exact hk hx
      simp [amLookup, hxk.symm]
    rw [ih (a ++ [(k, v)]) hn.of_cons hd']
    simp
/-- A run of same-shape children with no following siblings. -/
theorem itemChildren_segment_last {α : Type} (mkChild : String × α → XElem)
    (act : ItemData → String × α → ItemData)
    (hchild : ∀ (m : List (String × ItemData)) (id : String) (kv : String × α),
      itemChild m id (mkChild kv) = amUpd m id {} (fun d => act d kv))
    (m : List (String × ItemData)) (k : String) (v : ItemData)
    (l : List (String × α)) :
    itemChildren (amInsert m k v) k (l.map mkChild)
      = amInsert m k (l.foldl act v) := by
  have h := itemChildren_segment mkChild act hchild m k v l []
  rw [List.append_nil] at h
  rw [h, itemChildren]

theorem parseItemAttrs_dataString (e : XElem) : (parseItemAttrs e).dataString = [] := by
  unfold parseItemAttrs
  split <;> rfl

theorem parseItemAttrs_dataNumber (e : XElem) : (parseItemAttrs e).dataNumber = [] := by
  unfold parseItemAttrs
  split <;> rfl

theorem parseItemAttrs_dataColor (e : XElem) : (parseItemAttrs e).dataColor = [] := by
  unfold parseItemAttrs
  split <;> rfl

theorem parseItemAttrs_dataRaw (e : XElem) : (parseItemAttrs e).dataRaw = [] := by
  unfold parseItemAttrs
  split <;> rfl

theorem parseItemAttrs_dataBool (e : XElem) : (parseItemAttrs e).dataBool = [] := by
  unfold parseItemAttrs
  split <;> rfl

theorem parseItemAttrs_buttonMap (e : XElem) : (parseItemAttrs e).buttonMap = [] := by
  unfold parseItemAttrs
  split <;> rfl

theorem parseItemAttrs_sliderMap (e : XElem) : (parseItemAttrs e).sliderMap = [] := by
  unfold parseItemAttrs
  split <;> rfl

theorem foldl_field_dataString (l : List (String × String)) :
    ∀ v : ItemData,
      l.foldl (fun d kv => { d with dataString := amInsert d.dataString kv.1 kv.2 }) v
      = { v with dataString := l.foldl (fun a kv => amInsert a kv.1 kv.2) v.dataString } := by
  induction l with
  | nil => intro v; rfl
  | cons kv t ih =>
    intro v
    simp only [List.foldl_cons]
    exact ih _

theorem foldl_field_dataNumber (l : List (String × Int)) :
    ∀ v : ItemData,
      l.foldl (fun d kv => { d with dataNumber := amInsert d.dataNumber kv.1 kv.2 }) v
      = { v with dataNumber := l.foldl (fun a kv => amInsert a kv.1 kv.2) v.dataNumber } := by
  induction l with
  | nil => intro v; rfl
  | cons kv t ih =>
    intro v
    simp only [List.foldl_cons]
    exact ih _

theorem foldl_field_dataColor (l : List (String × QColorM)) :
    ∀ v : ItemData,
      l.foldl (fun d kv => { d with dataColor := amInsert d.dataColor kv.1 kv.2 }) v
      = { v with dataColor := l.foldl (fun a kv => amInsert a kv.1 kv.2) v.dataColor } := by
  induction l with
  | nil => intro v; rfl
  | cons kv t ih =>
    intro v
    simp only [List.foldl_cons]
    exact ih _

theorem foldl_field_dataRaw (l : List (String × List Bool)) :
    ∀ v : ItemData,
      l.foldl (fun d kv => { d with dataRaw := amInsert d.dataRaw kv.1 (padBits kv.2) }) v
      = { v with dataRaw := ((l.map (fun kv => (kv.1, padBits kv.2))).foldl
            (fun a kv => amInsert a kv.1 kv.2) v.dataRaw) } := by
  induction l with
  | nil => intro v; rfl
  | cons kv t ih =>
    intro v
    simp only [List.foldl_cons, List.map_cons]
    exact ih _

theorem foldl_field_dataBool (l : List (String × Bool)) :
    ∀ v : ItemData,
      l.foldl (fun d kv => { d with dataBool := amInsert d.dataBool kv.1 kv.2 }) v
      = { v with dataBool := l.foldl (fun a kv => amInsert a kv.1 kv.2) v.dataBool } := by
  induction l with
  | nil => intro v; rfl
  | cons kv t ih =>
    intro v
    simp only [List.foldl_cons]
    exact ih _

theorem foldl_field_buttonMap (l : List (String × Bool)) :
    ∀ v : ItemData,
      l.foldl (fun d kv => { d with buttonMap := amInsert d.buttonMap kv.1 kv.2 }) v
      = { v with buttonMap := l.foldl (fun a kv => amInsert a kv.1 kv.2) v.buttonMap } := by
  induction l with
  | nil => intro v; rfl
  | cons kv t ih =>
    intro v
    simp only [List.foldl_cons]
    exact ih _

theorem foldl_field_sliderMap (l : List (String × Int)) :
    ∀ v : ItemData,
      l.foldl (fun d kv => { d with sliderMap := amInsert d.sliderMap kv.1 kv.2 }) v
      = { v with sliderMap := l.foldl (fun a kv => amInsert a kv.1 kv.2) v.sliderMap } := by
  induction l with
  | nil => intro v; rfl
  | cons kv t ih =>
    intro v
    simp only [List.foldl_cons]
    exact ih _
theorem amKeys_map_val {α β : Type} (m : List (String × α)) (f : α → β) :
    amKeys (m.map (fun kv => (kv.1, f kv.2))) = amKeys m := by
  induction m with
  | nil => rfl
  | cons kv r ih =>
    obtain ⟨a, b⟩ := kv
    simp only [List.map_cons, amKeys_cons, ih]

/-- The record `elementToItemData` reconstructs from a serialized item:
scalar attributes as `parseItemAttrs` reads them back, the property maps as
serialized (with `raw` bit-vectors zero-padded by the hex codec). -/
def parsedItem (d : ItemData) (k : String) : ItemData :=
  { parseItemAttrs (appendIdAttr (itemDataToElement d) k) with
    dataString := d.dataString
    dataNumber := d.dataNumber
    dataColor := d.dataColor
    dataRaw := d.dataRaw.map (fun kv => (kv.1, padBits kv.2))
    dataBool := d.dataBool
    buttonMap := d.buttonMap
    sliderMap := d.sliderMap }

/-- Parsing a serialized item element stores `parsedItem` under the item's
key (for any ambient map). -/
theorem elementToItemData_roundtrip (m : List (String × ItemData)) (k : String)
    (d : ItemData) (hwf : itemWF d) :
    elementToItemData m (appendIdAttr (itemDataToElement d) k)
      = amInsert m k (parsedItem d k) := by
  obtain ⟨hn1, hn2, hn3, hn4, hn5, hn6, hn7⟩ := hwf
  have hchildN : ∀ (m' : List (String × ItemData)) (id : String) (kv : String × Int),
      itemChild m' id (XElem.mk "data"
        [("id", AttrVal.str kv.1), ("type", AttrVal.str "number"),
         ("value", AttrVal.str (qStringOfInt kv.2))] [])
      = amUpd m' id {} (fun d' =>
          { d' with dataNumber := amInsert d'.dataNumber kv.1 kv.2 }) := by
    intro m' id kv
    rw [itemChild_data_number]
    simp only [qStringToDouble, qStringToInt_qStringOfInt]
  have hchildC : ∀ (m' : List (String × ItemData)) (id : String) (kv : String × QColorM),
      itemChild m' id (XElem.mk "data"
        [("id", AttrVal.str kv.1), ("type", AttrVal.str "color"),
         ("value", AttrVal.str kv.2.name)] [])
      = amUpd m' id {} (fun d' =>
          { d' with dataColor := amInsert d'.dataColor kv.1 kv.2 }) := by
    intro m' id kv
    rw [itemChild_data_color]
  have hchildR : ∀ (m' : List (String × ItemData)) (id : String) (kv : String × List Bool),
      itemChild m' id (XElem.mk "data"
        [("id", AttrVal.str kv.1), ("type", AttrVal.str "raw"),
         ("value", AttrVal.str (toAsciiHex kv.2))] [])
      = amUpd m' id {} (fun d' =>
          { d' with dataRaw := amInsert d'.dataRaw kv.1 (padBits kv.2) }) := by
    intro m' id kv
    rw [itemChild_data_raw]
    simp only [toQBitArray_toAsciiHex_padBits]
  have hchildB : ∀ (m' : List (String × ItemData)) (id : String) (kv : String × Bool),
      itemChild m' id (XElem.mk "data"
        [("id", AttrVal.str kv.1), ("type", AttrVal.str "bool"),
         ("value", AttrVal.str (qStringOfInt (if kv.2 then 1 else 0)))] [])
      = amUpd m' id {} (fun d' =>
          { d' with dataBool := amInsert d'.dataBool kv.1 kv.2 }) := by
    intro m' id kv
    rw [itemChild_data_bool]
    simp only [qStringToInt_qStringOfInt, decide_ite_one_zero]
  have hchildBtn : ∀ (m' : List (String × ItemData)) (id : String) (kv : String × Bool),
      itemChild m' id (XElem.mk "button"
        [("id", AttrVal.str kv.1),
         ("state", AttrVal.str (qStringOfInt (if kv.2 then 1 else 0)))] [])
      = amUpd m' id {} (fun d' =>
          { d' with buttonMap := amInsert d'.buttonMap kv.1 kv.2 }) := by
    intro m' id kv
    rw [itemChild_button]
    simp only [qStringToInt_qStringOfInt, decide_ite_one_zero]
  have hchildSl : ∀ (m' : List (String × ItemData)) (id : String) (kv : String × Int),
      itemChild m' id (XElem.mk "slider"
        [("id", AttrVal.str kv.1), ("value", AttrVal.str (qStringOfInt kv.2))] [])
      = amUpd m' id {} (fun d' =>
          { d' with sliderMap := amInsert d'.sliderMap kv.1 kv.2 }) := by
    intro m' id kv
    rw [itemChild_slider]
    simp only [qStringToInt_qStringOfInt]
  rw [show appendIdAttr (itemDataToElement d) k
      = XElem.mk "item" (amInsert (itemDataToElement d).attrs "id" (AttrVal.str k))
          (itemDataToElement d).children from rfl]
  rw [elementToItemData, amLookup_amInsert_self]
  rw [show (itemDataToElement d).children
      = d.dataString.map (fun kv => XElem.mk "data"
          [("id", AttrVal.str kv.1), ("type", AttrVal.str "string"),
           ("value", AttrVal.str kv.2)] [])
        ++ d.dataNumber.map (fun kv => XElem.mk "data"
          [("id", AttrVal.str kv.1), ("type", AttrVal.str "number"),
           ("value", AttrVal.str (qStringOfInt kv.2))] [])
        ++ d.dataColor.map (fun kv => XElem.mk "data"
          [("id", AttrVal.str kv.1), ("type", AttrVal.str "color"),
           ("value", AttrVal.str kv.2.name)] [])
        ++ d.dataRaw.map (fun kv => XElem.mk "data"
          [("id", AttrVal.str kv.1), ("type", AttrVal.str "raw"),
           ("value", AttrVal.str (toAsciiHex kv.2))] [])
        ++ d.dataBool.map (fun kv => XElem.mk "data"
          [("id", AttrVal.str kv.1), ("type", AttrVal.str "bool"),
           ("value", AttrVal.str (qStringOfInt (if kv.2 then 1 else 0)))] [])
        ++ d.buttonMap.map (fun kv => XElem.mk "button"
          [("id", AttrVal.str kv.1),
           ("state", AttrVal.str (qStringOfInt (if kv.2 then 1 else 0)))] [])
        ++ d.sliderMap.map (fun kv => XElem.mk "slider"
          [("id", AttrVal.str kv.1), ("value", AttrVal.str (qStringOfInt kv.2))] [])
      from rfl]
  simp only [List.append_assoc]
  rw [itemChildren_segment _ _ (fun m' id kv => itemChild_data_string m' id kv.1 kv.2),
      itemChildren_segment _ _ hchildN,
      itemChildren_segment _ _ hchildC,
      itemChildren_segment _ _ hchildR,
      itemChildren_segment _ _ hchildB,
      itemChildren_segment _ _ hchildBtn,
      itemChildren_segment_last _ _ hchildSl]
  congr 1
  rw [foldl_field_dataString, foldl_field_dataNumber, foldl_field_dataColor,
      foldl_field_dataRaw, foldl_field_dataBool, foldl_field_buttonMap,
      foldl_field_sliderMap]
  simp only [parseItemAttrs_dataString, parseItemAttrs_dataNumber, parseItemAttrs_dataColor,
    parseItemAttrs_dataRaw, parseItemAttrs_dataBool, parseItemAttrs_buttonMap,
    parseItemAttrs_sliderMap]
  rw [foldl_amInsert_pairs d.dataString [] hn1 (fun _ _ => rfl),
      foldl_amInsert_pairs d.dataNumber [] hn2 (fun _ _ => rfl),
      foldl_amInsert_pairs d.dataColor [] hn3 (fun _ _ => rfl),
      foldl_amInsert_pairs (d.dataRaw.map (fun kv => (kv.1, padBits kv.2))) []
        (by rw [amKeys_map_val]; exact hn4) (fun _ _ => rfl),
      foldl_amInsert_pairs d.dataBool [] hn5 (fun _ _ => rfl),
      foldl_amInsert_pairs d.buttonMap [] hn6 (fun _ _ => rfl),
      foldl_amInsert_pairs d.sliderMap [] hn7 (fun _ _ => rfl)]
  simp only [List.nil_append]
  rfl
/-- The reconstructed item record is observationally equal to the original. -/
theorem parsedItem_obsEq (d : ItemData) (k : String) : itemObsEq d (parsedItem d k) := by
  refine ⟨parseItemAttrs_scalar d k, rfl, rfl, rfl, rfl, rfl, rfl, rfl⟩

/-- Parsing the serialized items in order appends the reconstructed records
to the (key-disjoint) ambient map. -/
theorem fold_items_roundtrip (l : List (String × ItemData)) :
    ∀ m : List (String × ItemData),
      (amKeys l).Nodup → (∀ x ∈ amKeys l, amLookup m x = none) →
      (∀ kv ∈ l, itemWF kv.2) →
      l.foldl (fun acc kv => elementToItemData acc (appendIdAttr (itemDataToElement kv.2) kv.1)) m
        = m ++ l.map (fun kv => (kv.1, parsedItem kv.2 kv.1)) := by
  induction l with
  | nil => intro m _ _ _; simp
  | cons kv t ih =>
    intro m hn hd hwf
    obtain ⟨k, v⟩ := kv
    simp only [List.foldl_cons, List.map_cons]
    rw [elementToItemData_roundtrip m k v (hwf (k, v) (List.mem_cons_self _ _))]
    rw [amInsert_absent m k _ (hd k (by simp))]
    have hd' : ∀ x ∈ amKeys t, amLookup (m ++ [(k, parsedItem v k)]) x = none := by
      intro x hx
      refine amLookup_append_none _ _ _ (hd x (by simp [hx])) ?_
      have hk : k ∉ amKeys t := by
        have hn' := hn
        simp only [amKeys_cons, List.nodup_cons] at hn'
        exact hn'.1
      have hxk : x ≠ k := by
        intro he
        subst he
        exact hk hx
      simp [amLookup, hxk.symm]
    rw [ih (m ++ [(k, parsedItem v k)]) hn.of_cons hd'
      (fun kv hkv => hwf kv (List.mem_cons_of_mem _ hkv))]
    simp

/-- The item phase of the root-children fold touches only the item map. -/
theorem foldl_fromXMLStep_items (l : List (String × ItemData)) :
    ∀ s : ItemDocumentData,
      (l.map (fun kv => appendIdAttr (itemDataToElement kv.2) kv.1)).foldl fromXMLStep s
        = { s with itemDataMap := (l.foldl
              (fun acc kv => elementToItemData acc (appendIdAttr (itemDataToElement kv.2) kv.1))
              s.itemDataMap) } := by
  induction l with
  | nil => intro s; rfl
  | cons kv t ih =>
    intro s
    simp only [List.map_cons, List.foldl_cons]
    rw [show fromXMLStep s (appendIdAttr (itemDataToElement kv.2) kv.1)
        = { s with itemDataMap := (elementToItemData s.itemDataMap
            (appendIdAttr (itemDataToElement kv.2) kv.1)) } by
          rw [fromXMLStep, if_pos (show (appendIdAttr (itemDataToElement kv.2) kv.1).tag = "item"
            from rfl)]]
    exact ih _
/-- Parsing a serialized node element stores the node record unchanged. -/
theorem elementToNodeData_roundtrip (m : List (String × NodeData)) (k : String)
    (nd : NodeData) :
    elementToNodeData m (appendIdAttr (nodeDataToElement nd) k) = amInsert m k nd := by
  have hid : xattr? (appendIdAttr (nodeDataToElement nd) k) "id" = some (AttrVal.str k) := rfl
  rw [elementToNodeData, hid]
  have hx : xattrInt (appendIdAttr (nodeDataToElement nd) k) "x" "120" = nd.x :=
    qStringToInt_qStringOfInt nd.x
  have hy : xattrInt (appendIdAttr (nodeDataToElement nd) k) "y" "120" = nd.y :=
    qStringToInt_qStringOfInt nd.y
  show amInsert m (AttrVal.str k).toQString
      { x := xattrInt (appendIdAttr (nodeDataToElement nd) k) "x" "120"
        y := xattrInt (appendIdAttr (nodeDataToElement nd) k) "y" "120" } = amInsert m k nd
  rw [hx, hy]
  rfl

/-- Parsing the serialized nodes in order appends the node records to the
(key-disjoint) ambient map. -/
theorem fold_nodes_roundtrip (l : List (String × NodeData)) :
    ∀ m : List (String × NodeData),
      (amKeys l).Nodup → (∀ x ∈ amKeys l, amLookup m x = none) →
      l.foldl (fun acc kv => elementToNodeData acc (appendIdAttr (nodeDataToElement kv.2) kv.1)) m
        = m ++ l := by
  induction l with
  | nil => intro m _ _; simp
  | cons kv t ih =>
    intro m hn hd
    obtain ⟨k, v⟩ := kv
    simp only [List.foldl_cons]
    rw [elementToNodeData_roundtrip m k v]
    rw [amInsert_absent m k _ (hd k (by simp))]
    have hd' : ∀ x ∈ amKeys t, amLookup (m ++ [(k, v)]) x = none := by
      intro x hx
      refine amLookup_append_none _ _ _ (hd x (by simp [hx])) ?_
      have hk : k ∉ amKeys t := by
        have hn' := hn
        simp only [amKeys_cons, List.nodup_cons] at hn'
        exact hn'.1
      have hxk : x ≠ k := by
        intro he
        subst he
        exact hk hx
      simp [amLookup, hxk.symm]
    rw [ih (m ++ [(k, v)]) hn.of_cons hd']
    simp

/-- The node phase of the root-children fold touches only the node map. -/
theorem foldl_fromXMLStep_nodes (l : List (String × NodeData)) :
    ∀ s : ItemDocumentData,
      (l.map (fun kv => appendIdAttr (nodeDataToElement kv.2) kv.1)).foldl fromXMLStep s
        = { s with nodeDataMap := (l.foldl
              (fun acc kv => elementToNodeData acc (appendIdAttr (nodeDataToElement kv.2) kv.1))
              s.nodeDataMap) } := by
  induction l with
  | nil => intro s; rfl
  | cons kv t ih =>
    intro s
    simp only [List.map_cons, List.foldl_cons]
    rw [show fromXMLStep s (appendIdAttr (nodeDataToElement kv.2) kv.1)
        = { s with nodeDataMap := (elementToNodeData s.nodeDataMap
            (appendIdAttr (nodeDataToElement kv.2) kv.1)) } by
          rw [fromXMLStep,
            if_neg (by
              rw [show (appendIdAttr (nodeDataToElement kv.2) kv.1).tag = "node" from rfl]
              decide),
            if_pos (show (appendIdAttr (nodeDataToElement kv.2) kv.1).tag = "node" from rfl)]]
    exact ih _
theorem conn_attr_id_absent (c : ConnectorData) :
    amLookup (connectorDataToElement c).attrs "id" = none := by
  show amLookup
    ([("manual-route", AttrVal.int (if c.manualRoute then 1 else 0)),
      ("route", AttrVal.toks ','
        (c.route.flatMap (fun p => [qStringOfInt p.1, qStringOfInt p.2])))]
      ++ (if c.startNodeIsChild then
            [("start-node-is-child", AttrVal.int 1),
             ("start-node-cid", AttrVal.str c.startNodeCId),
             ("start-node-parent", AttrVal.str c.startNodeParent)]
          else
            [("start-node-is-child", AttrVal.int 0),
             ("start-node-id", AttrVal.str c.startNodeId)])
      ++ (if c.endNodeIsChild then
            [("end-node-is-child", AttrVal.int 1),
             ("end-node-cid", AttrVal.str c.endNodeCId),
             ("end-node-parent", AttrVal.str c.endNodeParent)]
          else
            [("end-node-is-child", AttrVal.int 0),
             ("end-node-id", AttrVal.str c.endNodeId)])) "id" = none
  refine amLookup_append_none _ _ _ (amLookup_append_none _ _ _ (by simp [amLookup]) ?_) ?_
  · by_cases h : c.startNodeIsChild = true <;> simp [h, amLookup]
  · by_cases h : c.endNodeIsChild = true <;> simp [h, amLookup]

theorem conn_el_attrs (c : ConnectorData) (k : String) :
    (appendIdAttr (connectorDataToElement c) k).attrs =
      (connectorDataToElement c).attrs ++ [("id", AttrVal.str k)] :=
  amInsert_absent _ _ _ (conn_attr_id_absent c)

theorem conn_attr_manual (c : ConnectorData) (k : String) :
    xattr? (appendIdAttr (connectorDataToElement c) k) "manual-route"
      = some (AttrVal.int (if c.manualRoute then 1 else 0)) := by
  rw [xattr?, conn_el_attrs]
  rfl

theorem conn_attr_route (c : ConnectorData) (k : String) :
    xattr? (appendIdAttr (connectorDataToElement c) k) "route"
      = some (AttrVal.toks ','
          (c.route.flatMap (fun p => [qStringOfInt p.1, qStringOfInt p.2]))) := by
  rw [xattr?, conn_el_attrs]
  rfl

theorem conn_attr_startChild (c : ConnectorData) (k : String) :
    xattr? (appendIdAttr (connectorDataToElement c) k) "start-node-is-child"
      = some (AttrVal.int (if c.startNodeIsChild then 1 else 0)) := by
  rw [xattr?, conn_el_attrs]
  by_cases hs : c.startNodeIsChild = true <;> by_cases he : c.endNodeIsChild = true <;>
    simp [connectorDataToElement, XElem.attrs, hs, he, amLookup_append, amLookup]

theorem conn_attr_startCId (c : ConnectorData) (k : String) :
    xattr? (appendIdAttr (connectorDataToElement c) k) "start-node-cid"
      = if c.startNodeIsChild then some (AttrVal.str c.startNodeCId) else none := by
  rw [xattr?, conn_el_attrs]
  by_cases hs : c.startNodeIsChild = true <;> by_cases he : c.endNodeIsChild = true <;>
    simp [connectorDataToElement, XElem.attrs, hs, he, amLookup_append, amLookup]

theorem conn_attr_startParent (c : ConnectorData) (k : String) :
    xattr? (appendIdAttr (connectorDataToElement c) k) "start-node-parent"
      = if c.startNodeIsChild then some (AttrVal.str c.startNodeParent) else none := by
  rw [xattr?, conn_el_attrs]
  by_cases hs : c.startNodeIsChild = true <;> by_cases he : c.endNodeIsChild = true <;>
    simp [connectorDataToElement, XElem.attrs, hs, he, amLookup_append, amLookup]

theorem conn_attr_startId (c : ConnectorData) (k : String) :
    xattr? (appendIdAttr (connectorDataToElement c) k) "start-node-id"
      = if c.startNodeIsChild then none else some (AttrVal.str c.startNodeId) := by
  rw [xattr?, conn_el_attrs]
  by_cases hs : c.startNodeIsChild = true <;> by_cases he : c.endNodeIsChild = true <;>
    simp [connectorDataToElement, XElem.attrs, hs, he, amLookup_append, amLookup]

theorem conn_attr_endChild (c : ConnectorData) (k : String) :
    xattr? (appendIdAttr (connectorDataToElement c) k) "end-node-is-child"
      = some (AttrVal.int (if c.endNodeIsChild then 1 else 0)) := by
  rw [xattr?, conn_el_attrs]
  by_cases hs : c.startNodeIsChild = true <;> by_cases he : c.endNodeIsChild = true <;>
    simp [connectorDataToElement, XElem.attrs, hs, he, amLookup_append, amLookup]

theorem conn_attr_endCId (c : ConnectorData) (k : String) :
    xattr? (appendIdAttr (connectorDataToElement c) k) "end-node-cid"
      = if c.endNodeIsChild then some (AttrVal.str c.endNodeCId) else none := by
  rw [xattr?, conn_el_attrs]
  by_cases hs : c.startNodeIsChild = true <;> by_cases he : c.endNodeIsChild = true <;>
    simp [connectorDataToElement, XElem.attrs, hs, he, amLookup_append, amLookup]

theorem conn_attr_endParent (c : ConnectorData) (k : String) :
    xattr? (appendIdAttr (connectorDataToElement c) k) "end-node-parent"
      = if c.endNodeIsChild then some (AttrVal.str c.endNodeParent) else none := by
  rw [xattr?, conn_el_attrs]
  by_cases hs : c.startNodeIsChild = true <;> by_cases he : c.endNodeIsChild = true <;>
    simp [connectorDataToElement, XElem.attrs, hs, he, amLookup_append, amLookup]

theorem conn_attr_endId (c : ConnectorData) (k : String) :
    xattr? (appendIdAttr (connectorDataToElement c) k) "end-node-id"
      = if c.endNodeIsChild then none else some (AttrVal.str c.endNodeId) := by
  rw [xattr?, conn_el_attrs]
  by_cases hs : c.startNodeIsChild = true <;> by_cases he : c.endNodeIsChild = true <;>
    simp [connectorDataToElement, XElem.attrs, hs, he, amLookup_append, amLookup]

theorem conn_attr_id (c : ConnectorData) (k : String) :
    xattr? (appendIdAttr (connectorDataToElement c) k) "id" = some (AttrVal.str k) := by
  rw [xattr?, conn_el_attrs, amLookup_append, conn_attr_id_absent c]
  simp [amLookup]
theorem natDigits_lt (n : Nat) (h : n < 10) : natDigits n = [Nat.digitChar n] := by
  rw [natDigits]
  simp [h]

theorem qStringOfInt_one : qStringOfInt 1 = "1" := by
  show String.mk (natDigits 1) = "1"
  rw [natDigits_lt 1 (by omega)]
  rfl

theorem qStringOfInt_zero : qStringOfInt 0 = "0" := by
  show String.mk (natDigits 0) = "0"
  rw [natDigits_lt 0 (by omega)]
  rfl

/-- The route tokens a connector serializes: nonempty and comma-free. -/
theorem route_toks_wf (l : List (Int × Int)) :
    ∀ t ∈ l.flatMap (fun p => [qStringOfInt p.1, qStringOfInt p.2]), t ≠ "" ∧ ',' ∉ t.data := by
  intro t ht
  rw [List.mem_flatMap] at ht
  obtain ⟨p, _, hp⟩ := ht
  have hq : ∀ n : Int, qStringOfInt n ≠ "" ∧ ',' ∉ (qStringOfInt n).data := by
    intro n
    refine ⟨qStringOfInt_ne_empty n, ?_⟩
    intro hc
    rcases mem_qStringOfInt_digit_or_minus n ',' hc with hd | hd
    · exact absurd hd (by decide)
    · exact absurd hd (by decide)
  simp only [List.mem_cons, List.mem_singleton, List.not_mem_nil, or_false] at hp
  rcases hp with hp | hp
  · exact hp ▸ hq p.1
  · exact hp ▸ hq p.2
  
theorem parseRoutePoints_flatMap (l : List (Int × Int)) :
    parseRoutePoints (l.flatMap (fun p => [qStringOfInt p.1, qStringOfInt p.2])) = l := by
  induction l with
  | nil => rfl
  | cons p t ih =>
    simp only [List.flatMap_cons, List.cons_append, List.nil_append]
    rw [parseRoutePoints, ih, qStringToInt_qStringOfInt, qStringToInt_qStringOfInt]
/-- The record the parser reconstructs from a serialized connector: the
active endpoint variant's fields come back, the inactive variant's slots
hold the parser's defaults. -/
def parsedConn (c : ConnectorData) : ConnectorData :=
  let c0 : ConnectorData := { manualRoute := c.manualRoute, route := c.route }
  let c1 := if c.startNodeIsChild then
      ({ c0 with
          startNodeIsChild := true
          startNodeCId := c.startNodeCId
          startNodeParent := c.startNodeParent })
    else { c0 with startNodeIsChild := false, startNodeId := c.startNodeId }
  if c.endNodeIsChild then
    ({ c1 with
        endNodeIsChild := true
        endNodeCId := c.endNodeCId
        endNodeParent := c.endNodeParent })
  else { c1 with endNodeIsChild := false, endNodeId := c.endNodeId }

/-- The reconstructed connector record is observationally equal to the
original. -/
theorem parsedConn_obsEq (c : ConnectorData) : connObsEq c (parsedConn c) := by
  by_cases hs : c.startNodeIsChild = true <;> by_cases he : c.endNodeIsChild = true <;>
    simp [connObsEq, parsedConn, hs, he]

/-- Parsing a serialized connector element stores `parsedConn` under the
connector's key. -/
theorem elementToConnectorData_roundtrip (m : List (String × ConnectorData)) (k : String)
    (c : ConnectorData) :
    elementToConnectorData m (appendIdAttr (connectorDataToElement c) k)
      = amInsert m k (parsedConn c) := by
  have hm : decide (xattrD (appendIdAttr (connectorDataToElement c) k) "manual-route" "0" = "1")
      = c.manualRoute := by
    rw [xattrD, conn_attr_manual]
    cases hmr : c.manualRoute <;>
      simp [hmr, AttrVal.toQString, qStringOfInt_one, qStringOfInt_zero]
  have hroute : parseRoutePoints (xattrToks (appendIdAttr (connectorDataToElement c) k)
      "route" ',') = c.route := by
    rw [xattrToks, xattrD, conn_attr_route]
    show parseRoutePoints (qSplitSkipEmpty ','
      (joinTrail ',' (c.route.flatMap (fun p => [qStringOfInt p.1, qStringOfInt p.2])))) = c.route
    rw [qSplitSkipEmpty_joinTrail ',' _ (route_toks_wf c.route)]
    exact parseRoutePoints_flatMap c.route
  have hsc : xattrInt (appendIdAttr (connectorDataToElement c) k) "start-node-is-child" "0"
      = (if c.startNodeIsChild then 1 else 0) := by
    rw [xattrInt, xattrD, conn_attr_startChild]
    exact qStringToInt_qStringOfInt _
  have hec : xattrInt (appendIdAttr (connectorDataToElement c) k) "end-node-is-child" "0"
      = (if c.endNodeIsChild then 1 else 0) := by
    rw [xattrInt, xattrD, conn_attr_endChild]
    exact qStringToInt_qStringOfInt _
  rw [elementToConnectorData, conn_attr_id]
  by_cases hs : c.startNodeIsChild = true <;> by_cases he : c.endNodeIsChild = true
  · have hscid : xattrD (appendIdAttr (connectorDataToElement c) k) "start-node-cid" ""
        = c.startNodeCId := by
      rw [xattrD, conn_attr_startCId]
      simp [hs, AttrVal.toQString]
    have hspar : xattrD (appendIdAttr (connectorDataToElement c) k) "start-node-parent" ""
        = c.startNodeParent := by
      rw [xattrD, conn_attr_startParent]
      simp [hs, AttrVal.toQString]
    have hecid : xattrD (appendIdAttr (connectorDataToElement c) k) "end-node-cid" ""
        = c.endNodeCId := by
      rw [xattrD, conn_attr_endCId]
      simp [he, AttrVal.toQString]
    have hepar : xattrD (appendIdAttr (connectorDataToElement c) k) "end-node-parent" ""
        = c.endNodeParent := by
      rw [xattrD, conn_attr_endParent]
      simp [he, AttrVal.toQString]
    simp [hm, hroute, hsc, hec, hscid, hspar, hecid, hepar, hs, he, parsedConn,
      AttrVal.toQString]
  · have hscid : xattrD (appendIdAttr (connectorDataToElement c) k) "start-node-cid" ""
        = c.startNodeCId := by
      rw [xattrD, conn_attr_startCId]
      simp [hs, AttrVal.toQString]
    have hspar : xattrD (appendIdAttr (connectorDataToElement c) k) "start-node-parent" ""
        = c.startNodeParent := by
      rw [xattrD, conn_attr_startParent]
      simp [hs, AttrVal.toQString]
    have heid : xattrD (appendIdAttr (connectorDataToElement c) k) "end-node-id" ""
        = c.endNodeId := by
      rw [xattrD, conn_attr_endId]
      simp [he, AttrVal.toQString]
    simp [hm, hroute, hsc, hec, hscid, hspar, heid, hs, he, parsedConn, AttrVal.toQString]
  · have hsid : xattrD (appendIdAttr (connectorDataToElement c) k) "start-node-id" ""
        = c.startNodeId := by
      rw [xattrD, conn_attr_startId]
      simp [hs, AttrVal.toQString]
    have hecid : xattrD (appendIdAttr (connectorDataToElement c) k) "end-node-cid" ""
        = c.endNodeCId := by
      rw [xattrD, conn_attr_endCId]
      simp [he, AttrVal.toQString]
    have hepar : xattrD (appendIdAttr (connectorDataToElement c) k) "end-node-parent" ""
        = c.endNodeParent := by
      rw [xattrD, conn_attr_endParent]
      simp [he, AttrVal.toQString]
    simp [hm, hroute, hsc, hec, hsid, hecid, hepar, hs, he, parsedConn, AttrVal.toQString]
  · have hsid : xattrD (appendIdAttr (connectorDataToElement c) k) "start-node-id" ""
        = c.startNodeId := by
      rw [xattrD, conn_attr_startId]
      simp [hs, AttrVal.toQString]
    have heid : xattrD (appendIdAttr (connectorDataToElement c) k) "end-node-id" ""
        = c.endNodeId := by
      rw [xattrD, conn_attr_endId]
      simp [he, AttrVal.toQString]
    simp [hm, hroute, hsc, hec, hsid, heid, hs, he, parsedConn, AttrVal.toQString]
/-- Parsing the serialized connectors in order appends the reconstructed
records to the (key-disjoint) ambient map. -/
theorem fold_conns_roundtrip (l : List (String × ConnectorData)) :
    ∀ m : List (String × ConnectorData),
      (amKeys l).Nodup → (∀ x ∈ amKeys l, amLookup m x = none) →
      l.foldl (fun acc kv =>
          elementToConnectorData acc (appendIdAttr (connectorDataToElement kv.2) kv.1)) m
        = m ++ l.map (fun kv => (kv.1, parsedConn kv.2)) := by
  induction l with
  | nil => intro m _ _; simp
  | cons kv t ih =>
    intro m hn hd
    obtain ⟨k, v⟩ := kv
    simp only [List.foldl_cons, List.map_cons]
    rw [elementToConnectorData_roundtrip m k v]
    rw [amInsert_absent m k _ (hd k (by simp))]
    have hd' : ∀ x ∈ amKeys t, amLookup (m ++ [(k, parsedConn v)]) x = none := by
      intro x hx
      refine amLookup_append_none _ _ _ (hd x (by simp [hx])) ?_
      have hk : k ∉ amKeys t := by
        have hn' := hn
        simp only [amKeys_cons, List.nodup_cons] at hn'
        exact hn'.1
      have hxk : x ≠ k := by
        intro he
        subst he
        exact hk hx
      simp [amLookup, hxk.symm]
    rw [ih (m ++ [(k, parsedConn v)]) hn.of_cons hd']
    simp

/-- The connector phase of the root-children fold touches only the
connector map. -/
theorem foldl_fromXMLStep_conns (l : List (String × ConnectorData)) :
    ∀ s : ItemDocumentData,
      (l.map (fun kv => appendIdAttr (connectorDataToElement kv.2) kv.1)).foldl fromXMLStep s
        = { s with connectorDataMap := (l.foldl
              (fun acc kv =>
                elementToConnectorData acc (appendIdAttr (connectorDataToElement kv.2) kv.1))
              s.connectorDataMap) } := by
  induction l with
  | nil => intro s; rfl
  | cons kv t ih =>
    intro s
    simp only [List.map_cons, List.foldl_cons]
    rw [show fromXMLStep s (appendIdAttr (connectorDataToElement kv.2) kv.1)
        = { s with connectorDataMap := (elementToConnectorData s.connectorDataMap
            (appendIdAttr (connectorDataToElement kv.2) kv.1)) } by
          rw [fromXMLStep,
            if_neg (by
              rw [show (appendIdAttr (connectorDataToElement kv.2) kv.1).tag = "connector"
                from rfl]
              decide),
            if_neg (by
              rw [show (appendIdAttr (connectorDataToElement kv.2) kv.1).tag = "connector"
                from rfl]
              decide),
            if_pos (show (appendIdAttr (connectorDataToElement kv.2) kv.1).tag = "connector"
              from rfl)]]
    exact ih _
theorem microChild_pinmap (micro : MicroData) (kv : String × PinMapping)
    (hk : kv.1 ≠ "") (ht : kv.2.type ≠ PinMappingType.Invalid)
    (hp : ∀ p ∈ kv.2.pins, p ≠ "" ∧ ' ' ∉ p.data) :
    microChild micro (XElem.mk "pinmap"
      [("id", AttrVal.str kv.1), ("type", AttrVal.str (pinMappingTypeString kv.2.type)),
       ("map", AttrVal.toks ' ' kv.2.pins)] [])
      = { micro with pinMappings := amInsert micro.pinMappings kv.1 kv.2 } := by
  obtain ⟨key, pm⟩ := kv
  obtain ⟨pmt, pins⟩ := pm
  simp only at hk ht hp
  have hq : qSplitSkipEmpty ' ' (joinTrail ' ' pins) = pins :=
    qSplitSkipEmpty_joinTrail ' ' pins hp
  cases pmt
  case Invalid => exact absurd rfl ht
  all_goals
    simp [microChild, pinMappingTypeString, xattrD, xattr?, xattrToks, XElem.tag,
      XElem.attrs, amLookup, AttrVal.toQString, hk, hq]

theorem microChild_pin (micro : MicroData) (kv : String × PinData) (hk : kv.1 ≠ "") :
    microChild micro (XElem.mk "pin"
      [("id", AttrVal.str kv.1),
       ("type", AttrVal.str (if kv.2.type = PinType.pt_input then "input" else "output")),
       ("state", AttrVal.str (if kv.2.state = PinState.ps_off then "off" else "on"))] [])
      = { micro with pinMap := amInsert micro.pinMap kv.1 kv.2 } := by
  obtain ⟨key, pd⟩ := kv
  obtain ⟨pt, ps⟩ := pd
  simp only at hk
  cases pt <;> cases ps <;>
    simp [microChild, xattrD, xattr?, XElem.tag, XElem.attrs, amLookup,
      AttrVal.toQString, hk]

theorem microChild_variable (micro : MicroData) (kv : String × String) :
    microChild micro (XElem.mk "variable"
      [("name", AttrVal.str kv.1), ("value", AttrVal.str kv.2)] [])
      = { micro with variableMap := amInsert micro.variableMap kv.1 kv.2 } := by
  simp [microChild, xattrD, xattr?, XElem.tag, XElem.attrs, amLookup, AttrVal.toQString]

/-- A run of same-shape `micro` children folds into one accumulated action,
provided each child satisfies its side condition. -/
theorem foldl_microChild_segment {α : Type} (mkChild : String × α → XElem)
    (act : MicroData → String × α → MicroData) (P : String × α → Prop)
    (hchild : ∀ (micro : MicroData) (kv : String × α),
      P kv → microChild micro (mkChild kv) = act micro kv)
    (l : List (String × α)) :
    ∀ micro : MicroData, (∀ kv ∈ l, P kv) → ∀ rest : List XElem,
      (l.map mkChild ++ rest).foldl microChild micro
        = rest.foldl microChild (l.foldl act micro) := by
  induction l with
  | nil => intro micro _ rest; simp
  | cons kv t ih =>
    intro micro hP rest
    simp only [List.map_cons, List.cons_append, List.foldl_cons]
    rw [hchild micro kv (hP kv (List.mem_cons_self _ _))]
    exact ih (act micro kv) (fun kv' h => hP kv' (List.mem_cons_of_mem _ h)) rest

theorem foldl_field_pinMappings (l : List (String × PinMapping)) :
    ∀ v : MicroData,
      l.foldl (fun micro kv => { micro with pinMappings := amInsert micro.pinMappings kv.1 kv.2 }) v
      = { v with pinMappings := l.foldl (fun a kv => amInsert a kv.1 kv.2) v.pinMappings } := by
  induction l with
  | nil => intro v; rfl
  | cons kv t ih =>
    intro v
    simp only [List.foldl_cons]
    exact ih _

theorem foldl_field_pinMap (l : List (String × PinData)) :
    ∀ v : MicroData,
      l.foldl (fun micro kv => { micro with pinMap := amInsert micro.pinMap kv.1 kv.2 }) v
      = { v with pinMap := l.foldl (fun a kv => amInsert a kv.1 kv.2) v.pinMap } := by
  induction l with
  | nil => intro v; rfl
  | cons kv t ih =>
    intro v
    simp only [List.foldl_cons]
    exact ih _

theorem foldl_field_variableMap (l : List (String × String)) :
    ∀ v : MicroData,
      l.foldl (fun micro kv => { micro with variableMap := amInsert micro.variableMap kv.1 kv.2 }) v
      = { v with variableMap := l.foldl (fun a kv => amInsert a kv.1 kv.2) v.variableMap } := by
  induction l with
  | nil => intro v; rfl
  | cons kv t ih =>
    intro v
    simp only [List.foldl_cons]
    exact ih _
/-- Parsing a serialized `micro` element reproduces the micro record
exactly, provided the incoming record's surviving maps (`pinMappings` and
`variableMap`, which `MicroData::reset` keeps) are empty. -/
theorem elementToMicroData_roundtrip (micro : MicroData) (mic : MicroData)
    (hwf : microWF mic) (h1 : micro.pinMappings = []) (h2 : micro.variableMap = []) :
    elementToMicroData micro (microDataToElement mic) = mic := by
  obtain ⟨hn1, hn2, hn3, hpm, hpk⟩ := hwf
  rw [elementToMicroData]
  rw [show (match xattr? (microDataToElement mic) "id" with
      | some v => some v
      | none => xattr? (microDataToElement mic) "pic") = some (AttrVal.str mic.id) from rfl]
  show (microDataToElement mic).children.foldl microChild
      { micro.reset with id := (AttrVal.str mic.id).toQString } = mic
  rw [show (microDataToElement mic).children
      = mic.pinMappings.map (fun kv => XElem.mk "pinmap"
          [("id", AttrVal.str kv.1), ("type", AttrVal.str (pinMappingTypeString kv.2.type)),
           ("map", AttrVal.toks ' ' kv.2.pins)] [])
        ++ mic.pinMap.map (fun kv => XElem.mk "pin"
          [("id", AttrVal.str kv.1),
           ("type", AttrVal.str (if kv.2.type = PinType.pt_input then "input" else "output")),
           ("state", AttrVal.str (if kv.2.state = PinState.ps_off then "off" else "on"))] [])
        ++ mic.variableMap.map (fun kv => XElem.mk "variable"
          [("name", AttrVal.str kv.1), ("value", AttrVal.str kv.2)] []) from rfl]
  simp only [List.append_assoc]
  rw [foldl_microChild_segment _
      (fun micro kv => { micro with pinMappings := amInsert micro.pinMappings kv.1 kv.2 })
      (fun kv => kv.1 ≠ "" ∧ kv.2.type ≠ PinMappingType.Invalid ∧
        ∀ p ∈ kv.2.pins, p ≠ "" ∧ ' ' ∉ p.data)
      (fun micro kv h => microChild_pinmap micro kv h.1 h.2.1 h.2.2)
      mic.pinMappings _ (fun kv hkv => ⟨(hpm kv hkv).1, (hpm kv hkv).2.1, (hpm kv hkv).2.2⟩)]
  rw [foldl_microChild_segment _
      (fun micro kv => { micro with pinMap := amInsert micro.pinMap kv.1 kv.2 })
      (fun kv => kv.1 ≠ "")
      (fun micro kv h => microChild_pin micro kv h)
      mic.pinMap _ (fun kv hkv => hpk kv hkv)]
  have hvar := foldl_microChild_segment
      (fun kv => XElem.mk "variable"
        [("name", AttrVal.str kv.1), ("value", AttrVal.str kv.2)] [])
      (fun micro kv => { micro with variableMap := amInsert micro.variableMap kv.1 kv.2 })
      (fun _ => True)
      (fun micro kv _ => microChild_variable micro kv)
      mic.variableMap
  have hvarlast : ∀ micro0 : MicroData,
      (mic.variableMap.map (fun kv => XElem.mk "variable"
        [("name", AttrVal.str kv.1), ("value", AttrVal.str kv.2)] [])).foldl microChild micro0
      = mic.variableMap.foldl
          (fun micro kv => { micro with variableMap := amInsert micro.variableMap kv.1 kv.2 })
          micro0 := by
    intro micro0
    have h := hvar micro0 (fun _ _ => trivial) []
    rw [List.append_nil] at h
    rw [h]
    rfl
  rw [hvarlast]
  rw [foldl_field_pinMappings, foldl_field_pinMap, foldl_field_variableMap]
  simp only [MicroData.reset, h1, h2]
  rw [foldl_amInsert_pairs mic.pinMappings [] hn1 (fun _ _ => rfl),
      foldl_amInsert_pairs mic.pinMap [] hn2 (fun _ _ => rfl),
      foldl_amInsert_pairs mic.variableMap [] hn3 (fun _ _ => rfl)]
  simp only [List.nil_append]
  rfl

/-- A `micro` root child touches only the micro record. -/
theorem fromXMLStep_micro (s : ItemDocumentData) (mic : MicroData) :
    fromXMLStep s (microDataToElement mic)
      = { s with microData := (elementToMicroData s.microData (microDataToElement mic)) } := by
  rw [fromXMLStep,
    if_neg (by rw [show (microDataToElement mic).tag = "micro" from rfl]; decide),
    if_neg (by rw [show (microDataToElement mic).tag = "micro" from rfl]; decide),
    if_neg (by rw [show (microDataToElement mic).tag = "micro" from rfl]; decide),
    if_pos (Or.inr (show (microDataToElement mic).tag = "micro" from rfl))]
theorem forall₂_map_self {α β : Type} (R : α → β → Prop) (f : α → β) (l : List α)
    (h : ∀ x ∈ l, R x (f x)) : List.Forall₂ R l (l.map f) := by
  induction l with
  | nil => exact List.Forall₂.nil
  | cons x t ih =>
    exact List.Forall₂.cons (h x (List.mem_cons_self _ _))
      (ih (fun y hy => h y (List.mem_cons_of_mem _ hy)))

/-- C1 (amended): for a well-formed snapshot, parsing the serialized form
into a fresh snapshot succeeds and reproduces every record observationally —
each item record's key and fields (`raw` bit-vectors zero-padded), each
connector record's key and active endpoint fields, the node records exactly,
and (for flow-code documents) the micro record exactly — but NOT the
document-type tag: `toXML` writes it, `fromXML` never reads it, so the
parsed snapshot's document type is `dt_none` whatever was serialized. -/
theorem toXML_fromXML_roundtrip (s : ItemDocumentData) (dt : DocumentType)
    (hwf : snapshotWF s) :
    ((ItemDocumentData.mkNew dt).fromXML (some s.toXML)).1 = true ∧
    List.Forall₂ (fun kv kv' => kv'.1 = kv.1 ∧ itemObsEq kv.2 kv'.2)
      s.itemDataMap ((ItemDocumentData.mkNew dt).fromXML (some s.toXML)).2.itemDataMap ∧
    List.Forall₂ (fun kv kv' => kv'.1 = kv.1 ∧ connObsEq kv.2 kv'.2)
      s.connectorDataMap
      ((ItemDocumentData.mkNew dt).fromXML (some s.toXML)).2.connectorDataMap ∧
    ((ItemDocumentData.mkNew dt).fromXML (some s.toXML)).2.nodeDataMap = s.nodeDataMap ∧
    (s.documentType = DocumentType.dt_flowcode →
      ((ItemDocumentData.mkNew dt).fromXML (some s.toXML)).2.microData = s.microData) ∧
    ((ItemDocumentData.mkNew dt).fromXML (some s.toXML)).2.documentType
      = DocumentType.dt_none := by
  obtain ⟨hni, hnc, hnn, hitems, hmicro⟩ := hwf
  have hres2 : ((ItemDocumentData.mkNew dt).fromXML (some s.toXML)).2
      = (s.toXML).children.foldl fromXMLStep (ItemDocumentData.mkNew dt).reset := rfl
  rw [show (ItemDocumentData.mkNew dt).reset
      = ({ itemDataMap := []
           connectorDataMap := []
           nodeDataMap := []
           microData := { id := "", pinMappings := [], pinMap := [], variableMap := [] }
           documentType := DocumentType.dt_none } : ItemDocumentData) from rfl] at hres2
  rw [show (s.toXML).children
      = s.itemDataMap.map (fun kv => appendIdAttr (itemDataToElement kv.2) kv.1)
        ++ s.connectorDataMap.map (fun kv => appendIdAttr (connectorDataToElement kv.2) kv.1)
        ++ s.nodeDataMap.map (fun kv => appendIdAttr (nodeDataToElement kv.2) kv.1)
        ++ (if s.documentType = DocumentType.dt_flowcode then [microDataToElement s.microData]
            else []) from rfl] at hres2
  rw [List.foldl_append, List.foldl_append, List.foldl_append] at hres2
  rw [foldl_fromXMLStep_items] at hres2
  simp only [] at hres2
  rw [fold_items_roundtrip s.itemDataMap [] hni (fun _ _ => rfl) hitems] at hres2
  simp only [List.nil_append] at hres2
  rw [foldl_fromXMLStep_conns] at hres2
  simp only [] at hres2
  rw [fold_conns_roundtrip s.connectorDataMap [] hnc (fun _ _ => rfl)] at hres2
  simp only [List.nil_append] at hres2
  rw [foldl_fromXMLStep_nodes] at hres2
  simp only [] at hres2
  rw [fold_nodes_roundtrip s.nodeDataMap [] hnn (fun _ _ => rfl)] at hres2
  simp only [List.nil_append] at hres2
  by_cases hdt : s.documentType = DocumentType.dt_flowcode
  · rw [if_pos hdt] at hres2
    simp only [List.foldl_cons, List.foldl_nil] at hres2
    rw [fromXMLStep_micro] at hres2
    simp only [] at hres2
    rw [elementToMicroData_roundtrip _ s.microData (hmicro hdt) rfl rfl] at hres2
    refine ⟨rfl, ?_, ?_, ?_, ?_, ?_⟩
    · rw [hres2]
      exact forall₂_map_self _ _ _ (fun kv _ => ⟨rfl, parsedItem_obsEq kv.2 kv.1⟩)
    · rw [hres2]
      exact forall₂_map_self _ _ _ (fun kv _ => ⟨rfl, parsedConn_obsEq kv.2⟩)
    · rw [hres2]
    · intro _
      rw [hres2]
    · rw [hres2]
  · rw [if_neg hdt] at hres2
    simp only [List.foldl_nil] at hres2
    refine ⟨rfl, ?_, ?_, ?_, ?_, ?_⟩
    · rw [hres2]
      exact forall₂_map_self _ _ _ (fun kv _ => ⟨rfl, parsedItem_obsEq kv.2 kv.1⟩)
    · rw [hres2]
      exact forall₂_map_self _ _ _ (fun kv _ => ⟨rfl, parsedConn_obsEq kv.2⟩)
    · rw [hres2]
    · intro hdt'
      exact absurd hdt' hdt
    · rw [hres2]
/-- A concrete well-formed snapshot exercising every record kind. -/
def rtWitnessSnap : ItemDocumentData :=
  { itemDataMap := [("item1",
      { type := "resistor", x := 8, y := 16, z := 2, orientation := -1, angleDegrees := 90,
        flipped := true, parentId := "", dataString := [("p", "v")],
        dataNumber := [("n", 7)], dataRaw := [("r", [true, false, true])],
        dataBool := [("b", true)], buttonMap := [("btn", true)],
        sliderMap := [("sl", 5)] })]
    connectorDataMap := [("conn1",
      { manualRoute := true, route := [(1, 2), (3, 4)], startNodeIsChild := false,
        startNodeId := "n1", endNodeIsChild := true, endNodeCId := "c",
        endNodeParent := "item1" })]
    nodeDataMap := [("n1", { x := 3, y := 4 })]
    microData :=
      { id := "P16F84"
        pinMappings := [("pm", { type := PinMappingType.SevenSegment, pins := ["RA0", "RB1"] })]
        pinMap := [("RA0", { type := PinType.pt_output, state := PinState.ps_on })]
        variableMap := [("v", "1")] }
    documentType := DocumentType.dt_flowcode }

theorem toXML_fromXML_roundtrip_witness :
    snapshotWF rtWitnessSnap ∧
    (((ItemDocumentData.mkNew DocumentType.dt_circuit).fromXML
        (some rtWitnessSnap.toXML)).1 = true ∧
      List.Forall₂ (fun kv kv' => kv'.1 = kv.1 ∧ itemObsEq kv.2 kv'.2)
        rtWitnessSnap.itemDataMap
        ((ItemDocumentData.mkNew DocumentType.dt_circuit).fromXML
          (some rtWitnessSnap.toXML)).2.itemDataMap ∧
      List.Forall₂ (fun kv kv' => kv'.1 = kv.1 ∧ connObsEq kv.2 kv'.2)
        rtWitnessSnap.connectorDataMap
        ((ItemDocumentData.mkNew DocumentType.dt_circuit).fromXML
          (some rtWitnessSnap.toXML)).2.connectorDataMap ∧
      ((ItemDocumentData.mkNew DocumentType.dt_circuit).fromXML
        (some rtWitnessSnap.toXML)).2.nodeDataMap = rtWitnessSnap.nodeDataMap ∧
      (rtWitnessSnap.documentType = DocumentType.dt_flowcode →
        ((ItemDocumentData.mkNew DocumentType.dt_circuit).fromXML
          (some rtWitnessSnap.toXML)).2.microData = rtWitnessSnap.microData) ∧
      ((ItemDocumentData.mkNew DocumentType.dt_circuit).fromXML
        (some rtWitnessSnap.toXML)).2.documentType = DocumentType.dt_none) := by
  have hwf : snapshotWF rtWitnessSnap := by
    unfold snapshotWF itemWF microWF
    decide
  exact ⟨hwf, toXML_fromXML_roundtrip rtWitnessSnap DocumentType.dt_circuit hwf⟩
/-! ## Merge and restore (`mergeWithDocument`, `restoreDocument`; claims C7, C8)

The live-document side (`ItemDocument`, `ICNDocument`, the item library and
the node/connector constructors) is outside this file's code; it is modelled
from the spec (§6): id-keyed lookup of live items, nodes and connectors;
`itemLibrary()->createItem` may fail for an unknown type and
`isValidItem` may reject the created item (modelled by a factory);
`cnItemWithID` finds only CNItems; `childNode` finds a child connection
point by id; the junction-node constructors register a fresh free-standing
node on the canvas; `removeItem` / `removeNode` / `removeConnectorNoArg`
delete.  Logged errors and warnings are counted. -/

/-- The item library / validity check consumed by the item phase
(`itemLibrary()->createItem` and `ItemDocument::isValidItem`). -/
structure ItemFactory where
  create : String → Option LiveItem
  valid : LiveItem → Bool

/-- `icnd->cnItemWithID`. -/
def cnItemWithID (doc : LiveDocument) (k : String) : Option LiveItem :=
  match amLookup doc.items k with
  | some it => if it.isCNItem then some it else none
  | none => none

/-- One step of the node-creation loop: a snapshot node with no live
counterpart becomes a new junction node (circuit and flow-code documents
only). -/
def nodeCreateStep (dt : DocumentType) (d : LiveDocument) (kv : String × NodeData) :
    LiveDocument :=
  if (amLookup d.nodes kv.1).isSome then d
  else if dt = DocumentType.dt_circuit then
    { d with nodes := (amInsert d.nodes kv.1
        { canvas := true, isChildNode := false, x := kv.2.x, y := kv.2.y }) }
  else if dt = DocumentType.dt_flowcode then
    { d with nodes := (amInsert d.nodes kv.1
        { canvas := true, isChildNode := false, x := kv.2.x, y := kv.2.y }) }
  else d

/-- One step of the node-move loop. -/
def nodeMoveStep (d : LiveDocument) (kv : String × NodeData) : LiveDocument :=
  match amLookup d.nodes kv.1 with
  | some n => { d with nodes := amInsert d.nodes kv.1 { n with x := kv.2.x, y := kv.2.y } }
  | none => d

/-- The node phase (ICN documents only). -/
def mergeNodes (s : ItemDocumentData) (doc : LiveDocument) : LiveDocument :=
  if doc.isICN then
    s.nodeDataMap.foldl nodeMoveStep
      (s.nodeDataMap.foldl (nodeCreateStep doc.docType) doc)
  else doc

/-- One step of the item-creation loop: nonempty type, no live counterpart;
the factory may fail, an invalid item is destroyed again (with a warning,
counted), a created item is moved to the record's position. -/
def itemCreateStep (f : ItemFactory) (d : LiveDocument × Nat) (kv : String × ItemData) :
    LiveDocument × Nat :=
  if kv.2.type ≠ "" ∧ amLookup d.1.items kv.1 = none then
    match f.create kv.2.type with
    | none => d
    | some it =>
      if f.valid it then
        ({ d.1 with items := amInsert d.1.items kv.1 { it with x := kv.2.x, y := kv.2.y } },
          d.2)
      else (d.1, d.2 + 1)
  else d

/-- One step of the item-restore loop (`restoreFromItemData`). -/
def itemRestoreStep (d : LiveDocument) (kv : String × ItemData) : LiveDocument :=
  match amLookup d.items kv.1 with
  | some it => { d with items := amInsert d.items kv.1 { it with idata := kv.2 } }
  | none => d

/-- The item phase. -/
def mergeItems (f : ItemFactory) (s : ItemDocumentData) (d : LiveDocument × Nat) :
    LiveDocument × Nat :=
  let d1 := s.itemDataMap.foldl (itemCreateStep f) d
  (s.itemDataMap.foldl itemRestoreStep d1.1, d1.2)

/-- Resolution of one connector endpoint: `(found, logged errors)`.  A child
reference logs when the parent item is not found; a plain node id fails
silently here (the caller logs). -/
def resolveEndpoint (d : LiveDocument) (isChild : Bool) (cid parent plainId : String) :
    Bool × Nat :=
  if isChild then
    match cnItemWithID d parent with
    | none => (false, 1)
    | some it => (decide (cid ∈ it.childCIds), 0)
  else ((amLookup d.nodes plainId).isSome, 0)

/-- One step of the connector-creation loop: an already-present id is
skipped; otherwise both endpoints are resolved (logging per
`resolveEndpoint`), and if either is missing one more error is logged and
no connector is created. -/
def connCreateStep (d : LiveDocument × Nat) (kv : String × ConnectorData) :
    LiveDocument × Nat :=
  if (amLookup d.1.conns kv.1).isSome then d
  else
    let st := resolveEndpoint d.1 kv.2.startNodeIsChild kv.2.startNodeCId
      kv.2.startNodeParent kv.2.startNodeId
    let en := resolveEndpoint d.1 kv.2.endNodeIsChild kv.2.endNodeCId
      kv.2.endNodeParent kv.2.endNodeId
    if ¬ st.1 ∨ ¬ en.1 then (d.1, d.2 + st.2 + en.2 + 1)
    else
      ({ d.1 with conns := (amInsert d.1.conns kv.1
          { canvas := true, hasStartNode := true, hasEndNode := true, cdata := {} }) },
        d.2 + st.2 + en.2)

/-- One step of the connector-restore loop (`restoreFromConnectorData`). -/
def connRestoreStep (d : LiveDocument) (kv : String × ConnectorData) : LiveDocument :=
  match amLookup d.conns kv.1 with
  | some c => { d with conns := amInsert d.conns kv.1 { c with cdata := kv.2 } }
  | none => d

/-- The connector phase (ICN documents only). -/
def mergeConns (s : ItemDocumentData) (d : LiveDocument × Nat) : LiveDocument × Nat :=
  if d.1.isICN then
    let d1 := s.connectorDataMap.foldl connCreateStep d
    (s.connectorDataMap.foldl connRestoreStep d1.1, d1.2)
  else d

/-- `ItemDocumentData::mergeWithDocument` (the live document after the node,
item and connector phases, paired with the number of logged errors and
warnings). -/
def ItemDocumentData.mergeWithDocument (s : ItemDocumentData) (f : ItemFactory)
    (doc : LiveDocument) : LiveDocument × Nat :=
  mergeConns s (mergeItems f s (mergeNodes s doc, 0))

/-- `ItemDocumentData::restoreDocument`: restore the micro settings on
flow-code documents, merge with selection disabled, then prune — delete
every on-canvas live item whose id is not a snapshot key (except
microcontroller placement items), every on-canvas free-standing live node
whose id is not a snapshot key, and every on-canvas live connector whose id
is not a snapshot key (node and connector pruning on ICN documents only). -/
def microRestored (s : ItemDocumentData) (doc : LiveDocument) : LiveDocument :=
  if doc.docType = DocumentType.dt_flowcode ∧ s.microData.id ≠ "" then
    { doc with microSettings := some s.microData }
  else doc

def ItemDocumentData.restoreDocument (s : ItemDocumentData) (f : ItemFactory)
    (doc : LiveDocument) : LiveDocument × Nat :=
  let d0 := microRestored s doc
  let m := s.mergeWithDocument f d0
  let d := m.1
  let items' := d.items.filter (fun kv =>
    amContains s.itemDataMap kv.1 || !kv.2.canvas || decide (kv.2.type = picItemTypeString))
  let nodes' := if d.isICN then
      d.nodes.filter (fun kv =>
        amContains s.nodeDataMap kv.1 || !kv.2.canvas || kv.2.isChildNode)
    else d.nodes
  let conns' := if d.isICN then
      d.conns.filter (fun kv => amContains s.connectorDataMap kv.1 || !kv.2.canvas)
    else d.conns
  ({ d with items := items', nodes := nodes', conns := conns' }, m.2)
/-- A factory that can build every item type (used for concrete runs of the
merge model). -/
def mergeFactoryTrivial : ItemFactory :=
  { create := fun t => some { type := t }, valid := fun _ => true }

/-- Snapshot for C8's counterexample: one connector whose start endpoint is
a child reference with a missing parent, and whose end endpoint resolves. -/
def c8Snapshot : ItemDocumentData :=
  { connectorDataMap := [("c",
      { startNodeIsChild := true, startNodeCId := "cid", startNodeParent := "missing",
        endNodeIsChild := false, endNodeId := "n1" })] }

/-- The live document for C8's counterexample: a circuit with the node the
end endpoint references. -/
def c8Doc : LiveDocument :=
  { docType := DocumentType.dt_circuit, isICN := true, nodes := [("n1", {})] }

/-- C8 (code bug in the claim's count): a connector whose child start
endpoint names a missing parent item is skipped and no connector is
created, but TWO errors are logged (the parent lookup failure and the
"end and start nodes do not both exist" message), not exactly one. -/
theorem mergeWithDocument_two_errors :
    (c8Snapshot.mergeWithDocument mergeFactoryTrivial c8Doc).2 = 2 ∧
    (c8Snapshot.mergeWithDocument mergeFactoryTrivial c8Doc).1.conns = c8Doc.conns ∧
    (c8Snapshot.mergeWithDocument mergeFactoryTrivial c8Doc).1 = c8Doc := by
  decide
/-- C8 (amended): a connector record neither of whose endpoints is already
live and at least one of whose endpoints fails to resolve is skipped — the
live document is unchanged and no connector is created — and the connector
phase logs `1 + p` errors for it, where `p` counts its child endpoints whose
parent CNItem lookup failed (each such failure logs "Unable to find node
parent", and the final "End and start nodes for the connector do not both
exist" message always follows); a plain-node-id failure contributes no extra
message, so it logs exactly one error.  Processing of the remaining records
continues from the unchanged state. -/
theorem connCreateStep_failure_policy (d : LiveDocument) (n : Nat) (k : String)
    (c : ConnectorData) (hnew : amLookup d.conns k = none)
    (hfail :
      (resolveEndpoint d c.startNodeIsChild c.startNodeCId c.startNodeParent
        c.startNodeId).1 = false ∨
      (resolveEndpoint d c.endNodeIsChild c.endNodeCId c.endNodeParent c.endNodeId).1
        = false) :
    connCreateStep (d, n) (k, c)
      = (d, n
          + (resolveEndpoint d c.startNodeIsChild c.startNodeCId c.startNodeParent
              c.startNodeId).2
          + (resolveEndpoint d c.endNodeIsChild c.endNodeCId c.endNodeParent
              c.endNodeId).2
          + 1) ∧
    (∀ (isChild : Bool) (cid parent plainId : String),
      (resolveEndpoint d isChild cid parent plainId).2
        = if isChild = true ∧ cnItemWithID d parent = none then 1 else 0) ∧
    (∀ rest : List (String × ConnectorData),
      ((k, c) :: rest).foldl connCreateStep (d, n)
        = rest.foldl connCreateStep (d, n
            + (resolveEndpoint d c.startNodeIsChild c.startNodeCId c.startNodeParent
                c.startNodeId).2
            + (resolveEndpoint d c.endNodeIsChild c.endNodeCId c.endNodeParent
                c.endNodeId).2
            + 1)) := by
  have hstep : connCreateStep (d, n) (k, c)
      = (d, n
          + (resolveEndpoint d c.startNodeIsChild c.startNodeCId c.startNodeParent
              c.startNodeId).2
          + (resolveEndpoint d c.endNodeIsChild c.endNodeCId c.endNodeParent
              c.endNodeId).2
          + 1) := by
    rw [connCreateStep]
    rw [if_neg (by
      show ¬ (amLookup d.conns k).isSome = true
      rw [hnew]
      decide)]
    rw [if_pos (by
      rcases hfail with h | h
      · exact Or.inl (by rw [h]; decide)
      · exact Or.inr (by rw [h]; decide))]
  refine ⟨hstep, ?_, ?_⟩
  · intro isChild cid parent plainId
    rw [resolveEndpoint]
    cases isChild with
    | true =>
      rw [if_pos rfl]
      cases hcn : cnItemWithID d parent with
      | none => rw [if_pos ⟨rfl, rfl⟩]
      | some it =>
        rw [if_neg (by
          rintro ⟨-, habs⟩
          exact Option.noConfusion habs)]
    | false =>
      rw [if_neg (show ¬ (false = true) by decide),
          if_neg (by rintro ⟨habs, -⟩; exact Bool.noConfusion habs)]
  · intro rest
    rw [List.foldl_cons, hstep]
/-- The failing connector record of `c8Snapshot`. -/
def c8Rec : ConnectorData :=
  { startNodeIsChild := true, startNodeCId := "cid", startNodeParent := "missing",
    endNodeIsChild := false, endNodeId := "n1" }

theorem connCreateStep_failure_policy_witness :
    (amLookup c8Doc.conns "c" = none ∧
     (resolveEndpoint c8Doc c8Rec.startNodeIsChild c8Rec.startNodeCId c8Rec.startNodeParent
       c8Rec.startNodeId).1 = false) ∧
    connCreateStep (c8Doc, 0) ("c", c8Rec)
      = (c8Doc, 0
          + (resolveEndpoint c8Doc c8Rec.startNodeIsChild c8Rec.startNodeCId
              c8Rec.startNodeParent c8Rec.startNodeId).2
          + (resolveEndpoint c8Doc c8Rec.endNodeIsChild c8Rec.endNodeCId
              c8Rec.endNodeParent c8Rec.endNodeId).2
          + 1) :=
  ⟨⟨rfl, by decide⟩,
    (connCreateStep_failure_policy c8Doc 0 "c" c8Rec rfl (Or.inl (by decide))).1⟩
/-- Snapshot for C7's counterexample: one item record whose type is the
empty string (a legal snapshot value). -/
def c7Snapshot : ItemDocumentData :=
  { itemDataMap := [("a", {})] }

/-- C7 counterexample: the item phase skips records with an empty type, so
after restoring into an empty circuit document the live item id set is
empty while the snapshot's item key set is not — the sets are not equal,
even with a factory that can build every type. -/
theorem restoreDocument_misses_item :
    ((c7Snapshot.restoreDocument mergeFactoryTrivial {}).1).items = [] ∧
    amKeys c7Snapshot.itemDataMap = ["a"] := by
  decide
theorem amContains_amInsert {α : Type} (m : List (String × α)) (k x : String) (v : α) :
    amContains (amInsert m k v) x = true ↔ (x = k ∨ amContains m x = true) := by
  by_cases h : x = k
  · subst h
    simp [amContains, amLookup_amInsert_self]
  · rw [amContains, amLookup_amInsert_ne m k x v (fun he => h he.symm)]
    simp [amContains, h]

theorem amLookup_mem {α : Type} (m : List (String × α)) (k : String) (v : α)
    (h : amLookup m k = some v) : (k, v) ∈ m := by
  induction m with
  | nil => simp [amLookup] at h
  | cons kv r ih =>
    obtain ⟨k', v'⟩ := kv
    rw [amLookup] at h
    by_cases he : k' = k
    · rw [if_pos he] at h
      subst he
      obtain rfl : v' = v := by simpa using h
      exact List.mem_cons_self _ _
    · rw [if_neg he] at h
      exact List.mem_cons_of_mem _ (ih h)

theorem amLookup_eq_of_mem_nodup {α : Type} (m : List (String × α)) (k : String) (v : α)
    (hn : (amKeys m).Nodup) (h : (k, v) ∈ m) : amLookup m k = some v := by
  induction m with
  | nil => simp at h
  | cons kv r ih =>
    obtain ⟨k', v'⟩ := kv
    simp only [amKeys_cons, List.nodup_cons] at hn
    rcases List.mem_cons.1 h with he | hm
    · injection he with h1 h2
      subst h1
      subst h2
      simp [amLookup]
    · have hk : k' ≠ k := by
        intro he'
        subst he'
        refine hn.1 ?_
        rw [show amKeys r = r.map Prod.fst from rfl]
        exact List.mem_map_of_mem Prod.fst hm
      rw [amLookup, if_neg hk]
      exact ih hn.2 hm

theorem forall_values_amInsert {α : Type} (P : α → Prop) (m : List (String × α))
    (k : String) (v : α) (hm : ∀ kv ∈ m, P kv.2) (hv : P v) :
    ∀ kv ∈ amInsert m k v, P kv.2 := by
  induction m with
  | nil =>
    intro kv hkv
    simp only [amInsert] at hkv
    rcases List.mem_singleton.1 hkv with rfl
    exact hv
  | cons kv0 r ih =>
    intro kv hkv
    obtain ⟨k', v'⟩ := kv0
    rw [amInsert] at hkv
    by_cases he : k' = k
    · rw [if_pos he] at hkv
      rcases List.mem_cons.1 hkv with rfl | hm'
      · exact hv
      · exact hm _ (List.mem_cons_of_mem _ hm')
    · rw [if_neg he] at hkv
      rcases List.mem_cons.1 hkv with rfl | hm'
      · exact hm _ (List.mem_cons_self _ _)
      · exact ih (fun kv' h' => hm kv' (List.mem_cons_of_mem _ h')) _ hm'

theorem mem_amKeys_amInsert {α : Type} (m : List (String × α)) (k : String) (v : α)
    (x : String) : x ∈ amKeys (amInsert m k v) ↔ x = k ∨ x ∈ amKeys m := by
  constructor
  · intro hx
    have h1 : amContains (amInsert m k v) x = true := (amLookup_isSome_iff_mem _ _).2 hx
    rcases (amContains_amInsert m k x v).1 h1 with h | h
    · exact Or.inl h
    · exact Or.inr ((amLookup_isSome_iff_mem _ _).1 h)
  · intro hx
    refine (amLookup_isSome_iff_mem _ _).1 ?_
    refine (amContains_amInsert m k x v).2 ?_
    rcases hx with h | h
    · exact Or.inl h
    · exact Or.inr ((amLookup_isSome_iff_mem _ _).2 h)

theorem amKeys_amInsert_nodup {α : Type} (m : List (String × α)) (k : String) (v : α)
    (hn : (amKeys m).Nodup) : (amKeys (amInsert m k v)).Nodup := by
  induction m with
  | nil => simp [amInsert]
  | cons kv r ih =>
    obtain ⟨k', v'⟩ := kv
    simp only [amKeys_cons, List.nodup_cons] at hn
    rw [amInsert]
    by_cases he : k' = k
    · rw [if_pos he]
      subst he
      simp only [amKeys_cons, List.nodup_cons]
      exact hn
    · rw [if_neg he]
      simp only [amKeys_cons, List.nodup_cons]
      refine ⟨?_, ih hn.2⟩
      intro hmem
      rcases (mem_amKeys_amInsert r k v k').1 hmem with h | h
      · exact he h
      · exact hn.1 h
theorem nodeCreateStep_spec (dt : DocumentType) (d : LiveDocument) (kv : String × NodeData) :
    (nodeCreateStep dt d kv).items = d.items ∧
    (nodeCreateStep dt d kv).conns = d.conns ∧
    (nodeCreateStep dt d kv).isICN = d.isICN ∧
    (nodeCreateStep dt d kv).docType = d.docType ∧
    (nodeCreateStep dt d kv).microSettings = d.microSettings ∧
    (∀ x, x ≠ kv.1 → amLookup (nodeCreateStep dt d kv).nodes x = amLookup d.nodes x) ∧
    ((amKeys d.nodes).Nodup → (amKeys (nodeCreateStep dt d kv).nodes).Nodup) ∧
    ((∀ kv' ∈ d.nodes, kv'.2.canvas = true ∧ kv'.2.isChildNode = false) →
      ∀ kv' ∈ (nodeCreateStep dt d kv).nodes,
        kv'.2.canvas = true ∧ kv'.2.isChildNode = false) ∧
    ((dt = DocumentType.dt_circuit ∨ dt = DocumentType.dt_flowcode) →
      ∀ x, amContains (nodeCreateStep dt d kv).nodes x = true ↔
        (x = kv.1 ∨ amContains d.nodes x = true)) := by
  unfold nodeCreateStep
  split
  next hpres =>
    refine ⟨rfl, rfl, rfl, rfl, rfl, fun x _ => rfl, fun h => h, fun h => h, ?_⟩
    intro _ x
    constructor
    · exact Or.inr
    · rintro (rfl | hx)
      · exact hpres
      · exact hx
  next hpres =>
    split
    next hdt1 =>
      refine ⟨rfl, rfl, rfl, rfl, rfl, ?_, ?_, ?_, ?_⟩
      · intro x hx
        exact amLookup_amInsert_ne _ _ _ _ (fun he => hx he.symm)
      · intro hn
        exact amKeys_amInsert_nodup _ _ _ hn
      · intro h
        exact forall_values_amInsert
          (fun n => n.canvas = true ∧ n.isChildNode = false) d.nodes kv.1
          { canvas := true, isChildNode := false, x := kv.2.x, y := kv.2.y } h ⟨rfl, rfl⟩
      · intro _ x
        exact amContains_amInsert _ _ _ _
    next hdt1 =>
      split
      next hdt2 =>
        refine ⟨rfl, rfl, rfl, rfl, rfl, ?_, ?_, ?_, ?_⟩
        · intro x hx
          exact amLookup_amInsert_ne _ _ _ _ (fun he => hx he.symm)
        · intro hn
          exact amKeys_amInsert_nodup _ _ _ hn
        · intro h
          exact forall_values_amInsert
            (fun n => n.canvas = true ∧ n.isChildNode = false) d.nodes kv.1
            { canvas := true, isChildNode := false, x := kv.2.x, y := kv.2.y } h ⟨rfl, rfl⟩
        · intro _ x
          exact amContains_amInsert _ _ _ _
      next hdt2 =>
        refine ⟨rfl, rfl, rfl, rfl, rfl, fun x _ => rfl, fun h => h, fun h => h, ?_⟩
        rintro (h | h) x
        · exact absurd h hdt1
        · exact absurd h hdt2

theorem foldl_nodeCreate_spec (dt : DocumentType) (l : List (String × NodeData)) :
    ∀ d : LiveDocument,
      (l.foldl (nodeCreateStep dt) d).items = d.items ∧
      (l.foldl (nodeCreateStep dt) d).conns = d.conns ∧
      (l.foldl (nodeCreateStep dt) d).isICN = d.isICN ∧
      (l.foldl (nodeCreateStep dt) d).docType = d.docType ∧
      (l.foldl (nodeCreateStep dt) d).microSettings = d.microSettings ∧
      (∀ x, x ∉ amKeys l →
        amLookup (l.foldl (nodeCreateStep dt) d).nodes x = amLookup d.nodes x) ∧
      ((amKeys d.nodes).Nodup → (amKeys (l.foldl (nodeCreateStep dt) d).nodes).Nodup) ∧
      ((∀ kv' ∈ d.nodes, kv'.2.canvas = true ∧ kv'.2.isChildNode = false) →
        ∀ kv' ∈ (l.foldl (nodeCreateStep dt) d).nodes,
          kv'.2.canvas = true ∧ kv'.2.isChildNode = false) ∧
      ((dt = DocumentType.dt_circuit ∨ dt = DocumentType.dt_flowcode) →
        ∀ x, amContains (l.foldl (nodeCreateStep dt) d).nodes x = true ↔
          (x ∈ amKeys l ∨ amContains d.nodes x = true)) := by
  induction l with
  | nil =>
    intro d
    refine ⟨rfl, rfl, rfl, rfl, rfl, fun x _ => rfl, fun h => h, fun h => h, ?_⟩
    intro _ x
    simp
  | cons kv t ih =>
    intro d
    obtain ⟨k0, v0⟩ := kv
    simp only [List.foldl_cons]
    obtain ⟨i1, i2, i3, i4, i5, i6, i7, i8, i9⟩ := ih (nodeCreateStep dt d (k0, v0))
    obtain ⟨s1, s2, s3, s4, s5, s6, s7, s8, s9⟩ := nodeCreateStep_spec dt d (k0, v0)
    refine ⟨i1.trans s1, i2.trans s2, i3.trans s3, i4.trans s4, i5.trans s5, ?_, ?_, ?_, ?_⟩
    · intro x hx
      have hx1 : x ≠ k0 := fun he => hx (by simp [he])
      have hx2 : x ∉ amKeys t := fun hm => hx (by simp [hm])
      exact (i6 x hx2).trans (s6 x hx1)
    · intro hn
      exact i7 (s7 hn)
    · intro h
      exact i8 (s8 h)
    · intro hdt x
      have hiff := i9 hdt x
      have hsf := s9 hdt x
      constructor
      · intro h
        rcases hiff.1 h with h' | h'
        · exact Or.inl (by simp [h'])
        · rcases hsf.1 h' with h'' | h''
          · exact Or.inl (by simp [h''])
          · exact Or.inr h''
      · intro h
        refine hiff.2 ?_
        rcases h with h' | h'
        · rcases (show x = k0 ∨ x ∈ amKeys t by simpa using h') with h'' | h''
          · exact Or.inr (hsf.2 (Or.inl h''))
          · exact Or.inl h''
        · exact Or.inr (hsf.2 (Or.inr h'))
theorem nodeMoveStep_spec (d : LiveDocument) (kv : String × NodeData) :
    (nodeMoveStep d kv).items = d.items ∧
    (nodeMoveStep d kv).conns = d.conns ∧
    (nodeMoveStep d kv).isICN = d.isICN ∧
    (nodeMoveStep d kv).docType = d.docType ∧
    (nodeMoveStep d kv).microSettings = d.microSettings ∧
    (∀ x, x ≠ kv.1 → amLookup (nodeMoveStep d kv).nodes x = amLookup d.nodes x) ∧
    ((amKeys d.nodes).Nodup → (amKeys (nodeMoveStep d kv).nodes).Nodup) ∧
    ((∀ kv' ∈ d.nodes, kv'.2.canvas = true ∧ kv'.2.isChildNode = false) →
      ∀ kv' ∈ (nodeMoveStep d kv).nodes,
        kv'.2.canvas = true ∧ kv'.2.isChildNode = false) ∧
    (∀ x, amContains (nodeMoveStep d kv).nodes x = amContains d.nodes x) := by
  unfold nodeMoveStep
  cases hl : amLookup d.nodes kv.1 with
  | none =>
    exact ⟨rfl, rfl, rfl, rfl, rfl, fun x _ => rfl, fun h => h, fun h => h, fun x => rfl⟩
  | some n =>
    refine ⟨rfl, rfl, rfl, rfl, rfl, ?_, ?_, ?_, ?_⟩
    · intro x hx
      exact amLookup_amInsert_ne _ _ _ _ (fun he => hx he.symm)
    · intro hn
      exact amKeys_amInsert_nodup _ _ _ hn
    · intro h
      have hP := h (kv.1, n) (amLookup_mem _ _ _ hl)
      exact forall_values_amInsert
        (fun v => v.canvas = true ∧ v.isChildNode = false) d.nodes kv.1
        { n with x := kv.2.x, y := kv.2.y } h ⟨hP.1, hP.2⟩
    · intro x
      by_cases hx : x = kv.1
      · subst hx
        rw [amContains, amLookup_amInsert_self]
        rw [amContains, hl]
        rfl
      · rw [amContains, amLookup_amInsert_ne _ _ _ _ (fun he => hx he.symm)]
        rfl

theorem foldl_nodeMove_spec (l : List (String × NodeData)) :
    ∀ d : LiveDocument,
      (l.foldl nodeMoveStep d).items = d.items ∧
      (l.foldl nodeMoveStep d).conns = d.conns ∧
      (l.foldl nodeMoveStep d).isICN = d.isICN ∧
      (l.foldl nodeMoveStep d).docType = d.docType ∧
      (l.foldl nodeMoveStep d).microSettings = d.microSettings ∧
      ((amKeys d.nodes).Nodup → (amKeys (l.foldl nodeMoveStep d).nodes).Nodup) ∧
      ((∀ kv' ∈ d.nodes, kv'.2.canvas = true ∧ kv'.2.isChildNode = false) →
        ∀ kv' ∈ (l.foldl nodeMoveStep d).nodes,
          kv'.2.canvas = true ∧ kv'.2.isChildNode = false) ∧
      (∀ x, amContains (l.foldl nodeMoveStep d).nodes x = amContains d.nodes x) := by
  induction l with
  | nil =>
    intro d
    exact ⟨rfl, rfl, rfl, rfl, rfl, fun h => h, fun h => h, fun x => rfl⟩
  | cons kv t ih =>
    intro d
    simp only [List.foldl_cons]
    obtain ⟨i1, i2, i3, i4, i5, i6, i7, i8⟩ := ih (nodeMoveStep d kv)
    obtain ⟨s1, s2, s3, s4, s5, _, s7, s8, s9⟩ := nodeMoveStep_spec d kv
    refine ⟨i1.trans s1, i2.trans s2, i3.trans s3, i4.trans s4, i5.trans s5,
      fun hn => i6 (s7 hn), fun h => i7 (s8 h), fun x => (i8 x).trans (s9 x)⟩
theorem mergeNodes_spec (s : ItemDocumentData) (doc : LiveDocument)
    (hicn : doc.isICN = true)
    (hdt : doc.docType = DocumentType.dt_circuit ∨ doc.docType = DocumentType.dt_flowcode) :
    (mergeNodes s doc).items = doc.items ∧
    (mergeNodes s doc).conns = doc.conns ∧
    (mergeNodes s doc).isICN = doc.isICN ∧
    (mergeNodes s doc).docType = doc.docType ∧
    (mergeNodes s doc).microSettings = doc.microSettings ∧
    ((amKeys doc.nodes).Nodup → (amKeys (mergeNodes s doc).nodes).Nodup) ∧
    ((∀ kv ∈ doc.nodes, kv.2.canvas = true ∧ kv.2.isChildNode = false) →
      ∀ kv ∈ (mergeNodes s doc).nodes, kv.2.canvas = true ∧ kv.2.isChildNode = false) ∧
    (∀ x, amContains (mergeNodes s doc).nodes x = true ↔
      (x ∈ amKeys s.nodeDataMap ∨ amContains doc.nodes x = true)) := by
  unfold mergeNodes
  rw [if_pos hicn]
  obtain ⟨c1, c2, c3, c4, c5, _, c7, c8, c9⟩ :=
    foldl_nodeCreate_spec doc.docType s.nodeDataMap doc
  obtain ⟨m1, m2, m3, m4, m5, m6, m7, m8⟩ :=
    foldl_nodeMove_spec s.nodeDataMap (s.nodeDataMap.foldl (nodeCreateStep doc.docType) doc)
  exact ⟨m1.trans c1, m2.trans c2, m3.trans c3, m4.trans c4, m5.trans c5,
    fun hn => m6 (c7 hn), fun h => m7 (c8 h),
    fun x => by rw [m8 x]; exact c9 hdt x⟩
theorem itemCreateStep_spec (f : ItemFactory) (p : LiveDocument × Nat)
    (kv : String × ItemData) :
    (itemCreateStep f p kv).1.nodes = p.1.nodes ∧
    (itemCreateStep f p kv).1.conns = p.1.conns ∧
    (itemCreateStep f p kv).1.isICN = p.1.isICN ∧
    (itemCreateStep f p kv).1.docType = p.1.docType ∧
    (itemCreateStep f p kv).1.microSettings = p.1.microSettings ∧
    (∀ x, x ≠ kv.1 → amLookup (itemCreateStep f p kv).1.items x = amLookup p.1.items x) ∧
    ((amKeys p.1.items).Nodup → (amKeys (itemCreateStep f p kv).1.items).Nodup) ∧
    ((∀ t it, f.create t = some it → it.canvas = true) →
      (∀ kv' ∈ p.1.items, kv'.2.canvas = true) →
      ∀ kv' ∈ (itemCreateStep f p kv).1.items, kv'.2.canvas = true) ∧
    ((kv.2.type ≠ "" ∧ ∃ it, f.create kv.2.type = some it ∧ f.valid it = true) →
      ∀ x, amContains (itemCreateStep f p kv).1.items x = true ↔
        (x = kv.1 ∨ amContains p.1.items x = true)) := by
  unfold itemCreateStep
  split
  next hcond =>
    cases hc : f.create kv.2.type with
    | none =>
      refine ⟨rfl, rfl, rfl, rfl, rfl, fun x _ => rfl, fun h => h, fun _ h => h, ?_⟩
      rintro ⟨-, it, hit, -⟩
      exact Option.noConfusion hit
    | some it =>
      simp only []
      by_cases hv : f.valid it = true
      · rw [if_pos hv]
        refine ⟨rfl, rfl, rfl, rfl, rfl, ?_, ?_, ?_, ?_⟩
        · intro x hx
          exact amLookup_amInsert_ne _ _ _ _ (fun he => hx he.symm)
        · intro hn
          exact amKeys_amInsert_nodup _ _ _ hn
        · intro hfc h
          exact forall_values_amInsert (fun v => v.canvas = true) p.1.items kv.1
            { it with x := kv.2.x, y := kv.2.y } h (hfc kv.2.type it hc)
        · intro _ x
          exact amContains_amInsert _ _ _ _
      · rw [if_neg hv]
        refine ⟨rfl, rfl, rfl, rfl, rfl, fun x _ => rfl, fun h => h, fun _ h => h, ?_⟩
        rintro ⟨-, it', hit', hv'⟩
        obtain rfl : it = it' := by injection hit'
        exact absurd hv' hv
  next hcond =>
    refine ⟨rfl, rfl, rfl, rfl, rfl, fun x _ => rfl, fun h => h, fun _ h => h, ?_⟩
    rintro ⟨hty, -⟩ x
    have hpres : (amLookup p.1.items kv.1).isSome = true := by
      rcases hopt : amLookup p.1.items kv.1 with _ | v
      · exact absurd ⟨hty, hopt⟩ hcond
      · rfl
    constructor
    · exact Or.inr
    · rintro (rfl | hx)
      · exact hpres
      · exact hx
theorem foldl_itemCreate_spec (f : ItemFactory) (l : List (String × ItemData)) :
    ∀ p : LiveDocument × Nat,
      (l.foldl (itemCreateStep f) p).1.nodes = p.1.nodes ∧
      (l.foldl (itemCreateStep f) p).1.conns = p.1.conns ∧
      (l.foldl (itemCreateStep f) p).1.isICN = p.1.isICN ∧
      (l.foldl (itemCreateStep f) p).1.docType = p.1.docType ∧
      (l.foldl (itemCreateStep f) p).1.microSettings = p.1.microSettings ∧
      (∀ x, x ∉ amKeys l →
        amLookup (l.foldl (itemCreateStep f) p).1.items x = amLookup p.1.items x) ∧
      ((amKeys p.1.items).Nodup → (amKeys (l.foldl (itemCreateStep f) p).1.items).Nodup) ∧
      ((∀ t it, f.create t = some it → it.canvas = true) →
        (∀ kv' ∈ p.1.items, kv'.2.canvas = true) →
        ∀ kv' ∈ (l.foldl (itemCreateStep f) p).1.items, kv'.2.canvas = true) ∧
      ((∀ kv ∈ l, kv.2.type ≠ "" ∧ ∃ it, f.create kv.2.type = some it ∧ f.valid it = true) →
        ∀ x, amContains (l.foldl (itemCreateStep f) p).1.items x = true ↔
          (x ∈ amKeys l ∨ amContains p.1.items x = true)) := by
  induction l with
  | nil =>
    intro p
    refine ⟨rfl, rfl, rfl, rfl, rfl, fun x _ => rfl, fun h => h, fun _ h => h, ?_⟩
    intro _ x
    simp
  | cons kv t ih =>
    intro p
    obtain ⟨k0, v0⟩ := kv
    simp only [List.foldl_cons]
    obtain ⟨i1, i2, i3, i4, i5, i6, i7, i8, i9⟩ := ih (itemCreateStep f p (k0, v0))
    obtain ⟨s1, s2, s3, s4, s5, s6, s7, s8, s9⟩ := itemCreateStep_spec f p (k0, v0)
    refine ⟨i1.trans s1, i2.trans s2, i3.trans s3, i4.trans s4, i5.trans s5, ?_, ?_, ?_, ?_⟩
    · intro x hx
      have hx1 : x ≠ k0 := fun he => hx (by simp [he])
      have hx2 : x ∉ amKeys t := fun hm => hx (by simp [hm])
      exact (i6 x hx2).trans (s6 x hx1)
    · intro hn
      exact i7 (s7 hn)
    · intro hfc h
      exact i8 hfc (s8 hfc h)
    · intro hl x
      have hiff := i9 (fun kv' h' => hl kv' (List.mem_cons_of_mem _ h')) x
      have hsf := s9 (hl (k0, v0) (List.mem_cons_self _ _)) x
      constructor
      · intro h
        rcases hiff.1 h with h' | h'
        · exact Or.inl (by simp [h'])
        · rcases hsf.1 h' with h'' | h''
          · exact Or.inl (by simp [h''])
          · exact Or.inr h''
      · intro h
        refine hiff.2 ?_
        rcases h with h' | h'
        · rcases (show x = k0 ∨ x ∈ amKeys t by simpa using h') with h'' | h''
          · exact Or.inr (hsf.2 (Or.inl h''))
          · exact Or.inl h''
        · exact Or.inr (hsf.2 (Or.inr h'))

theorem itemRestoreStep_spec (d : LiveDocument) (kv : String × ItemData) :
    (itemRestoreStep d kv).nodes = d.nodes ∧
    (itemRestoreStep d kv).conns = d.conns ∧
    (itemRestoreStep d kv).isICN = d.isICN ∧
    (itemRestoreStep d kv).docType = d.docType ∧
    (itemRestoreStep d kv).microSettings = d.microSettings ∧
    (∀ x, x ≠ kv.1 → amLookup (itemRestoreStep d kv).items x = amLookup d.items x) ∧
    ((amKeys d.items).Nodup → (amKeys (itemRestoreStep d kv).items).Nodup) ∧
    ((∀ kv' ∈ d.items, kv'.2.canvas = true) →
      ∀ kv' ∈ (itemRestoreStep d kv).items, kv'.2.canvas = true) ∧
    (∀ x, amContains (itemRestoreStep d kv).items x = amContains d.items x) ∧
    (∀ x (it : LiveItem), amLookup (itemRestoreStep d kv).items x = some it →
      ∃ it0 : LiveItem, amLookup d.items x = some it0 ∧ it.type = it0.type ∧
        it.canvas = it0.canvas) := by
  unfold itemRestoreStep
  cases hl : amLookup d.items kv.1 with
  | none =>
    exact ⟨rfl, rfl, rfl, rfl, rfl, fun x _ => rfl, fun h => h, fun h => h, fun x => rfl,
      fun x it h => ⟨it, h, rfl, rfl⟩⟩
  | some it0 =>
    refine ⟨rfl, rfl, rfl, rfl, rfl, ?_, ?_, ?_, ?_, ?_⟩
    · intro x hx
      exact amLookup_amInsert_ne _ _ _ _ (fun he => hx he.symm)
    · intro hn
      exact amKeys_amInsert_nodup _ _ _ hn
    · intro h
      have hP := h (kv.1, it0) (amLookup_mem _ _ _ hl)
      exact forall_values_amInsert (fun v => v.canvas = true) d.items kv.1
        { it0 with idata := kv.2 } h hP
    · intro x
      by_cases hx : x = kv.1
      · subst hx
        rw [amContains, amLookup_amInsert_self]
        rw [amContains, hl]
        rfl
      · rw [amContains, amLookup_amInsert_ne _ _ _ _ (fun he => hx he.symm)]
        rfl
    · intro x it h
      by_cases hx : x = kv.1
      · subst hx
        rw [amLookup_amInsert_self] at h
        obtain rfl : { it0 with idata := kv.2 } = it := by injection h
        exact ⟨it0, hl, rfl, rfl⟩
      · rw [amLookup_amInsert_ne _ _ _ _ (fun he => hx he.symm)] at h
        exact ⟨it, h, rfl, rfl⟩

theorem foldl_itemRestore_spec (l : List (String × ItemData)) :
    ∀ d : LiveDocument,
      (l.foldl itemRestoreStep d).nodes = d.nodes ∧
      (l.foldl itemRestoreStep d).conns = d.conns ∧
      (l.foldl itemRestoreStep d).isICN = d.isICN ∧
      (l.foldl itemRestoreStep d).docType = d.docType ∧
      (l.foldl itemRestoreStep d).microSettings = d.microSettings ∧
      ((amKeys d.items).Nodup → (amKeys (l.foldl itemRestoreStep d).items).Nodup) ∧
      ((∀ kv' ∈ d.items, kv'.2.canvas = true) →
        ∀ kv' ∈ (l.foldl itemRestoreStep d).items, kv'.2.canvas = true) ∧
      (∀ x, amContains (l.foldl itemRestoreStep d).items x = amContains d.items x) ∧
      (∀ x (it : LiveItem), amLookup (l.foldl itemRestoreStep d).items x = some it →
        ∃ it0 : LiveItem, amLookup d.items x = some it0 ∧ it.type = it0.type ∧
          it.canvas = it0.canvas) := by
  induction l with
  | nil =>
    intro d
    exact ⟨rfl, rfl, rfl, rfl, rfl, fun h => h, fun h => h, fun x => rfl,
      fun x it h => ⟨it, h, rfl, rfl⟩⟩
  | cons kv t ih =>
    intro d
    simp only [List.foldl_cons]
    obtain ⟨i1, i2, i3, i4, i5, i6, i7, i8, i9⟩ := ih (itemRestoreStep d kv)
    obtain ⟨s1, s2, s3, s4, s5, _, s7, s8, s9, s10⟩ := itemRestoreStep_spec d kv
    refine ⟨i1.trans s1, i2.trans s2, i3.trans s3, i4.trans s4, i5.trans s5,
      fun hn => i6 (s7 hn), fun h => i7 (s8 h), fun x => (i8 x).trans (s9 x), ?_⟩
    intro x it h
    obtain ⟨it1, h1, ht1, hc1⟩ := i9 x it h
    obtain ⟨it0, h0, ht0, hc0⟩ := s10 x it1 h1
    exact ⟨it0, h0, ht1.trans ht0, hc1.trans hc0⟩
theorem mergeItems_spec (f : ItemFactory) (s : ItemDocumentData) (p : LiveDocument × Nat) :
    (mergeItems f s p).1.nodes = p.1.nodes ∧
    (mergeItems f s p).1.conns = p.1.conns ∧
    (mergeItems f s p).1.isICN = p.1.isICN ∧
    (mergeItems f s p).1.docType = p.1.docType ∧
    (mergeItems f s p).1.microSettings = p.1.microSettings ∧
    ((amKeys p.1.items).Nodup → (amKeys (mergeItems f s p).1.items).Nodup) ∧
    ((∀ t it, f.create t = some it → it.canvas = true) →
      (∀ kv' ∈ p.1.items, kv'.2.canvas = true) →
      ∀ kv' ∈ (mergeItems f s p).1.items, kv'.2.canvas = true) ∧
    ((∀ kv ∈ s.itemDataMap,
        kv.2.type ≠ "" ∧ ∃ it, f.create kv.2.type = some it ∧ f.valid it = true) →
      ∀ x, amContains (mergeItems f s p).1.items x = true ↔
        (x ∈ amKeys s.itemDataMap ∨ amContains p.1.items x = true)) ∧
    (∀ x, x ∉ amKeys s.itemDataMap → ∀ it : LiveItem,
      amLookup (mergeItems f s p).1.items x = some it →
      ∃ it0 : LiveItem, amLookup p.1.items x = some it0 ∧ it.type = it0.type ∧
        it.canvas = it0.canvas) := by
  obtain ⟨c1, c2, c3, c4, c5, c6, c7, c8, c9⟩ := foldl_itemCreate_spec f s.itemDataMap p
  obtain ⟨r1, r2, r3, r4, r5, r6, r7, r8, r9⟩ :=
    foldl_itemRestore_spec s.itemDataMap (s.itemDataMap.foldl (itemCreateStep f) p).1
  refine ⟨r1.trans c1, r2.trans c2, r3.trans c3, r4.trans c4, r5.trans c5,
    fun hn => r6 (c7 hn), fun hfc h => r7 (c8 hfc h), ?_, ?_⟩
  · intro hitems x
    rw [show amContains (mergeItems f s p).1.items x
        = amContains ((s.itemDataMap.foldl (itemCreateStep f) p).1).items x from r8 x]
    exact c9 hitems x
  · intro x hx it h
    obtain ⟨it1, h1, ht1, hc1⟩ := r9 x it h
    rw [c6 x hx] at h1
    exact ⟨it1, h1, ht1, hc1⟩

theorem resolveEndpoint_eq (d d' : LiveDocument) (hi : d'.items = d.items)
    (hn : d'.nodes = d.nodes) (isChild : Bool) (cid parent plainId : String) :
    resolveEndpoint d' isChild cid parent plainId
      = resolveEndpoint d isChild cid parent plainId := by
  unfold resolveEndpoint cnItemWithID
  rw [hi, hn]

theorem connCreateStep_spec (p : LiveDocument × Nat) (kv : String × ConnectorData)
    (hst : (resolveEndpoint p.1 kv.2.startNodeIsChild kv.2.startNodeCId
      kv.2.startNodeParent kv.2.startNodeId).1 = true)
    (hen : (resolveEndpoint p.1 kv.2.endNodeIsChild kv.2.endNodeCId
      kv.2.endNodeParent kv.2.endNodeId).1 = true) :
    (connCreateStep p kv).1.items = p.1.items ∧
    (connCreateStep p kv).1.nodes = p.1.nodes ∧
    (connCreateStep p kv).1.isICN = p.1.isICN ∧
    (connCreateStep p kv).1.docType = p.1.docType ∧
    (connCreateStep p kv).1.microSettings = p.1.microSettings ∧
    ((amKeys p.1.conns).Nodup → (amKeys (connCreateStep p kv).1.conns).Nodup) ∧
    ((∀ kv' ∈ p.1.conns, kv'.2.canvas = true) →
      ∀ kv' ∈ (connCreateStep p kv).1.conns, kv'.2.canvas = true) ∧
    (∀ x, amContains (connCreateStep p kv).1.conns x = true ↔
      (x = kv.1 ∨ amContains p.1.conns x = true)) := by
  unfold connCreateStep
  split
  next hpres =>
    refine ⟨rfl, rfl, rfl, rfl, rfl, fun h => h, fun h => h, ?_⟩
    intro x
    constructor
    · exact Or.inr
    · rintro (rfl | hx)
      · exact hpres
      · exact hx
  next hpres =>
    rw [if_neg (by
      rw [hst, hen]
      rintro (h | h) <;> exact h rfl)]
    refine ⟨rfl, rfl, rfl, rfl, rfl, ?_, ?_, ?_⟩
    · intro hn
      exact amKeys_amInsert_nodup _ _ _ hn
    · intro h
      exact forall_values_amInsert (fun v => v.canvas = true) p.1.conns kv.1
        { canvas := true, hasStartNode := true, hasEndNode := true, cdata := {} } h rfl
    · intro x
      exact amContains_amInsert _ _ _ _

theorem foldl_connCreate_spec (l : List (String × ConnectorData)) (d0 : LiveDocument)
    (hres : ∀ kv ∈ l,
      (resolveEndpoint d0 kv.2.startNodeIsChild kv.2.startNodeCId kv.2.startNodeParent
        kv.2.startNodeId).1 = true ∧
      (resolveEndpoint d0 kv.2.endNodeIsChild kv.2.endNodeCId kv.2.endNodeParent
        kv.2.endNodeId).1 = true) :
    ∀ p : LiveDocument × Nat, p.1.items = d0.items → p.1.nodes = d0.nodes →
      (l.foldl connCreateStep p).1.items = p.1.items ∧
      (l.foldl connCreateStep p).1.nodes = p.1.nodes ∧
      (l.foldl connCreateStep p).1.isICN = p.1.isICN ∧
      (l.foldl connCreateStep p).1.docType = p.1.docType ∧
      (l.foldl connCreateStep p).1.microSettings = p.1.microSettings ∧
      ((amKeys p.1.conns).Nodup → (amKeys (l.foldl connCreateStep p).1.conns).Nodup) ∧
      ((∀ kv' ∈ p.1.conns, kv'.2.canvas = true) →
        ∀ kv' ∈ (l.foldl connCreateStep p).1.conns, kv'.2.canvas = true) ∧
      (∀ x, amContains (l.foldl connCreateStep p).1.conns x = true ↔
        (x ∈ amKeys l ∨ amContains p.1.conns x = true)) := by
  induction l with
  | nil =>
    intro p _ _
    refine ⟨rfl, rfl, rfl, rfl, rfl, fun h => h, fun h => h, ?_⟩
    intro x
    simp
  | cons kv t ih =>
    intro p hpi hpn
    obtain ⟨k0, v0⟩ := kv
    simp only [List.foldl_cons]
    have hr := hres (k0, v0) (List.mem_cons_self _ _)
    have hst : (resolveEndpoint p.1 v0.startNodeIsChild v0.startNodeCId
        v0.startNodeParent v0.startNodeId).1 = true := by
      rw [resolveEndpoint_eq d0 p.1 hpi hpn]
      exact hr.1
    have hen : (resolveEndpoint p.1 v0.endNodeIsChild v0.endNodeCId
        v0.endNodeParent v0.endNodeId).1 = true := by
      rw [resolveEndpoint_eq d0 p.1 hpi hpn]
      exact hr.2
    obtain ⟨s1, s2, s3, s4, s5, s6, s7, s8⟩ := connCreateStep_spec p (k0, v0) hst hen
    obtain ⟨i1, i2, i3, i4, i5, i6, i7, i8⟩ := ih (fun kv' h' => hres kv'
      (List.mem_cons_of_mem _ h')) (connCreateStep p (k0, v0))
      (s1.trans hpi) (s2.trans hpn)
    refine ⟨i1.trans s1, i2.trans s2, i3.trans s3, i4.trans s4, i5.trans s5,
      fun hn => i6 (s6 hn), fun h => i7 (s7 h), ?_⟩
    intro x
    have hiff := i8 x
    have hsf := s8 x
    constructor
    · intro h
      rcases hiff.1 h with h' | h'
      · exact Or.inl (by simp [h'])
      · rcases hsf.1 h' with h'' | h''
        · exact Or.inl (by simp [h''])
        · exact Or.inr h''
    · intro h
      refine hiff.2 ?_
      rcases h with h' | h'
      · rcases (show x = k0 ∨ x ∈ amKeys t by simpa using h') with h'' | h''
        · exact Or.inr (hsf.2 (Or.inl h''))
        · exact Or.inl h''
      · exact Or.inr (hsf.2 (Or.inr h'))
theorem connRestoreStep_spec (d : LiveDocument) (kv : String × ConnectorData) :
    (connRestoreStep d kv).items = d.items ∧
    (connRestoreStep d kv).nodes = d.nodes ∧
    (connRestoreStep d kv).isICN = d.isICN ∧
    (connRestoreStep d kv).docType = d.docType ∧
    (connRestoreStep d kv).microSettings = d.microSettings ∧
    ((amKeys d.conns).Nodup → (amKeys (connRestoreStep d kv).conns).Nodup) ∧
    ((∀ kv' ∈ d.conns, kv'.2.canvas = true) →
      ∀ kv' ∈ (connRestoreStep d kv).conns, kv'.2.canvas = true) ∧
    (∀ x, amContains (connRestoreStep d kv).conns x = amContains d.conns x) := by
  unfold connRestoreStep
  cases hl : amLookup d.conns kv.1 with
  | none =>
    exact ⟨rfl, rfl, rfl, rfl, rfl, fun h => h, fun h => h, fun x => rfl⟩
  | some c0 =>
    refine ⟨rfl, rfl, rfl, rfl, rfl, ?_, ?_, ?_⟩
    · intro hn
      exact amKeys_amInsert_nodup _ _ _ hn
    · intro h
      have hP := h (kv.1, c0) (amLookup_mem _ _ _ hl)
      exact forall_values_amInsert (fun v => v.canvas = true) d.conns kv.1
        { c0 with cdata := kv.2 } h hP
    · intro x
      by_cases hx : x = kv.1
      · subst hx
        rw [amContains, amLookup_amInsert_self]
        rw [amContains, hl]
        rfl
      · rw [amContains, amLookup_amInsert_ne _ _ _ _ (fun he => hx he.symm)]
        rfl

theorem foldl_connRestore_spec (l : List (String × ConnectorData)) :
    ∀ d : LiveDocument,
      (l.foldl connRestoreStep d).items = d.items ∧
      (l.foldl connRestoreStep d).nodes = d.nodes ∧
      (l.foldl connRestoreStep d).isICN = d.isICN ∧
      (l.foldl connRestoreStep d).docType = d.docType ∧
      (l.foldl connRestoreStep d).microSettings = d.microSettings ∧
      ((amKeys d.conns).Nodup → (amKeys (l.foldl connRestoreStep d).conns).Nodup) ∧
      ((∀ kv' ∈ d.conns, kv'.2.canvas = true) →
        ∀ kv' ∈ (l.foldl connRestoreStep d).conns, kv'.2.canvas = true) ∧
      (∀ x, amContains (l.foldl connRestoreStep d).conns x = amContains d.conns x) := by
  induction l with
  | nil =>
    intro d
    exact ⟨rfl, rfl, rfl, rfl, rfl, fun h => h, fun h => h, fun x => rfl⟩
  | cons kv t ih =>
    intro d
    simp only [List.foldl_cons]
    obtain ⟨i1, i2, i3, i4, i5, i6, i7, i8⟩ := ih (connRestoreStep d kv)
    obtain ⟨s1, s2, s3, s4, s5, s6, s7, s8⟩ := connRestoreStep_spec d kv
    exact ⟨i1.trans s1, i2.trans s2, i3.trans s3, i4.trans s4, i5.trans s5,
      fun hn => i6 (s6 hn), fun h => i7 (s7 h), fun x => (i8 x).trans (s8 x)⟩

theorem mergeConns_spec (s : ItemDocumentData) (p : LiveDocument × Nat)
    (hicn : p.1.isICN = true)
    (hres : ∀ kv ∈ s.connectorDataMap,
      (resolveEndpoint p.1 kv.2.startNodeIsChild kv.2.startNodeCId kv.2.startNodeParent
        kv.2.startNodeId).1 = true ∧
      (resolveEndpoint p.1 kv.2.endNodeIsChild kv.2.endNodeCId kv.2.endNodeParent
        kv.2.endNodeId).1 = true) :
    (mergeConns s p).1.items = p.1.items ∧
    (mergeConns s p).1.nodes = p.1.nodes ∧
    (mergeConns s p).1.isICN = p.1.isICN ∧
    (mergeConns s p).1.docType = p.1.docType ∧
    (mergeConns s p).1.microSettings = p.1.microSettings ∧
    ((amKeys p.1.conns).Nodup → (amKeys (mergeConns s p).1.conns).Nodup) ∧
    ((∀ kv' ∈ p.1.conns, kv'.2.canvas = true) →
      ∀ kv' ∈ (mergeConns s p).1.conns, kv'.2.canvas = true) ∧
    (∀ x, amContains (mergeConns s p).1.conns x = true ↔
      (x ∈ amKeys s.connectorDataMap ∨ amContains p.1.conns x = true)) := by
  unfold mergeConns
  rw [if_pos hicn]
  obtain ⟨c1, c2, c3, c4, c5, c6, c7, c8⟩ :=
    foldl_connCreate_spec s.connectorDataMap p.1 hres p rfl rfl
  obtain ⟨r1, r2, r3, r4, r5, r6, r7, r8⟩ :=
    foldl_connRestore_spec s.connectorDataMap (s.connectorDataMap.foldl connCreateStep p).1
  refine ⟨r1.trans c1, r2.trans c2, r3.trans c3, r4.trans c4, r5.trans c5,
    fun hn => r6 (c6 hn), fun h => r7 (c7 h), ?_⟩
  intro x
  rw [show amContains (List.foldl connRestoreStep
      (List.foldl connCreateStep p s.connectorDataMap).1 s.connectorDataMap).conns x
    = amContains (List.foldl connCreateStep p s.connectorDataMap).1.conns x from r8 x]
  exact c8 x
theorem amContains_filter {α : Type} (m : List (String × α)) (pred : String × α → Bool)
    (x : String) (hn : (amKeys m).Nodup) :
    amContains (m.filter pred) x = true ↔
      ∃ v, amLookup m x = some v ∧ pred (x, v) = true := by
  constructor
  · intro h
    have hx : x ∈ amKeys (m.filter pred) := (amLookup_isSome_iff_mem _ _).1 h
    rw [show amKeys (m.filter pred) = (m.filter pred).map Prod.fst from rfl] at hx
    obtain ⟨kv, hkv, hfst⟩ := List.mem_map.1 hx
    obtain ⟨k, v⟩ := kv
    have hmem := List.mem_of_mem_filter hkv
    have hpred := List.of_mem_filter hkv
    have hk : k = x := hfst
    subst hk
    exact ⟨v, amLookup_eq_of_mem_nodup m k v hn hmem, hpred⟩
  · rintro ⟨v, hlk, hpred⟩
    have hmem : (x, v) ∈ m.filter pred := List.mem_filter.2 ⟨amLookup_mem m x v hlk, hpred⟩
    refine (amLookup_isSome_iff_mem _ _).2 ?_
    rw [show amKeys (m.filter pred) = (m.filter pred).map Prod.fst from rfl]
    exact List.mem_map_of_mem Prod.fst hmem

theorem microRestored_spec (s : ItemDocumentData) (doc : LiveDocument) :
    (microRestored s doc).items = doc.items ∧
    (microRestored s doc).nodes = doc.nodes ∧
    (microRestored s doc).conns = doc.conns ∧
    (microRestored s doc).isICN = doc.isICN ∧
    (microRestored s doc).docType = doc.docType := by
  unfold microRestored
  split <;> exact ⟨rfl, rfl, rfl, rfl, rfl⟩
/-- C7 (amended): restoring a snapshot into a graph-capable live document
(a circuit or flow-code ICN document with uniquely-keyed, on-canvas items,
free-standing on-canvas nodes and on-canvas connectors) makes the live id
sets match the snapshot's key sets — provided every ItemRecord has a
nonempty type the item library can build into a valid item, and every
ConnectorRecord endpoint resolves after the node and item phases.  The
node and connector id sets become exactly the snapshot's key sets; the
item id set is the snapshot's key set plus exactly the pre-existing
microcontroller placement items, which are never deleted.  Without the
extra hypotheses the equality fails: records with an empty or unknown
type, invalid items and unresolved connector endpoints are skipped, so the
live sets can lack snapshot keys. -/
theorem restoreDocument_id_sets (s : ItemDocumentData) (f : ItemFactory)
    (doc : LiveDocument)
    (hicn : doc.isICN = true)
    (hdt : doc.docType = DocumentType.dt_circuit ∨ doc.docType = DocumentType.dt_flowcode)
    (hfc : ∀ t it, f.create t = some it → it.canvas = true)
    (hitems : ∀ kv ∈ s.itemDataMap,
      kv.2.type ≠ "" ∧ ∃ it, f.create kv.2.type = some it ∧ f.valid it = true)
    (hdocitems : ∀ kv ∈ doc.items, kv.2.canvas = true)
    (hdocnodes : ∀ kv ∈ doc.nodes, kv.2.canvas = true ∧ kv.2.isChildNode = false)
    (hdocconns : ∀ kv ∈ doc.conns, kv.2.canvas = true)
    (hni : (amKeys doc.items).Nodup) (hnn : (amKeys doc.nodes).Nodup)
    (hnc : (amKeys doc.conns).Nodup)
    (hres : ∀ kv ∈ s.connectorDataMap,
      (resolveEndpoint (mergeItems f s (mergeNodes s (microRestored s doc), 0)).1
        kv.2.startNodeIsChild kv.2.startNodeCId kv.2.startNodeParent
        kv.2.startNodeId).1 = true ∧
      (resolveEndpoint (mergeItems f s (mergeNodes s (microRestored s doc), 0)).1
        kv.2.endNodeIsChild kv.2.endNodeCId kv.2.endNodeParent
        kv.2.endNodeId).1 = true) :
    (∀ x, amContains (s.restoreDocument f doc).1.items x = true ↔
      (x ∈ amKeys s.itemDataMap ∨
        ∃ it : LiveItem, amLookup doc.items x = some it ∧ it.type = picItemTypeString)) ∧
    (∀ x, amContains (s.restoreDocument f doc).1.nodes x = true ↔
      x ∈ amKeys s.nodeDataMap) ∧
    (∀ x, amContains (s.restoreDocument f doc).1.conns x = true ↔
      x ∈ amKeys s.connectorDataMap) := by
  obtain ⟨e1, e2, e3, e4, e5⟩ := microRestored_spec s doc
  have hicn0 : (microRestored s doc).isICN = true := e4.trans hicn
  have hdt0 : (microRestored s doc).docType = DocumentType.dt_circuit ∨
      (microRestored s doc).docType = DocumentType.dt_flowcode := by
    rw [e5]
    exact hdt
  obtain ⟨n1, n2, n3, n4, n5, n6, n7, n8⟩ := mergeNodes_spec s (microRestored s doc) hicn0 hdt0
  have hd1items : (mergeNodes s (microRestored s doc)).items = doc.items := n1.trans e1
  have hd1conns : (mergeNodes s (microRestored s doc)).conns = doc.conns := n2.trans e3
  have hd1icn : (mergeNodes s (microRestored s doc)).isICN = true := n3.trans hicn0
  obtain ⟨m1, m2, m3, m4, m5, m6, m7, m8, m9⟩ :=
    mergeItems_spec f s (mergeNodes s (microRestored s doc), 0)
  simp only [] at m1 m2 m3 m4 m5 m6 m7 m8 m9
  have hp2icn : (mergeItems f s (mergeNodes s (microRestored s doc), 0)).1.isICN = true :=
    m3.trans hd1icn
  obtain ⟨g1, g2, g3, g4, g5, g6, g7, g8⟩ :=
    mergeConns_spec s (mergeItems f s (mergeNodes s (microRestored s doc), 0)) hp2icn hres
  have hmicn : (s.mergeWithDocument f (microRestored s doc)).1.isICN = true :=
    g3.trans hp2icn
  have hmNodupItems :
      (amKeys (s.mergeWithDocument f (microRestored s doc)).1.items).Nodup := by
    rw [show (s.mergeWithDocument f (microRestored s doc)).1.items
      = (mergeItems f s (mergeNodes s (microRestored s doc), 0)).1.items from g1]
    apply m6
    rw [hd1items]
    exact hni
  have hmItemsCanvas : ∀ kv ∈ (s.mergeWithDocument f (microRestored s doc)).1.items,
      kv.2.canvas = true := by
    rw [show (s.mergeWithDocument f (microRestored s doc)).1.items
      = (mergeItems f s (mergeNodes s (microRestored s doc), 0)).1.items from g1]
    apply m7 hfc
    intro kv hkv
    rw [hd1items] at hkv
    exact hdocitems kv hkv
  have hmItemsMem : ∀ x,
      amContains (s.mergeWithDocument f (microRestored s doc)).1.items x = true ↔
      (x ∈ amKeys s.itemDataMap ∨ amContains doc.items x = true) := by
    intro x
    rw [show (s.mergeWithDocument f (microRestored s doc)).1.items
      = (mergeItems f s (mergeNodes s (microRestored s doc), 0)).1.items from g1]
    have h := m8 hitems x
    rw [hd1items] at h
    exact h
  have hmItemsTrack : ∀ x, x ∉ amKeys s.itemDataMap → ∀ it : LiveItem,
      amLookup (s.mergeWithDocument f (microRestored s doc)).1.items x = some it →
      ∃ it0 : LiveItem, amLookup doc.items x = some it0 ∧ it.type = it0.type ∧
        it.canvas = it0.canvas := by
    intro x hx it h
    rw [show (s.mergeWithDocument f (microRestored s doc)).1.items
      = (mergeItems f s (mergeNodes s (microRestored s doc), 0)).1.items from g1] at h
    obtain ⟨it0, h0, ht, hc⟩ := m9 x hx it h
    rw [hd1items] at h0
    exact ⟨it0, h0, ht, hc⟩
  have hmNodesEq : (s.mergeWithDocument f (microRestored s doc)).1.nodes
      = (mergeNodes s (microRestored s doc)).nodes := g2.trans m1
  have hmNodesMem : ∀ x,
      amContains (s.mergeWithDocument f (microRestored s doc)).1.nodes x = true ↔
      (x ∈ amKeys s.nodeDataMap ∨ amContains doc.nodes x = true) := by
    intro x
    rw [hmNodesEq]
    have h := n8 x
    rw [e2] at h
    exact h
  have hmNodesNodup :
      (amKeys (s.mergeWithDocument f (microRestored s doc)).1.nodes).Nodup := by
    rw [hmNodesEq]
    apply n6
    rw [e2]
    exact hnn
  have hmNodesInv : ∀ kv ∈ (s.mergeWithDocument f (microRestored s doc)).1.nodes,
      kv.2.canvas = true ∧ kv.2.isChildNode = false := by
    rw [hmNodesEq]
    apply n7
    intro kv hkv
    rw [e2] at hkv
    exact hdocnodes kv hkv
  have hp2conns : (mergeItems f s (mergeNodes s (microRestored s doc), 0)).1.conns
      = doc.conns := m2.trans hd1conns
  have hmConnsMem : ∀ x,
      amContains (s.mergeWithDocument f (microRestored s doc)).1.conns x = true ↔
      (x ∈ amKeys s.connectorDataMap ∨ amContains doc.conns x = true) := by
    intro x
    have h := g8 x
    rw [hp2conns] at h
    exact h
  have hmConnsNodup :
      (amKeys (s.mergeWithDocument f (microRestored s doc)).1.conns).Nodup := by
    apply g6
    rw [hp2conns]
    exact hnc
  have hmConnsInv : ∀ kv ∈ (s.mergeWithDocument f (microRestored s doc)).1.conns,
      kv.2.canvas = true := by
    apply g7
    intro kv hkv
    rw [hp2conns] at hkv
    exact hdocconns kv hkv
  refine ⟨?_, ?_, ?_⟩
  · intro x
    rw [show (s.restoreDocument f doc).1.items
      = (s.mergeWithDocument f (microRestored s doc)).1.items.filter (fun kv =>
          amContains s.itemDataMap kv.1 || !kv.2.canvas ||
          decide (kv.2.type = picItemTypeString)) from rfl]
    rw [amContains_filter _ _ x hmNodupItems]
    constructor
    · rintro ⟨v, hlk, hpred⟩
      have hv_canvas : v.canvas = true := hmItemsCanvas (x, v) (amLookup_mem _ _ _ hlk)
      simp only [Bool.or_eq_true, Bool.not_eq_true', decide_eq_true_eq] at hpred
      rcases hpred with (hsnap | hncv) | hpic
      · exact Or.inl ((amLookup_isSome_iff_mem _ _).1 hsnap)
      · rw [hv_canvas] at hncv
        exact absurd hncv (by decide)
      · by_cases hxs : x ∈ amKeys s.itemDataMap
        · exact Or.inl hxs
        · obtain ⟨it0, h0, ht, _⟩ := hmItemsTrack x hxs v hlk
          refine Or.inr ⟨it0, h0, ?_⟩
          rw [← ht]
          exact hpic
    · intro hx
      rcases hx with hsnap | ⟨it0, hlk0, hpic⟩
      · have hc : amContains (s.mergeWithDocument f (microRestored s doc)).1.items x
            = true := (hmItemsMem x).2 (Or.inl hsnap)
        obtain ⟨v, hv⟩ := Option.isSome_iff_exists.1 hc
        refine ⟨v, hv, ?_⟩
        have hs : amContains s.itemDataMap x = true := (amLookup_isSome_iff_mem _ _).2 hsnap
        simp [hs]
      · have hcont : amContains (s.mergeWithDocument f (microRestored s doc)).1.items x
            = true := by
          refine (hmItemsMem x).2 (Or.inr ?_)
          rw [amContains, hlk0]
          rfl
        obtain ⟨v, hv⟩ := Option.isSome_iff_exists.1 hcont
        refine ⟨v, hv, ?_⟩
        by_cases hxs : x ∈ amKeys s.itemDataMap
        · have hs : amContains s.itemDataMap x = true := (amLookup_isSome_iff_mem _ _).2 hxs
          simp [hs]
        · obtain ⟨it0', h0', ht', _⟩ := hmItemsTrack x hxs v hv
          rw [hlk0] at h0'
          obtain rfl : it0 = it0' := by injection h0'
          have hvp : v.type = picItemTypeString := by
            rw [ht']
            exact hpic
          simp [hvp]
  · intro x
    rw [show (s.restoreDocument f doc).1.nodes
      = (if (s.mergeWithDocument f (microRestored s doc)).1.isICN then
          (s.mergeWithDocument f (microRestored s doc)).1.nodes.filter (fun kv =>
            amContains s.nodeDataMap kv.1 || !kv.2.canvas || kv.2.isChildNode)
         else (s.mergeWithDocument f (microRestored s doc)).1.nodes) from rfl]
    rw [if_pos hmicn]
    rw [amContains_filter _ _ x hmNodesNodup]
    constructor
    · rintro ⟨v, hlk, hpred⟩
      have hinv := hmNodesInv (x, v) (amLookup_mem _ _ _ hlk)
      simp only [Bool.or_eq_true, Bool.not_eq_true'] at hpred
      rcases hpred with (hsnap | hncv) | hchild
      · exact (amLookup_isSome_iff_mem _ _).1 hsnap
      · rw [hinv.1] at hncv
        exact absurd hncv (by decide)
      · rw [hinv.2] at hchild
        exact absurd hchild (by decide)
    · intro hx
      have hc : amContains (s.mergeWithDocument f (microRestored s doc)).1.nodes x
          = true := (hmNodesMem x).2 (Or.inl hx)
      obtain ⟨v, hv⟩ := Option.isSome_iff_exists.1 hc
      refine ⟨v, hv, ?_⟩
      have hs : amContains s.nodeDataMap x = true := (amLookup_isSome_iff_mem _ _).2 hx
      simp [hs]
  · intro x
    rw [show (s.restoreDocument f doc).1.conns
      = (if (s.mergeWithDocument f (microRestored s doc)).1.isICN then
          (s.mergeWithDocument f (microRestored s doc)).1.conns.filter (fun kv =>
            amContains s.connectorDataMap kv.1 || !kv.2.canvas)
         else (s.mergeWithDocument f (microRestored s doc)).1.conns) from rfl]
    rw [if_pos hmicn]
    rw [amContains_filter _ _ x hmConnsNodup]
    constructor
    · rintro ⟨v, hlk, hpred⟩
      have hinv := hmConnsInv (x, v) (amLookup_mem _ _ _ hlk)
      simp only [Bool.or_eq_true, Bool.not_eq_true'] at hpred
      rcases hpred with hsnap | hncv
      · exact (amLookup_isSome_iff_mem _ _).1 hsnap
      · rw [hinv] at hncv
        exact absurd hncv (by decide)
    · intro hx
      have hc : amContains (s.mergeWithDocument f (microRestored s doc)).1.conns x
          = true := (hmConnsMem x).2 (Or.inl hx)
      obtain ⟨v, hv⟩ := Option.isSome_iff_exists.1 hc
      refine ⟨v, hv, ?_⟩
      have hs : amContains s.connectorDataMap x = true := (amLookup_isSome_iff_mem _ _).2 hx
      simp [hs]
/-- Snapshot for C7's witness: an item, a free node, and a connector from
the node to a child connection point of the item. -/
def c7WitnessSnap : ItemDocumentData :=
  { itemDataMap := [("i1", { type := "resistor", x := 4, y := 8 })]
    connectorDataMap := [("c1",
      { startNodeIsChild := false, startNodeId := "n1",
        endNodeIsChild := true, endNodeCId := "p1", endNodeParent := "i1" })]
    nodeDataMap := [("n1", { x := 1, y := 2 })]
    documentType := DocumentType.dt_circuit }

/-- A factory whose items expose the child connection point `p1`. -/
def c7Factory : ItemFactory :=
  { create := fun t => some { type := t, childCIds := ["p1"] }, valid := fun _ => true }

/-- The live document for C7's witness: a circuit holding only a
microcontroller placement item. -/
def c7Doc : LiveDocument :=
  { docType := DocumentType.dt_circuit, isICN := true,
    items := [("pic0", { type := picItemTypeString })] }

theorem restoreDocument_id_sets_witness :
    c7Doc.isICN = true ∧
    (amContains (c7WitnessSnap.restoreDocument c7Factory c7Doc).1.items "i1" = true ↔
      ("i1" ∈ amKeys c7WitnessSnap.itemDataMap ∨
        ∃ it : LiveItem, amLookup c7Doc.items "i1" = some it ∧
          it.type = picItemTypeString)) ∧
    (amContains (c7WitnessSnap.restoreDocument c7Factory c7Doc).1.items "pic0" = true ↔
      ("pic0" ∈ amKeys c7WitnessSnap.itemDataMap ∨
        ∃ it : LiveItem, amLookup c7Doc.items "pic0" = some it ∧
          it.type = picItemTypeString)) ∧
    (amContains (c7WitnessSnap.restoreDocument c7Factory c7Doc).1.nodes "n1" = true ↔
      "n1" ∈ amKeys c7WitnessSnap.nodeDataMap) ∧
    (amContains (c7WitnessSnap.restoreDocument c7Factory c7Doc).1.conns "c1" = true ↔
      "c1" ∈ amKeys c7WitnessSnap.connectorDataMap) := by
  have h := restoreDocument_id_sets c7WitnessSnap c7Factory c7Doc rfl (Or.inl rfl)
    (fun t it h => by
      simp only [c7Factory] at h
      injection h with h
      rw [← h])
    (fun kv hkv => by
      simp only [c7WitnessSnap, List.mem_singleton] at hkv
      subst hkv
      exact ⟨by decide, ⟨{ type := "resistor", childCIds := ["p1"] }, rfl, rfl⟩⟩)
    (fun kv hkv => by
      simp only [c7Doc, List.mem_singleton] at hkv
      subst hkv
      rfl)
    (fun kv hkv => by simp [c7Doc] at hkv)
    (fun kv hkv => by simp [c7Doc] at hkv)
    (by decide) (by decide) (by decide)
    (fun kv hkv => by
      simp only [c7WitnessSnap, List.mem_singleton] at hkv
      subst hkv
      exact ⟨by decide, by decide⟩)
  exact ⟨rfl, h.1 "i1", h.1 "pic0", h.2.1 "n1", h.2.2 "c1"⟩
